import Mathlib

/-!
Verification development for the Letterboxd-AI-Review record-reconciliation
and statistics engine.

The TypeScript sources embedded here are `src/lib/letterboxd.ts`
(`mergeTablesToFilms` and its helpers), `src/lib/stats.ts` (`computeStats`,
`computeStreaks`), and the variant merge implementation shipped in the
repository that carries the `ratedDates` field (embedded below in the `V5`
namespace).  The repository's `src/lib/utils.ts` module is not part of the
snapshot; its handful of helpers (`safeNum`, `toISODateOnly`, `mean`,
`median`, `stddev`, `pearson`, `clamp`, `monthKey`, `dayKey`, formatting)
are modelled from the specification and are marked as such in their doc
comments.

JavaScript numbers are modelled by `JsNum`, an exact unreduced-fraction
rational type whose operations are all structurally recursive (so that the
kernel can evaluate them).  All quantities appearing in the claims are
small decimal fractions, far from any IEEE-754 precision edge, so exact
rational arithmetic agrees with the JS float semantics on every value the
theorems touch.  String operations are implemented on the underlying
character lists (`String.data`); only ASCII case folding and ASCII
whitespace are modelled, which covers every header and field the claims
exercise.
-/

/-- JsNum models a JavaScript number as an exact fraction `num / den`.
Fractions are not reduced; equality of values is `eqv` (cross
multiplication).  `den = 0` never arises on the code paths exercised here
because the sources guard every division by a non-zero length check. -/
structure JsNum where
  num : Int
  den : Nat
deriving Repr, DecidableEq

namespace JsNum

/-- Embeds a natural number. -/
def ofNat (n : Nat) : JsNum := ⟨n, 1⟩

/-- Embeds an integer. -/
def ofInt (z : Int) : JsNum := ⟨z, 1⟩

/-- Addition of fractions, unreduced. -/
def add (a b : JsNum) : JsNum := ⟨a.num * b.den + b.num * a.den, a.den * b.den⟩

/-- Subtraction of fractions, unreduced. -/
def sub (a b : JsNum) : JsNum := ⟨a.num * b.den - b.num * a.den, a.den * b.den⟩

/-- Multiplication of fractions, unreduced. -/
def mul (a b : JsNum) : JsNum := ⟨a.num * b.num, a.den * b.den⟩

/-- Division of fractions; the divisor's sign is moved into the numerator so
the denominator stays a natural number. -/
def div (a b : JsNum) : JsNum :=
  if 0 ≤ b.num then ⟨a.num * b.den, a.den * b.num.toNat⟩
  else ⟨-(a.num * b.den), a.den * (-b.num).toNat⟩

/-- Value equality by cross multiplication (JS `===` on numbers). -/
def beq (a b : JsNum) : Bool := a.num * b.den == b.num * a.den

/-- Less-or-equal by cross multiplication. -/
def jle (a b : JsNum) : Bool := decide (a.num * b.den ≤ b.num * a.den)

/-- Strictly-less by cross multiplication. -/
def jlt (a b : JsNum) : Bool := decide (a.num * b.den < b.num * a.den)

/-- Floor to an integer (`Math.floor`). -/
def floor (a : JsNum) : Int := a.num.fdiv a.den

/-- Maximum of two numbers (`Math.max`). -/
def jmax (a b : JsNum) : JsNum := if jle a b then b else a

/-- Minimum of two numbers (`Math.min`). -/
def jmin (a b : JsNum) : JsNum := if jle a b then a else b

/-- Rounding to the nearest integer, halves up (`Math.round`). -/
def jround (a : JsNum) : Int := (add a ⟨1, 2⟩).floor

/-- Sum of a list of numbers starting from `0`. -/
def listSum (l : List JsNum) : JsNum := l.foldl add ⟨0, 1⟩

end JsNum

/-- RawRow is a parsed CSV row: ordered column-name/value pairs, as produced
by header-driven CSV decoding. -/
abbrev RawRow := List (String × String)

/-- ASCII lower-casing of one character (models `String.toLowerCase` on the
ASCII headers and URLs the pipeline reads). -/
def lowerChar (c : Char) : Char :=
  if 65 ≤ c.toNat ∧ c.toNat ≤ 90 then Char.ofNat (c.toNat + 32) else c

/-- ASCII whitespace test (models the whitespace class of JS `trim`). -/
def isWsChar (c : Char) : Bool := c = ' ' || c = '\t' || c = '\n' || c = '\r'

/-- Trims ASCII whitespace from both ends of a character list. -/
def trimChars (cs : List Char) : List Char :=
  ((cs.dropWhile isWsChar).reverse.dropWhile isWsChar).reverse

/-- Trim on strings (models JS `String.prototype.trim`). -/
def jsTrim (s : String) : String := String.mk (trimChars s.data)

/-- Lower-casing on strings. -/
def jsLower (s : String) : String := String.mk (s.data.map lowerChar)

/-- Lexicographic strictly-less on character lists (JS `<` on strings by
code units; all strings compared here are ASCII dates/names). -/
def lexLtChars : List Char → List Char → Bool
  | [], [] => false
  | [], _ :: _ => true
  | _ :: _, [] => false
  | a :: as, b :: bs =>
      if a < b then true else if b < a then false else lexLtChars as bs

/-- Strictly-less on strings. -/
def jsStrLt (a b : String) : Bool := lexLtChars a.data b.data

/-- Less-or-equal on strings. -/
def jsStrLe (a b : String) : Bool := !(jsStrLt b a)

/-- Stable insertion of one element into a sorted list, used to model the
(stable) JS `Array.prototype.sort`. -/
def insertLe {α : Type} (le : α → α → Bool) (x : α) : List α → List α
  | [] => [x]
  | y :: ys => if le y x then y :: insertLe le x ys else x :: y :: ys

/-- Stable insertion sort; JS `Array.prototype.sort` with a consistent
comparator is specified to produce exactly the stable sorted permutation,
so any stable sorting algorithm is an exact model of it. -/
def jsSortBy {α : Type} (le : α → α → Bool) : List α → List α
  | [] => []
  | x :: xs => insertLe le x (jsSortBy le xs)

/-- Ascending lexicographic sort of strings (JS default `sort()`). -/
def jsSortStr (l : List String) : List String := jsSortBy jsStrLe l

/-- Deduplication keeping the first occurrence, preserving order: models
`Array.from(new Set(xs))`. -/
def jsSetDedup {α : Type} [DecidableEq α] (l : List α) : List α :=
  l.foldl (fun acc x => if x ∈ acc then acc else acc ++ [x]) []

/-- Dedup-then-sort on strings: `Array.from(new Set(xs)).sort()`. -/
def dedupSortStr (l : List String) : List String := jsSortStr (jsSetDedup l)

/-- Splits a character list at a separator character (models JS
`String.prototype.split` with a single-character separator). -/
def splitOnChar (sep : Char) : List Char → List (List Char)
  | [] => [[]]
  | c :: cs =>
      let rest := splitOnChar sep cs
      if c = sep then [] :: rest
      else match rest with
        | [] => [[c]]
        | r :: rs => (c :: r) :: rs

/-- Digit accumulation for number parsing. -/
def digitsToNat (cs : List Char) : Nat :=
  cs.foldl (fun acc c => 10 * acc + (c.toNat - 48)) 0

/-- Checks that every character is an ASCII digit. -/
def allDigits (cs : List Char) : Bool := cs.all Char.isDigit

/-- Modelled from the spec: numeric parsing of the missing `utils` module's
`safeNum` ("numeric, accepts `½` as `.5` and comma decimal separator").
The input is trimmed, `½` expands to `.5`, a comma acts as the decimal
point, an optional leading minus is honoured, and anything that is not a
plain decimal number yields `none`. -/
def parseDecimalChars (cs : List Char) : Option JsNum :=
  let expanded := cs.flatMap fun c =>
    if c = '½' then ['.', '5'] else if c = ',' then ['.'] else [c]
  let (neg, body) := match expanded with
    | '-' :: rest => (true, rest)
    | rest => (false, rest)
  match splitOnChar '.' body with
  | [ip] =>
      if ip ≠ [] ∧ allDigits ip then
        some ⟨(if neg then -1 else 1) * (digitsToNat ip : Int), 1⟩
      else none
  | [ip, fp] =>
      if (ip ++ fp) ≠ [] ∧ allDigits ip ∧ allDigits fp then
        some ⟨(if neg then -1 else 1) * (digitsToNat (ip ++ fp) : Int), 10 ^ fp.length⟩
      else none
  | _ => none

/-- Modelled from the spec: `safeNum` of the missing `utils` module. -/
def safeNum (v : Option String) : Option JsNum :=
  v.bind fun s => parseDecimalChars (trimChars s.data)

/-- Gregorian leap-year test. -/
def isLeapYear (y : Nat) : Bool := (y % 4 = 0 && y % 100 ≠ 0) || y % 400 = 0

/-- Days in each month of the Gregorian calendar. -/
def daysInMonth (y m : Nat) : Nat :=
  if m = 2 then (if isLeapYear y then 29 else 28)
  else if m = 4 ∨ m = 6 ∨ m = 9 ∨ m = 11 then 30
  else 31

/-- Cumulative day count before the given month (1-based). -/
def daysBeforeMonth (y m : Nat) : Nat :=
  let base :=
    match m with
    | 1 => 0 | 2 => 31 | 3 => 59 | 4 => 90 | 5 => 120 | 6 => 151
    | 7 => 181 | 8 => 212 | 9 => 243 | 10 => 273 | 11 => 304 | _ => 334
  if 3 ≤ m ∧ isLeapYear y then base + 1 else base

/-- Days since the Unix epoch of a Gregorian calendar date (models
`Date.UTC` / `getTime() / 86400000` on `YYYY-MM-DD` inputs). -/
def epochDayOfYmd (y m d : Nat) : Int :=
  let py := y - 1
  (((365 * py + py / 4 + py / 400) - py / 100 : Int) + daysBeforeMonth y m + d) - 719163

/-- Modelled from JS `Date` semantics as the spec uses them: the epoch-day
index of an ISO `YYYY-MM-DD` string.  Non-ISO input (which never reaches
this function on the embedded code paths, all of which pre-validate with
`toISODateOnly`) is mapped to day `0`. -/
def epochDay (s : String) : Int :=
  match s.data with
  | [y1, y2, y3, y4, h1, m1, m2, h2, d1, d2] =>
      if y1.isDigit && y2.isDigit && y3.isDigit && y4.isDigit &&
         h1 = '-' && m1.isDigit && m2.isDigit && h2 = '-' &&
         d1.isDigit && d2.isDigit then
        epochDayOfYmd (digitsToNat [y1, y2, y3, y4])
          (digitsToNat [m1, m2]) (digitsToNat [d1, d2])
      else 0
  | _ => 0

/-- Modelled from the spec: `toISODateOnly` of the missing `utils` module.
All date fields are calendar dates, ISO `YYYY-MM-DD`; the helper trims the
raw value, keeps the leading date-only part of a timestamp, validates it as
a real Gregorian calendar date, and yields `none` for anything
unparseable. -/
def toISODateOnly (v : Option String) : Option String :=
  v.bind fun s =>
    let cs := (trimChars s.data).take 10
    match cs with
    | [y1, y2, y3, y4, h1, m1, m2, h2, d1, d2] =>
        let yv := digitsToNat [y1, y2, y3, y4]
        let mv := digitsToNat [m1, m2]
        let dv := digitsToNat [d1, d2]
        if y1.isDigit && y2.isDigit && y3.isDigit && y4.isDigit &&
           h1 = '-' && m1.isDigit && m2.isDigit && h2 = '-' &&
           d1.isDigit && d2.isDigit &&
           decide (1 ≤ mv) && decide (mv ≤ 12) &&
           decide (1 ≤ dv) && decide (dv ≤ daysInMonth yv mv) then
          some (String.mk cs)
        else none
    | _ => none

/-- Modelled from the spec: the missing `utils` module's `monthKey`, the
`YYYY-MM` month bucket of an ISO date. -/
def monthKey (s : String) : String := String.mk (s.data.take 7)

/-- Modelled from the spec: the missing `utils` module's `dayKey`, the
day-granularity key of an ISO date (the date itself). -/
def dayKey (s : String) : String := String.mk (s.data.take 10)

/-- Modelled from the spec: the missing `utils` module's `mean`; `none` on
an empty list (a month with zero rated films reports a null mean). -/
def mean (l : List JsNum) : Option JsNum :=
  if l.isEmpty then none
  else some (JsNum.div (JsNum.listSum l) (JsNum.ofNat l.length))

/-- Modelled from the spec: the missing `utils` module's `median`; `none`
on an empty list, middle element (or mean of the two middles) of the
ascending-sorted values otherwise. -/
def median (l : List JsNum) : Option JsNum :=
  match jsSortBy JsNum.jle l with
  | [] => none
  | sorted =>
      let n := sorted.length
      if n % 2 = 1 then sorted.get? (n / 2)
      else
        match sorted.get? (n / 2 - 1), sorted.get? (n / 2) with
        | some a, some b => some (JsNum.div (JsNum.add a b) (JsNum.ofNat 2))
        | _, _ => none

/-- Population variance of a list (helper for `stddev`). -/
def varianceOf (l : List JsNum) : JsNum :=
  match mean l with
  | none => ⟨0, 1⟩
  | some m =>
      JsNum.div
        (JsNum.listSum (l.map fun x => JsNum.mul (JsNum.sub x m) (JsNum.sub x m)))
        (JsNum.ofNat l.length)

/-- Modelled from the spec: the missing `utils` module's `stddev`
(population standard deviation), `none` on an empty list.  The numeric
payload carried here is the population variance: the true value is its
(irrational) square root, and no claim inspects the magnitude — only the
null/non-null behaviour is load-bearing. -/
def stddev (l : List JsNum) : Option JsNum :=
  if l.isEmpty then none else some (varianceOf l)

/-- Modelled from the spec: the missing `utils` module's `pearson`
correlation; `none` with fewer than 2 points or zero variance in either
dimension.  The numeric payload is the covariance: the true coefficient
divides it by the (irrational) product of standard deviations, and no
claim inspects the magnitude — only the null/non-null behaviour is
load-bearing. -/
def pearson (xs ys : List JsNum) : Option JsNum :=
  if xs.length < 2 ∨ ys.length ≠ xs.length then none
  else
    let vx := varianceOf xs
    let vy := varianceOf ys
    if vx.beq ⟨0, 1⟩ ∨ vy.beq ⟨0, 1⟩ then none
    else
      match mean xs, mean ys with
      | some mx, some my =>
          some (JsNum.div
            (JsNum.listSum ((xs.zip ys).map fun p =>
              JsNum.mul (JsNum.sub p.1 mx) (JsNum.sub p.2 my)))
            (JsNum.ofNat xs.length))
      | _, _ => none

/-- Modelled from the spec: the missing `utils` module's `clamp`. -/
def clamp (x lo hi : JsNum) : JsNum := JsNum.jmin (JsNum.jmax x lo) hi

/-- Integer rendering (JS number-to-string on integers). -/
def intToString (z : Int) : String :=
  if z < 0 then "-" ++ Nat.repr (-z).toNat else Nat.repr z.toNat

/-- Modelled from the spec: the missing `utils` module's `formatInt`
(plain integer rendering; locale grouping is presentation-only). -/
def formatInt (n : Nat) : String := Nat.repr n

/-- Modelled from the spec: the missing `utils` module's `formatPct`
(percentage rendering). -/
def formatPct (q : JsNum) : String :=
  intToString (JsNum.jround (JsNum.mul q (JsNum.ofNat 100))) ++ "%"

/-- Rendering of a JsNum as a fraction string; stands in for JS float
rendering inside the share-text strings, which no claim inspects. -/
def numToString (q : JsNum) : String :=
  intToString q.num ++ "/" ++ Nat.repr q.den

/-- Modelled from the spec: the missing `utils` module's `round1`
(rounding to one decimal). -/
def round1 (q : JsNum) : JsNum :=
  ⟨JsNum.jround (JsNum.mul q (JsNum.ofNat 10)), 10⟩

/-!
Embedding of `src/lib/letterboxd.ts`: the canonical `mergeTablesToFilms`
and its helpers.  The ZIP-reading front end (`readLetterboxdExportZip`,
`detectTableName`, `parseCSV`) is I/O glue outside the merge core and is
not needed by any claim; the merge consumes an already-parsed
`ExportTables` value exactly as in the source.
-/

/-- ExportTables from `letterboxd.ts`: one optional row list per recognized
table role (a missing table is `none`, mirroring the optional TS fields),
plus the file list and unrecognized files. -/
structure ExportTables where
  files : List String := []
  watched : Option (List RawRow) := none
  ratings : Option (List RawRow) := none
  diary : Option (List RawRow) := none
  reviews : Option (List RawRow) := none
  watchlist : Option (List RawRow) := none
  profile : Option (List RawRow) := none
  comments : Option (List RawRow) := none
  unknown : List (String × List RawRow) := []

/-- FilmRecord from `letterboxd.ts`. -/
structure FilmRecord where
  key : String
  name : String
  year : Option JsNum
  letterboxdUri : Option String
  watched : Bool
  watchedDates : List String
  watchedDateEstimatedCount : Nat
  rated : Bool
  rating : Option JsNum
  rewatchCount : Nat
  reviewCount : Nat
  reviewTextSamples : List String
  tags : List String
  sources : List String
deriving Repr, DecidableEq

/-- MergeAnomaly from `letterboxd.ts`. -/
structure MergeAnomaly where
  importSpikeDetected : Bool
  largestSingleDayImportCount : Nat
  largestSingleDayImportDate : Option String
  percentWithWatchedAt : JsNum
  watchedDateSpanYears : JsNum
  diaryEntrySpanYears : JsNum
deriving Repr, DecidableEq

/-- Sample entry of the debug summary from `letterboxd.ts`. -/
structure SampleFilm where
  key : String
  name : String
  sources : List String
  watchDatesCount : Nat
  hasRating : Bool
  hasReview : Bool
  hasTags : Bool
deriving Repr, DecidableEq

/-- MergeDebugSummary from `letterboxd.ts`. -/
structure MergeDebugSummary where
  recognizedCsvFiles : List String
  filmsTotal : Nat
  watchedTrueCount : Nat
  percentWithWatchedAt : JsNum
  ratingsHitRate : JsNum
  reviewsHitRate : JsNum
  onlyInRatingsNotInWatched : Nat
  onlyInReviewsNotInWatched : Nat
  largestSingleDayImportCount : Nat
  largestSingleDayImportDate : Option String
  watchedDateSpanYears : JsNum
  importSpikeDetected : Bool
  sampleFilms : List SampleFilm
deriving Repr, DecidableEq

/-- MergeResult from `letterboxd.ts`. -/
structure MergeResult where
  films : List FilmRecord
  anomaly : MergeAnomaly
  debug : MergeDebugSummary

/-- Header normalization from `letterboxd.ts`: trim and lower-case. -/
def normaliseHeader (h : String) : String := jsLower (jsTrim h)

/-- Field lookup from `letterboxd.ts`: the row's keys are normalized into a
map (later duplicates overwrite earlier ones, as JS object assignment
does), then the aliases are tried in order and the first value with a
non-empty trim is returned. -/
def rowLookup (row : RawRow) (k : String) : Option String :=
  row.foldl (fun acc p => if normaliseHeader p.1 = k then some p.2 else acc) none

/-- Alias-list field accessor `getField` from `letterboxd.ts`. -/
def getField (row : RawRow) : List String → Option String
  | [] => none
  | n :: rest =>
      match rowLookup row (normaliseHeader n) with
      | some v => if trimChars v.data ≠ [] then some v else getField row rest
      | none => getField row rest

/-- Slug-stopping characters of the `/film/([^/?#]+)/?` capture. -/
def isSlugStopChar (c : Char) : Bool := c = '/' || c = '?' || c = '#'

/-- Scanning core of `extractSlugFromUrl`: finds the first position where
`/film/` is followed by at least one capturable character, exactly as the
regex `\/film\/([^/?#]+)\/?` (with backtracking past empty captures)
does. -/
def findFilmSlug : List Char → Option (List Char)
  | '/' :: 'f' :: 'i' :: 'l' :: 'm' :: '/' :: rest =>
      let cap := rest.takeWhile (fun x => !(isSlugStopChar x))
      if cap ≠ [] then some cap
      else findFilmSlug ('f' :: 'i' :: 'l' :: 'm' :: '/' :: rest)
  | _ :: cs => findFilmSlug cs
  | [] => none

/-- Slug extraction from `letterboxd.ts`: case-insensitive match of
`/film/<slug>` in the trimmed URL, lower-cased capture. -/
def extractSlugFromUrl (url : String) : Option String :=
  let trimmed := trimChars url.data
  if trimmed = [] then none
  else (findFilmSlug (trimmed.map lowerChar)).map String.mk

/-- Key derivation `makeKeyFromRow` from `letterboxd.ts`: slug key from a
URL field when available, the caller's fallback key otherwise. -/
def makeKeyFromRow (row : RawRow) (fallback : String) : String × Option String :=
  let uri := getField row ["Letterboxd URI", "Letterboxd Uri", "URI", "Url", "URL", "Link"]
  let slug := match uri with
    | some u => extractSlugFromUrl u
    | none => none
  match slug with
  | some s => ("slug:" ++ s, uri)
  | none => (fallback, uri)

/-- Rounding to two decimals: models `Number(x.toFixed(2))` on the
non-negative spans it is applied to. -/
def jsToFixed2 (q : JsNum) : JsNum := ⟨JsNum.jround (JsNum.mul q (JsNum.ofNat 100)), 100⟩

/-- Span helper `collectSpanYears` from `letterboxd.ts`: dedup-sorted
dates, difference of the UTC timestamps of the first and last, divided by
a 365.25-day year and rounded to two decimals, clamped at zero. -/
def collectSpanYears (dates : List String) : JsNum :=
  if dates.isEmpty then ⟨0, 1⟩
  else
    let sorted := dedupSortStr dates
    let s := sorted.headD ""
    let e := sorted.getLastD ""
    let diffYears :=
      JsNum.div (JsNum.mul (JsNum.ofInt (epochDay e - epochDay s)) (JsNum.ofNat 86400000))
        (JsNum.mul ⟨36525, 100⟩ (JsNum.ofNat 86400000))
    JsNum.jmax ⟨0, 1⟩ (jsToFixed2 diffYears)

/-- Rewatch-flag parsing from `letterboxd.ts`. -/
def parseRewatchFlag (v : Option String) : Bool :=
  let x := jsLower (jsTrim (v.getD ""))
  x = "yes" || x = "true" || x = "1"

/-- Tag splitting of the diary pass: split on commas, trim, drop empties. -/
def splitTags (v : Option String) : List String :=
  ((splitOnChar ',' (v.getD "").data).map (fun cs => String.mk (trimChars cs))).filter
    (fun s => s ≠ "")

/-- Mutable merge state of `mergeTablesToFilms`: the identity-keyed record
map (kept in insertion order, as a JS `Map` iterates), the three
provenance key sets, the import-day counter map and the two diary date
accumulators. -/
structure MergeState where
  recs : List FilmRecord
  fromWatched : List String
  fromRatings : List String
  fromReviews : List String
  importDayMap : List (String × Nat)
  diaryDirectDates : List String
  diaryTimelineDates : List String

/-- Set insertion preserving first-insertion order (JS `Set.add`). -/
def setAdd (l : List String) (k : String) : List String :=
  if k ∈ l then l else l ++ [k]

/-- Counter-map increment (JS `map.set(d, (map.get(d) || 0) + 1)`). -/
def bumpDay (m : List (String × Nat)) (d : String) : List (String × Nat) :=
  if m.any (fun p => p.1 = d) then
    m.map (fun p => if p.1 = d then (p.1, p.2 + 1) else p)
  else m ++ [(d, 1)]

/-- Source-tracking part of `upsert`: an existing record gains the source
if absent. -/
def addSourceIfMissing (source : String) (r : FilmRecord) : FilmRecord :=
  if source ∈ r.sources then r else { r with sources := r.sources ++ [source] }

/-- The `upsert` helper of `mergeTablesToFilms`.  In the source the caller
mutates the returned record in place; here the caller passes its mutation
`upd`, applied to the (source-tagged) existing record or to the freshly
created one — the final map contents are identical.  Returns the updated
record list and the record's key. -/
def upsertRecs (recs : List FilmRecord) (row : RawRow) (source : String) (index : Nat)
    (upd : FilmRecord → FilmRecord) : List FilmRecord × String :=
  let name := (getField row ["Name", "Film", "Title"]).getD "Unknown"
  let year := safeNum (getField row ["Year"])
  let ku := makeKeyFromRow row ("unknown:" ++ source ++ ":" ++ Nat.repr index)
  let key := ku.1
  if recs.any (fun r => r.key = key) then
    (recs.map (fun r => if r.key = key then upd (addSourceIfMissing source r) else r), key)
  else
    (recs ++ [upd {
      key := key, name := name, year := year, letterboxdUri := ku.2
      watched := false, watchedDates := [], watchedDateEstimatedCount := 0
      rated := false, rating := none, rewatchCount := 0, reviewCount := 0
      reviewTextSamples := [], tags := [], sources := [source] }], key)

/-- Indexed left fold, modelling `Array.prototype.forEach` with its index
argument. -/
def foldIdx {α β : Type} (f : β → α → Nat → β) : β → List α → Nat → β
  | b, [], _ => b
  | b, a :: as, i => foldIdx f (f b a i) as (i + 1)

/-- One row of the watched pass of `mergeTablesToFilms`. -/
def watchedStep (st : MergeState) (row : RawRow) (idx : Nat) : MergeState :=
  let rk := upsertRecs st.recs row "watched" idx (fun r => { r with watched := true })
  let st1 := { st with recs := rk.1, fromWatched := setAdd st.fromWatched rk.2 }
  match toISODateOnly (getField row ["Watched Date", "Date", "Imported Date"]) with
  | some d => { st1 with importDayMap := bumpDay st1.importDayMap d }
  | none => st1

/-- Record mutation of the ratings pass: a parsed rating value sets `rated`
and `rating`; an unparseable one leaves the record untouched. -/
def ratingsUpd (row : RawRow) (fr : FilmRecord) : FilmRecord :=
  match safeNum (getField row ["Rating", "Rated", "Stars"]) with
  | some q => { fr with rated := true, rating := some q }
  | none => fr

/-- One row of the ratings pass of `mergeTablesToFilms`. -/
def ratingsStep (st : MergeState) (row : RawRow) (idx : Nat) : MergeState :=
  let rk := upsertRecs st.recs row "ratings" idx (ratingsUpd row)
  { st with recs := rk.1, fromRatings := setAdd st.fromRatings rk.2 }

/-- Record mutation of the reviews pass: the review counter always
increments; non-empty trimmed text is truncated to 500 characters and
appended to the samples. -/
def reviewsUpd (row : RawRow) (fr : FilmRecord) : FilmRecord :=
  let rec1 := { fr with reviewCount := fr.reviewCount + 1 }
  match getField row ["Review", "Text", "Content"] with
  | some s =>
      if trimChars s.data ≠ [] then
        { rec1 with
            reviewTextSamples :=
              rec1.reviewTextSamples ++ [String.mk ((trimChars s.data).take 500)] }
      else rec1
  | none => rec1

/-- One row of the reviews pass of `mergeTablesToFilms`. -/
def reviewsStep (st : MergeState) (row : RawRow) (idx : Nat) : MergeState :=
  let rk := upsertRecs st.recs row "reviews" idx (reviewsUpd row)
  { st with recs := rk.1, fromReviews := setAdd st.fromReviews rk.2 }

/-- Record mutation of the diary pass: watched-date preferred, logged-date
fallback counted as estimated, rewatch flag and tags accumulated. -/
def diaryUpd (row : RawRow) (fr : FilmRecord) : FilmRecord :=
  let watchedAt := toISODateOnly (getField row ["Watched Date", "Watched", "Date"])
  let loggedAt := toISODateOnly (getField row ["Logged Date", "Logged", "Diary Date"])
  let rew := parseRewatchFlag (getField row ["Rewatch"])
  let tags := splitTags (getField row ["Tags", "Tag"])
  let rec1 :=
    match watchedAt, loggedAt with
    | some w, _ => { fr with watchedDates := fr.watchedDates ++ [w] }
    | none, some l => { fr with
        watchedDates := fr.watchedDates ++ [l]
        watchedDateEstimatedCount := fr.watchedDateEstimatedCount + 1 }
    | none, none => fr
  let rec2 := if rew then { rec1 with rewatchCount := rec1.rewatchCount + 1 } else rec1
  if tags ≠ [] then { rec2 with tags := rec2.tags ++ tags } else rec2

/-- One row of the diary pass of `mergeTablesToFilms`: the record mutation
plus the two merge-level date accumulators. -/
def diaryStep (st : MergeState) (row : RawRow) (idx : Nat) : MergeState :=
  let watchedAt := toISODateOnly (getField row ["Watched Date", "Watched", "Date"])
  let loggedAt := toISODateOnly (getField row ["Logged Date", "Logged", "Diary Date"])
  let rk := upsertRecs st.recs row "diary" idx (diaryUpd row)
  let st1 := { st with recs := rk.1 }
  match watchedAt, loggedAt with
  | some w, _ => { st1 with
      diaryDirectDates := st1.diaryDirectDates ++ [w]
      diaryTimelineDates := st1.diaryTimelineDates ++ [w] }
  | none, some l => { st1 with diaryTimelineDates := st1.diaryTimelineDates ++ [l] }
  | none, none => st1

/-- One row of the watchlist pass (source tracking only). -/
def watchlistStep (st : MergeState) (row : RawRow) (idx : Nat) : MergeState :=
  { st with recs := (upsertRecs st.recs row "watchlist" idx id).1 }

/-- One row of the profile pass (source tracking only). -/
def profileStep (st : MergeState) (row : RawRow) (idx : Nat) : MergeState :=
  { st with recs := (upsertRecs st.recs row "profile" idx id).1 }

/-- One row of the comments pass (source tracking only; comments must not
be treated as reviews). -/
def commentsStep (st : MergeState) (row : RawRow) (idx : Nat) : MergeState :=
  { st with recs := (upsertRecs st.recs row "comments" idx id).1 }

/-- Per-record finalisation of `mergeTablesToFilms`: dedup-sort the
timeline, dedup the review samples and the tags, sort the sources. -/
def finaliseRecord (r : FilmRecord) : FilmRecord :=
  { r with
    watchedDates := dedupSortStr r.watchedDates
    reviewTextSamples := jsSetDedup r.reviewTextSamples
    tags := jsSetDedup r.tags
    sources := jsSortStr r.sources }

/-- Largest single-day scan of `mergeTablesToFilms`: a strictly-greater
fold over the counter map in insertion order. -/
def largestEntry (m : List (String × Nat)) : Option String × Nat :=
  m.foldl (fun acc p => if p.2 > acc.2 then (some p.1, p.2) else acc) (none, 0)

/-- The empty merge state. -/
def initState : MergeState := ⟨[], [], [], [], [], [], []⟩

/-- The merged record map after all seven table passes, before
finalisation. -/
def mergeState (t : ExportTables) : MergeState :=
  let st1 := foldIdx watchedStep initState (t.watched.getD []) 0
  let st2 := foldIdx ratingsStep st1 (t.ratings.getD []) 0
  let st3 := foldIdx reviewsStep st2 (t.reviews.getD []) 0
  let st4 := foldIdx diaryStep st3 (t.diary.getD []) 0
  let st5 := foldIdx watchlistStep st4 (t.watchlist.getD []) 0
  let st6 := foldIdx profileStep st5 (t.profile.getD []) 0
  foldIdx commentsStep st6 (t.comments.getD []) 0

/-- The merge algorithm `mergeTablesToFilms` of `letterboxd.ts`.  The
`Math.random()` shuffle behind the five-record debug sample is modelled as
the identity permutation (the spec states the sampling need not be
deterministic); no claim reads that field. -/
def mergeTablesToFilms (t : ExportTables) : MergeResult :=
  let st := mergeState t
  let out := st.recs.map finaliseRecord
  let largest := largestEntry st.importDayMap
  let largestSingleDayImportDate := largest.1
  let largestSingleDayImportCount := largest.2
  let watchedWithTimeline := (out.filter (fun f => f.watchedDates.length > 0)).length
  let percentWithWatchedAt :=
    if out.length ≠ 0 then JsNum.div (JsNum.ofNat watchedWithTimeline) (JsNum.ofNat out.length)
    else ⟨0, 1⟩
  let watchedDateSpanYears := collectSpanYears st.diaryTimelineDates
  let diaryEntrySpanYears := collectSpanYears st.diaryDirectDates
  let spikeRatio :=
    if out.length ≠ 0 then
      JsNum.div (JsNum.ofNat largestSingleDayImportCount) (JsNum.ofNat out.length)
    else ⟨0, 1⟩
  let importSpikeDetected :=
    decide (largestSingleDayImportCount ≥ 20) && JsNum.jle ⟨25, 100⟩ spikeRatio &&
      JsNum.jlt ⟨1, 1⟩ watchedDateSpanYears
  let onlyInRatingsNotInWatched := (st.fromRatings.filter (fun k => k ∉ st.fromWatched)).length
  let onlyInReviewsNotInWatched := (st.fromReviews.filter (fun k => k ∉ st.fromWatched)).length
  let random5 := out.take 5
  { films := out
    anomaly := {
      importSpikeDetected := importSpikeDetected
      largestSingleDayImportCount := largestSingleDayImportCount
      largestSingleDayImportDate := largestSingleDayImportDate
      percentWithWatchedAt := percentWithWatchedAt
      watchedDateSpanYears := watchedDateSpanYears
      diaryEntrySpanYears := diaryEntrySpanYears }
    debug := {
      recognizedCsvFiles := t.files
      filmsTotal := out.length
      watchedTrueCount := (out.filter (fun f => f.watched)).length
      percentWithWatchedAt := percentWithWatchedAt
      ratingsHitRate :=
        if out.length ≠ 0 then
          JsNum.div (JsNum.ofNat ((out.filter (fun f => f.rated ∧ f.rating ≠ none)).length))
            (JsNum.ofNat out.length)
        else ⟨0, 1⟩
      reviewsHitRate :=
        if out.length ≠ 0 then
          JsNum.div (JsNum.ofNat ((out.filter (fun f => f.reviewCount > 0)).length))
            (JsNum.ofNat out.length)
        else ⟨0, 1⟩
      onlyInRatingsNotInWatched := onlyInRatingsNotInWatched
      onlyInReviewsNotInWatched := onlyInReviewsNotInWatched
      largestSingleDayImportCount := largestSingleDayImportCount
      largestSingleDayImportDate := largestSingleDayImportDate
      watchedDateSpanYears := watchedDateSpanYears
      importSpikeDetected := importSpikeDetected
      sampleFilms := random5.map (fun f => {
        key := f.key, name := f.name, sources := f.sources
        watchDatesCount := f.watchedDates.length
        hasRating := f.rated ∧ f.rating ≠ none
        hasReview := f.reviewCount > 0
        hasTags := f.tags.length > 0 }) } }

/-!
Embedding of the variant merge implementation shipped in the repository
alongside `letterboxd.ts` (the revision whose `FilmRecord` carries `slug`,
`ratedDates`, `diaryEntries` and `liked`, resolves identity purely by URL
slug, and uses the `max(40, 35% of watched rows)` import-spike rule).
-/

namespace V5

/-- ExportTables of the variant: non-optional row lists per table. -/
structure ExportTables where
  files : List String := []
  detectedCsv : List String := []
  watched : List RawRow := []
  ratings : List RawRow := []
  diary : List RawRow := []
  reviews : List RawRow := []
  watchlist : List RawRow := []
  profile : List RawRow := []
  comments : List RawRow := []
  unknown : List (String × List RawRow) := []

/-- DiaryEntry of the variant. -/
structure DiaryEntry where
  watchedAt : String
  estimated : Bool
  loggedAt : Option String
  rewatch : Bool
  tags : List String
deriving Repr, DecidableEq

/-- FilmRecord of the variant. -/
structure FilmRecord where
  key : String
  slug : String
  name : String
  year : Option JsNum
  letterboxdUri : Option String
  watched : Bool
  watchedDates : List String
  rated : Bool
  rating : Option JsNum
  ratedDates : List String
  diaryEntries : List DiaryEntry
  rewatchCount : Nat
  reviewCount : Nat
  reviewTextSamples : List String
  tags : List String
  liked : Bool
  sources : List String
deriving Repr, DecidableEq

/-- MergeAnomaly of the variant. -/
structure MergeAnomaly where
  importSpikeDetected : Bool
  largestSingleDayImportCount : Nat
  largestSingleDayImportDate : Option String
  percentWithWatchedAt : JsNum
  watchedDateSpanYears : JsNum
  diaryEntrySpanYears : JsNum
deriving Repr, DecidableEq

/-- Scanner for the `boxd.it/([a-zA-Z0-9]+)` short-link capture. -/
def findBoxdIt : List Char → Option (List Char)
  | 'b' :: 'o' :: 'x' :: 'd' :: '.' :: 'i' :: 't' :: '/' :: rest =>
      let cap := rest.takeWhile (fun c => c.isAlpha || c.isDigit)
      if cap ≠ [] then some cap
      else findBoxdIt ('o' :: 'x' :: 'd' :: '.' :: 'i' :: 't' :: '/' :: rest)
  | _ :: cs => findBoxdIt cs
  | [] => none

/-- Stop characters of the `letterboxd.com/film/([^/\s?#]+)` capture. -/
def isFullStopChar (c : Char) : Bool := c = '/' || c = '?' || c = '#' || isWsChar c

/-- Scanner for the `letterboxd.com/film/([^/\s?#]+)` capture. -/
def findFullFilm : List Char → Option (List Char)
  | 'l' :: 'e' :: 't' :: 't' :: 'e' :: 'r' :: 'b' :: 'o' :: 'x' :: 'd' :: '.' :: 'c' :: 'o'
      :: 'm' :: '/' :: 'f' :: 'i' :: 'l' :: 'm' :: '/' :: rest =>
      let cap := rest.takeWhile (fun c => !(isFullStopChar c))
      if cap ≠ [] then some cap
      else
        findFullFilm ('e' :: 't' :: 't' :: 'e' :: 'r' :: 'b' :: 'o' :: 'x' :: 'd' :: '.'
          :: 'c' :: 'o' :: 'm' :: '/' :: 'f' :: 'i' :: 'l' :: 'm' :: '/' :: rest)
  | _ :: cs => findFullFilm cs
  | [] => none

/-- Drops one leading `http://` or `https://`. -/
def dropScheme : List Char → List Char
  | 'h' :: 't' :: 't' :: 'p' :: 's' :: ':' :: '/' :: '/' :: rest => rest
  | 'h' :: 't' :: 't' :: 'p' :: ':' :: '/' :: '/' :: rest => rest
  | cs => cs

/-- Removes everything from the first occurrence of the character on. -/
def cutFrom (stop : Char) (cs : List Char) : List Char := cs.takeWhile (fun c => c ≠ stop)

/-- Drops one trailing slash (the `\/$` replace). -/
def dropTrailingSlash (cs : List Char) : List Char :=
  match cs.reverse with
  | '/' :: rest => rest.reverse
  | _ => cs

/-- Link-to-slug resolution `extractSlugFromLink` of the variant: short
link capture, then full film-URL capture, then the schemeless raw link as
a last resort. -/
def extractSlugFromLink (link : Option String) : Option String :=
  match link with
  | none => none
  | some l =>
      let v := trimChars l.data
      if v = [] then none
      else
        match findBoxdIt v with
        | some cap => some (String.mk (cap.map lowerChar))
        | none =>
            match findFullFilm v with
            | some cap => some (String.mk (cap.map lowerChar))
            | none =>
                let fb := dropTrailingSlash (cutFrom '#' (cutFrom '?' (dropScheme v)))
                if fb = [] then none else some (String.mk fb)

/-- Per-row slug lookup `getFilmSlug` of the variant. -/
def getFilmSlug (row : RawRow) : Option String :=
  extractSlugFromLink
    (getField row ["Letterboxd URI", "Letterboxd Uri", "URI", "Url", "URL", "Link", "Content"])

/-- Span helper `spanYears` of the variant: difference of the four-digit
year prefixes of the first and last sorted dates, clamped at zero. -/
def spanYears (dates : List String) : JsNum :=
  let clean := jsSortStr (dates.filter (fun d => d ≠ ""))
  match clean with
  | [] => ⟨0, 1⟩
  | _ =>
      let a := (clean.headD "").data.take 4
      let b := (clean.getLastD "").data.take 4
      if allDigits a ∧ a.length = 4 ∧ allDigits b ∧ b.length = 4 then
        ⟨max 0 ((digitsToNat b : Int) - (digitsToNat a : Int)), 1⟩
      else ⟨0, 1⟩

/-- Source tagging (`if (!rec.sources.includes(s)) rec.sources.push(s)`). -/
def addSource (s : String) (fr : FilmRecord) : FilmRecord :=
  if s ∈ fr.sources then fr else { fr with sources := fr.sources ++ [s] }

/-- The variant's `upsert` applied together with the caller's mutation:
looks the slug up in the record map, creating a fresh record (with empty
`sources`) when absent.  Rows without a resolvable slug are skipped by the
callers. -/
def applyRow (recs : List FilmRecord) (row : RawRow) (slug : String)
    (upd : FilmRecord → FilmRecord) : List FilmRecord :=
  if recs.any (fun r => r.key = slug) then
    recs.map (fun r => if r.key = slug then upd r else r)
  else
    let name := (getField row ["Name", "Film", "Title"]).getD "Unknown"
    let year := safeNum (getField row ["Year"])
    let uri := getField row ["Letterboxd URI", "Letterboxd Uri", "URI", "Url", "URL", "Link", "Content"]
    recs ++ [upd {
      key := slug, slug := slug, name := name, year := year, letterboxdUri := uri
      watched := false, watchedDates := [], rated := false, rating := none
      ratedDates := [], diaryEntries := [], rewatchCount := 0, reviewCount := 0
      reviewTextSamples := [], tags := [], liked := false, sources := [] }]

/-- Merge state of the variant: record map plus the diary counters and
date accumulators. -/
structure MergeSt where
  recs : List FilmRecord
  diaryWithWatchedAt : Nat
  diaryEffectiveDates : List String
  diaryLoggedDates : List String

/-- One row of the variant's watched pass. -/
def watchedStep (st : MergeSt) (row : RawRow) : MergeSt :=
  match getFilmSlug row with
  | none => st
  | some slug =>
      { st with recs := (applyRow st.recs row slug
          (fun fr => addSource "watched" { fr with watched := true })) }

/-- One row of the variant's ratings pass: `rated` is set even when the
rating value does not parse. -/
def ratingsStep (st : MergeSt) (row : RawRow) : MergeSt :=
  match getFilmSlug row with
  | none => st
  | some slug =>
      let r := safeNum (getField row ["Rating", "Rated", "Stars"])
      let d := toISODateOnly (getField row ["Date", "Rated Date"])
      { st with recs := applyRow st.recs row slug (fun fr =>
          let fr1 := { fr with rated := true }
          let fr2 := match r with
            | some q => { fr1 with rating := some q }
            | none => fr1
          let fr3 := match d with
            | some dd => { fr2 with ratedDates := fr2.ratedDates ++ [dd] }
            | none => fr2
          addSource "ratings" fr3) }

/-- One row of the variant's diary pass: the effective date is the watched
date with logged-date fallback; rows with neither only gain the source
tag. -/
def diaryStep (st : MergeSt) (row : RawRow) : MergeSt :=
  match getFilmSlug row with
  | none => st
  | some slug =>
      let watchedAt := toISODateOnly (getField row ["Watched Date", "Watched At", "watched_at"])
      let loggedAt := toISODateOnly (getField row ["Date", "Logged Date", "logged_at"])
      let effective := match watchedAt with
        | some w => some w
        | none => loggedAt
      let st1 := { st with diaryWithWatchedAt :=
        st.diaryWithWatchedAt + (if watchedAt.isSome then 1 else 0) }
      match effective with
      | none => { st1 with recs := applyRow st1.recs row slug (addSource "diary") }
      | some eff =>
          let rewRaw := jsLower (jsTrim ((getField row ["Rewatch"]).getD ""))
          let rew := rewRaw = "yes" || rewRaw = "true" || rewRaw = "1"
          let tags := splitTags (getField row ["Tags"])
          let st2 := { st1 with recs := applyRow st1.recs row slug (fun fr =>
            let fr0 := addSource "diary" fr
            let fr1 := { fr0 with
              diaryEntries := fr0.diaryEntries ++
                [({ watchedAt := eff, estimated := watchedAt.isNone, loggedAt := loggedAt
                    rewatch := rew, tags := tags } : DiaryEntry)]
              watchedDates := fr0.watchedDates ++ [eff] }
            let fr2 := if rew then { fr1 with rewatchCount := fr1.rewatchCount + 1 } else fr1
            { fr2 with tags := fr2.tags ++ tags }) }
          { st2 with
            diaryEffectiveDates := st2.diaryEffectiveDates ++ [eff]
            diaryLoggedDates := st2.diaryLoggedDates ++ (match loggedAt with
              | some lg => [lg]
              | none => []) }

/-- One row of the variant's reviews pass. -/
def reviewsStep (st : MergeSt) (row : RawRow) : MergeSt :=
  match getFilmSlug row with
  | none => st
  | some slug =>
      let txt := getField row ["Review", "Text", "Content"]
      { st with recs := applyRow st.recs row slug (fun fr =>
          let fr1 := { fr with reviewCount := fr.reviewCount + 1 }
          let fr2 := match txt with
            | some s =>
                if trimChars s.data ≠ [] then
                  { fr1 with reviewTextSamples :=
                      fr1.reviewTextSamples ++ [String.mk ((trimChars s.data).take 500)] }
                else fr1
            | none => fr1
          addSource "reviews" fr2) }

/-- Per-record finalisation of the variant: dedup-sort the two date lists,
dedup the tags. -/
def finaliseRecord (fr : FilmRecord) : FilmRecord :=
  { fr with
    watchedDates := dedupSortStr fr.watchedDates
    ratedDates := dedupSortStr fr.ratedDates
    tags := jsSetDedup fr.tags }

/-- MergeResult of the variant (the debug block is assembled but no claim
reads it; the random sample is modelled as the first five records). -/
structure MergeResult where
  films : List FilmRecord
  anomaly : MergeAnomaly

/-- The variant's `mergeTablesToFilms`: watched, ratings, diary, reviews
passes in that order; watchlist, profile and comments are parsed but never
merged. -/
def mergeTablesToFilms (t : ExportTables) : MergeResult :=
  let st0 : MergeSt := ⟨[], 0, [], []⟩
  let st1 := t.watched.foldl watchedStep st0
  let st2 := t.ratings.foldl ratingsStep st1
  let st3 := t.diary.foldl diaryStep st2
  let st4 := t.reviews.foldl reviewsStep st3
  let out := st4.recs.map finaliseRecord
  let importMap := t.watched.foldl (fun m row =>
    match toISODateOnly (getField row ["Date"]) with
    | some d => bumpDay m d
    | none => m) []
  let peak := (jsSortBy (fun (a b : String × Nat) => decide (b.2 ≤ a.2)) importMap).head?
  let largestSingleDayImportCount := (peak.map Prod.snd).getD 0
  let largestSingleDayImportDate := peak.map Prod.fst
  let percentWithWatchedAt :=
    if t.diary.length ≠ 0 then
      JsNum.div (JsNum.ofNat st4.diaryWithWatchedAt) (JsNum.ofNat t.diary.length)
    else ⟨0, 1⟩
  let watchedDateSpanYears := spanYears st4.diaryEffectiveDates
  let diaryEntrySpanYears := spanYears st4.diaryLoggedDates
  let threshold := max 40 (JsNum.jround (JsNum.mul (JsNum.ofNat t.watched.length) ⟨35, 100⟩))
  let importSpikeDetected := decide ((largestSingleDayImportCount : Int) ≥ threshold)
  { films := out
    anomaly := {
      importSpikeDetected := importSpikeDetected
      largestSingleDayImportCount := largestSingleDayImportCount
      largestSingleDayImportDate := largestSingleDayImportDate
      percentWithWatchedAt := percentWithWatchedAt
      watchedDateSpanYears := watchedDateSpanYears
      diaryEntrySpanYears := diaryEntrySpanYears } }

end V5

/-!
Embedding of `src/lib/stats.ts` (`computeStats` and its helpers).  The
`FilmRecord` type this module consumes is the one its field accesses
require (`watchedAtDates`, `loggedAtDates`, `reviewText`,
`importedAtDates`, `diaryEntries`, `like`); the letterboxd module in this
snapshot exports a different record shape, so the input type is modelled
from the statistics module's own usage.  The impure `new Date()` reads
(`generatedAt`) become an explicit argument.
-/

namespace Stats

/-- Diary entry as read by the statistics module. -/
structure DiaryEntry where
  watchedAt : Option String
  loggedAt : Option String
  rewatch : Bool
deriving Repr, DecidableEq

/-- Film record as read by the statistics module. -/
structure FilmRecord where
  watched : Bool
  watchedAtDates : List String
  loggedAtDates : List String
  importedAtDates : List String
  rated : Bool
  rating : Option JsNum
  reviewText : List String
  year : Option JsNum
  diaryEntries : List DiaryEntry
  like : Bool
deriving Repr, DecidableEq

/-- TrendPoint from `stats.ts`. -/
structure TrendPoint where
  period : String
  watched : Nat
  meanRating : Option JsNum
  unratedShare : JsNum
deriving Repr, DecidableEq

/-- RadarMetric from `stats.ts`. -/
structure RadarMetric where
  key : String
  label : String
  value : Int
deriving Repr, DecidableEq

/-- Histogram bucket (`{rating, count}`). -/
structure HistBucket where
  rating : JsNum
  count : Nat
deriving Repr, DecidableEq

/-- Streak segment; the TS fields `start`/`end` are `startDay`/`endDay`
here (`end` is a Lean keyword). -/
structure StreakSeg where
  startDay : String
  endDay : String
  days : Int
deriving Repr, DecidableEq

/-- Month/count pair. -/
structure MonthCount where
  month : String
  count : Nat
deriving Repr, DecidableEq

/-- Day/count pair. -/
structure DayCount where
  day : String
  count : Nat
deriving Repr, DecidableEq

/-- Year/count pair. -/
structure YearCount where
  year : JsNum
  count : Nat
deriving Repr, DecidableEq

/-- Decade/count pair. -/
structure DecadeCount where
  decade : String
  count : Nat
deriving Repr, DecidableEq

/-- Word/count pair. -/
structure WordCount where
  word : String
  count : Nat
deriving Repr, DecidableEq

/-- Persona record; the TS field `type` is `ptype` here (`type` is a Lean
keyword). -/
structure Persona where
  ptype : String
  reason : String
deriving Repr, DecidableEq

/-- Totals block of the StatPack. -/
structure Totals where
  filmsWatched : Nat
  filmsRated : Nat
  filmsWithReviews : Nat
  diaryEntries : Nat
  unratedWatched : Int
  ratedShare : JsNum
  rewatchFilms : Nat
  likes : Nat
deriving Repr, DecidableEq

/-- Ratings block of the StatPack. -/
structure RatingsBlock where
  mean : Option JsNum
  median : Option JsNum
  stddev : Option JsNum
  histogram : List HistBucket
  mode : Option JsNum
  indecisiveShare : JsNum
deriving Repr, DecidableEq

/-- Activity block of the StatPack. -/
structure ActivityBlock where
  byMonth : List MonthCount
  longestStreakDays : Int
  topStreaks : List StreakSeg
  busiestRealDay : Option DayCount
  ratingDateCorrelation : Option JsNum
  usedLoggedFallback : Bool
deriving Repr, DecidableEq

/-- Trends block of the StatPack. -/
structure TrendsBlock where
  timeline : List TrendPoint
  recent12 : List TrendPoint
  recent24 : List TrendPoint
deriving Repr, DecidableEq

/-- Release-years block of the StatPack. -/
structure ReleaseYearsBlock where
  top : List YearCount
  spanMin : Option JsNum
  spanMax : Option JsNum
  decadeBuckets : List DecadeCount
  comfortZoneReturnRate : JsNum
  explorationIndex : JsNum
deriving Repr, DecidableEq

/-- Text block of the StatPack. -/
structure TextBlock where
  topWords : List WordCount
  avgReviewLength : Option JsNum
  expressionIntensity : JsNum
  persona : Persona
deriving Repr, DecidableEq

/-- Anomaly block of the StatPack. -/
structure AnomalyBlock where
  importSpikeDetected : Bool
  largestSingleDayImportCount : Nat
  percentWithWatchedDates : JsNum
  watchedDateSpanYears : Int
  diaryEntrySpanYears : Int
deriving Repr, DecidableEq

/-- Share-text block of the StatPack. -/
structure ShareTextBlock where
  short : String
  long : String
deriving Repr, DecidableEq

/-- StatPack from `stats.ts`. -/
structure StatPack where
  generatedAt : String
  totals : Totals
  ratings : RatingsBlock
  activity : ActivityBlock
  trends : TrendsBlock
  releaseYears : ReleaseYearsBlock
  text : TextBlock
  anomaly : AnomalyBlock
  radar : List RadarMetric
  shareText : ShareTextBlock

/-- Stopword list from `stats.ts`. -/
def STOPWORDS : List String :=
  ["the", "and", "for", "that", "with", "this", "have", "you", "are", "was",
   "film", "movie", "just", "very", "really", "good", "great", "like", "dont", "didnt"]

/-- Half-star bucket list `ratingBucketsHalfStars` from `stats.ts`; the
float loop `0.5, 1.0, …, 5.0` (with its `round(r*10)/10` dust cleanup)
produces exactly the ten half-integers, which sums of halves represent
exactly in binary floating point. -/
def ratingBucketsHalfStars : List JsNum := (List.range 10).map (fun i => ⟨i + 1, 2⟩)

/-- Epoch-day conversion `ymdToEpochDay` from `stats.ts`. -/
def ymdToEpochDay (iso : String) : Int := epochDay iso

/-- Best timeline date `bestTimelineDate` from `stats.ts`: last watched
date, else last logged date flagged as fallback. -/
def bestTimelineDate (f : FilmRecord) : Option String × Bool :=
  match f.watchedAtDates.getLast? with
  | some d => (some d, false)
  | none =>
      match f.loggedAtDates.getLast? with
      | some d => (some d, true)
      | none => (none, false)

/-- Segment accumulation of `computeStreaks`: consecutive epoch days grow
the current segment, a gap closes it. -/
def streakSegs (s p : String) : List String → List StreakSeg
  | [] => [⟨s, p, ymdToEpochDay p - ymdToEpochDay s + 1⟩]
  | cur :: rest =>
      if ymdToEpochDay cur = ymdToEpochDay p + 1 then streakSegs s cur rest
      else ⟨s, p, ymdToEpochDay p - ymdToEpochDay s + 1⟩ :: streakSegs cur cur rest

/-- Streak detection `computeStreaks` from `stats.ts`: dedup-sort the day
strings, build maximal consecutive segments, sort them by length
descending (stable) and report the longest plus the top three. -/
def computeStreaks (days : List String) : Int × List StreakSeg :=
  match dedupSortStr days with
  | [] => (0, [])
  | u0 :: urest =>
      let segs := streakSegs u0 u0 urest
      let sorted := jsSortBy (fun a b => decide (b.days ≤ a.days)) segs
      ((sorted.head?.map StreakSeg.days).getD 0, sorted.take 3)

/-- Month aggregation cell of the timeline construction. -/
structure MonthAgg where
  watched : Nat
  ratingNums : List JsNum
  unrated : Nat
deriving Repr, DecidableEq

/-- One row's update of the month aggregation map. -/
def bumpMonth (m : List (String × MonthAgg)) (k : String) (r : Option JsNum) :
    List (String × MonthAgg) :=
  let upd := fun (c : MonthAgg) =>
    match r with
    | some q => { c with watched := c.watched + 1, ratingNums := c.ratingNums ++ [q] }
    | none => { c with watched := c.watched + 1, unrated := c.unrated + 1 }
  if m.any (fun p => p.1 = k) then m.map (fun p => if p.1 = k then (p.1, upd p.2) else p)
  else m ++ [(k, upd ⟨0, [], 0⟩)]

/-- Timeline projection `buildTimeline` from `stats.ts`. -/
def buildTimeline (points : List (String × MonthAgg)) : List TrendPoint :=
  points.map fun p =>
    { period := p.1
      watched := p.2.watched
      meanRating := mean p.2.ratingNums
      unratedShare :=
        if p.2.watched ≠ 0 then
          JsNum.div (JsNum.ofNat p.2.unrated) (JsNum.ofNat p.2.watched)
        else ⟨0, 1⟩ }

/-- Length bound for `dropWhile`, used in termination proofs. -/
def dropWhileLenLe (p : Char → Bool) : (l : List Char) → (l.dropWhile p).length ≤ l.length
  | [] => Nat.le_refl 0
  | c :: cs => by
      by_cases h : p c
      · simpa [List.dropWhile, h] using Nat.le_succ_of_le (dropWhileLenLe p cs)
      · simp [List.dropWhile, h]

/-- URL stripping of `tokenize`: each `https?://\S+` match becomes one
space. -/
def stripUrls : List Char → List Char
  | 'h' :: 't' :: 't' :: 'p' :: ':' :: '/' :: '/' :: c :: rest =>
      if !(isWsChar c) then ' ' :: stripUrls ((c :: rest).dropWhile (fun x => !(isWsChar x)))
      else 'h' :: stripUrls ('t' :: 't' :: 'p' :: ':' :: '/' :: '/' :: c :: rest)
  | 'h' :: 't' :: 't' :: 'p' :: 's' :: ':' :: '/' :: '/' :: c :: rest =>
      if !(isWsChar c) then ' ' :: stripUrls ((c :: rest).dropWhile (fun x => !(isWsChar x)))
      else 'h' :: stripUrls ('t' :: 't' :: 'p' :: 's' :: ':' :: '/' :: '/' :: c :: rest)
  | c :: cs => c :: stripUrls cs
  | [] => []
termination_by cs => cs.length
decreasing_by
  all_goals simp_all
  all_goals
    have := dropWhileLenLe (fun x => !(isWsChar x)) rest
    omega

/-- Character class kept by `tokenize`: ASCII lower letters and digits,
CJK, Cyrillic, whitespace; everything else becomes a space. -/
def keepTokenChar (c : Char) : Bool :=
  (97 ≤ c.toNat && c.toNat ≤ 122) || (48 ≤ c.toNat && c.toNat ≤ 57) ||
  (0x4e00 ≤ c.toNat && c.toNat ≤ 0x9fff) || (0x400 ≤ c.toNat && c.toNat ≤ 0x4ff) ||
  isWsChar c

/-- Whitespace-run splitting (`split(/\s+/)` followed by the trim/length
filtering of `tokenize`, under which leading empties are dropped). -/
def splitWsRuns : List Char → List (List Char)
  | [] => []
  | c :: cs =>
      if isWsChar c then splitWsRuns cs
      else
        let w := (c :: cs).takeWhile (fun x => !(isWsChar x))
        w :: splitWsRuns ((c :: cs).dropWhile (fun x => !(isWsChar x)))
termination_by cs => cs.length
decreasing_by
  all_goals simp_all
  have := dropWhileLenLe (fun x => !(isWsChar x)) cs
  omega

/-- Tokenizer `tokenize` from `stats.ts`: lower-case, strip URLs, keep the
token character classes, split on whitespace, keep tokens of length at
least two. -/
def tokenize (text : String) : List String :=
  let cs := text.data.map lowerChar
  let cs2 := (stripUrls cs).map (fun c => if keepTokenChar c then c else ' ')
  ((splitWsRuns cs2).map String.mk).filter (fun s => 2 ≤ s.data.length)

/-- Month arithmetic `monthDiff` from `stats.ts` on `YYYY-MM` keys.  The
`Number(...)` coercion is modelled as digit parsing with `0` for
non-numeric parts; every month key built by this module is well-formed. -/
def monthDiff (a b : String) : Int :=
  let pa := splitOnChar '-' a.data
  let pb := splitOnChar '-' b.data
  let num := fun (cs : List Char) => if cs ≠ [] ∧ allDigits cs then (digitsToNat cs : Int) else 0
  let ay := num (pa.headD [])
  let am := num (pa.getD 1 [])
  let by2 := num (pb.headD [])
  let bm := num (pb.getD 1 [])
  (by2 - ay) * 12 + (bm - am)

/-- Counter lookup in an association counter map. -/
def lookupCount (m : List (String × Nat)) (k : String) : Nat :=
  ((m.find? (fun p => p.1 = k)).map Prod.snd).getD 0

/-- Numeric-keyed counter map increment (`histMap.set(snapped, …)`); JS
`Map` float keys compare by numeric value. -/
def bumpNumMap (m : List (JsNum × Nat)) (k : JsNum) : List (JsNum × Nat) :=
  if m.any (fun p => p.1.beq k) then
    m.map (fun p => if p.1.beq k then (p.1, p.2 + 1) else p)
  else m ++ [(k, 1)]

/-- Numeric-keyed counter lookup. -/
def lookupNumCount (m : List (JsNum × Nat)) (k : JsNum) : Nat :=
  ((m.find? (fun p => p.1.beq k)).map Prod.snd).getD 0

/-- Year parsing of an ISO date (`new Date(s).getUTCFullYear()`), modelled
as the four-digit year prefix, `0` otherwise (inputs here are always
validated ISO dates). -/
def isoYear (s : String) : Int :=
  let y := s.data.take 4
  if y.length = 4 ∧ allDigits y then (digitsToNat y : Int) else 0

/-- Minimum of a list of numbers (`Math.min(...years)`). -/
def jminList : List JsNum → JsNum
  | [] => ⟨0, 1⟩
  | x :: xs => xs.foldl JsNum.jmin x

/-- Maximum of a list of numbers (`Math.max(...years)`). -/
def jmaxList : List JsNum → JsNum
  | [] => ⟨0, 1⟩
  | x :: xs => xs.foldl JsNum.jmax x

/-- Decade keys of the exploration index: `f.year ? floor(year/10) : null`
filtered by `Boolean`, which drops both missing years, year `0`, and the
decade value `0`. -/
def decadesOf (fs : List FilmRecord) : List Int :=
  fs.filterMap fun f =>
    match f.year with
    | some y =>
        if y.beq ⟨0, 1⟩ then none
        else
          let d := (JsNum.div y ⟨10, 1⟩).floor
          if d = 0 then none else some d
    | none => none

/-- Rating counter map of the histogram: the half-star buckets seeded at
zero, then one `round(r*2)/2` snap-and-increment per rating. -/
def histMapOf (ratingNums : List JsNum) : List (JsNum × Nat) :=
  ratingNums.foldl (fun m r => bumpNumMap m ⟨JsNum.jround (JsNum.mul r ⟨2, 1⟩), 2⟩)
    (ratingBucketsHalfStars.map fun r => (r, 0))

/-- The histogram rows read back from the counter map in bucket order. -/
def histogramOf (ratingNums : List JsNum) : List HistBucket :=
  ratingBucketsHalfStars.map fun r =>
    { rating := r, count := lookupNumCount (histMapOf ratingNums) r }

/-- The statistics engine `computeStats` of `stats.ts`, a pure function of
the merged record set and a display label; the wall-clock `generatedAt`
timestamp is an explicit argument. -/
def computeStats (generatedAt : String) (films : List FilmRecord)
    (userLabel : Option String) : StatPack :=
  let watchedFilms := films.filter fun f =>
    f.watched || f.watchedAtDates.length > 0 || f.loggedAtDates.length > 0
  let ratedFilms := films.filter fun f => f.rated ∧ f.rating ≠ none
  let reviewFilms := films.filter fun f => f.reviewText.length > 0
  let timelineRows := watchedFilms.filterMap fun f =>
    match bestTimelineDate f with
    | (some d, fb) => some (f, d, fb)
    | (none, _) => none
  let usedLoggedFallback := timelineRows.any fun x => x.2.2
  let byDay := timelineRows.foldl (fun m x => bumpDay m x.2.1) []
  let byMonthTmp := timelineRows.foldl
    (fun m x => bumpMonth m (monthKey x.2.1) x.1.rating) []
  let monthRows := jsSortBy (fun (a b : String × MonthAgg) => jsStrLe a.1 b.1) byMonthTmp
  let timeline := buildTimeline monthRows
  let latestMonth := (timeline.getLast?).map TrendPoint.period
  let recent12 := match latestMonth with
    | some lm => timeline.filter fun t => monthDiff t.period lm ≤ 11
    | none => []
  let recent24 := match latestMonth with
    | some lm => timeline.filter fun t => monthDiff t.period lm ≤ 23
    | none => []
  let watchedDays := timelineRows.map fun x => x.2.1
  let streakData := computeStreaks watchedDays
  let busiestRealDay := (jsSortBy (fun (a b : String × Nat) => decide (b.2 ≤ a.2)) byDay).head?
  let ratingNums := ratedFilms.filterMap FilmRecord.rating
  let histMap := histMapOf ratingNums
  let histogram := histogramOf ratingNums
  let modePair := histogram.foldl
    (fun (a : JsNum × Int) b => if (b.count : Int) > a.2 then (b.rating, b.count) else a)
    (⟨0, 1⟩, -1)
  let indecisiveShare :=
    if ratedFilms.length ≠ 0 then
      JsNum.div
        (JsNum.ofNat (lookupNumCount histMap ⟨5, 2⟩ + lookupNumCount histMap ⟨3, 1⟩))
        (JsNum.ofNat ratedFilms.length)
    else ⟨0, 1⟩
  let dateRated := timelineRows.filterMap fun x =>
    match x.1.rating with
    | some q => some ((JsNum.ofInt (ymdToEpochDay x.2.1)), q)
    | none => none
  let ratingDateCorrelation := pearson (dateRated.map Prod.fst) (dateRated.map Prod.snd)
  let yearMap := watchedFilms.foldl
    (fun (m : List (JsNum × Nat)) f =>
      match f.year with
      | some y => bumpNumMap m y
      | none => m) []
  let topYears := ((jsSortBy (fun (a b : JsNum × Nat) => decide (b.2 ≤ a.2)) yearMap).take 10).map
    fun p => ({ year := p.1, count := p.2 } : YearCount)
  let years := yearMap.map Prod.fst
  let decadeMap := watchedFilms.foldl
    (fun (m : List (String × Nat)) f =>
      match f.year with
      | some y => bumpDay m (intToString (10 * (JsNum.div y ⟨10, 1⟩).floor) ++ "s")
      | none => m) []
  let decadeBuckets := (jsSortBy (fun (a b : String × Nat) => decide (b.2 ≤ a.2)) decadeMap).map
    fun p => ({ decade := p.1, count := p.2 } : DecadeCount)
  let top5DecadesCount := ((decadeBuckets.take 5).map DecadeCount.count).sum
  let comfortZoneReturnRate :=
    if watchedFilms.length ≠ 0 then
      JsNum.div (JsNum.ofNat top5DecadesCount) (JsNum.ofNat watchedFilms.length)
    else ⟨0, 1⟩
  let diversityRecent := (jsSetDedup (decadesOf (watchedFilms.filter fun f =>
    match bestTimelineDate f with
    | (some d, _) =>
        match latestMonth with
        | some lm => monthDiff (monthKey d) lm ≤ 11
        | none => False
    | (none, _) => False))).length
  let diversityAll := (jsSetDedup (decadesOf watchedFilms)).length
  let explorationIndex := clamp
    (if diversityAll ≠ 0 then
      JsNum.div (JsNum.ofNat diversityRecent) (JsNum.ofNat diversityAll)
    else ⟨0, 1⟩) ⟨0, 1⟩ ⟨1, 1⟩
  let reviews := films.flatMap FilmRecord.reviewText
  let totalLen := (reviews.map fun r => r.data.length).sum
  let wordMap := reviews.foldl
    (fun m r => (tokenize r).foldl
      (fun m2 w => if w ∈ STOPWORDS then m2 else bumpDay m2 w) m) []
  let topWords := ((jsSortBy (fun (a b : String × Nat) => decide (b.2 ≤ a.2)) wordMap).take 25).map
    fun p => ({ word := p.1, count := p.2 } : WordCount)
  let avgReviewLength :=
    if reviews.length ≠ 0 then
      some (JsNum.div (JsNum.ofNat totalLen) (JsNum.ofNat reviews.length))
    else none
  let expressionIntensity :=
    clamp (JsNum.div (avgReviewLength.getD ⟨0, 1⟩) ⟨350, 1⟩) ⟨0, 1⟩ ⟨1, 1⟩
  let persona :=
    if JsNum.jlt ⟨420, 1⟩ (avgReviewLength.getD ⟨0, 1⟩) then
      ({ ptype := "Essayist", reason := "Long review length and dense wording." } : Persona)
    else if topWords.any (fun x => x.word ∈ ["cry", "love", "hate", "amazing", "terrible"]) then
      { ptype := "Emotional", reason := "Frequent emotional vocabulary in reviews." }
    else if topWords.any (fun x => x.word ∈ ["editing", "frame", "narrative", "structure", "cinema"]) then
      { ptype := "Analytical", reason := "Craft-focused wording appears repeatedly." }
    else { ptype := "Minimalist", reason := "Short and sparse review text." }
  let importByDay := films.foldl (fun m f => f.importedAtDates.foldl bumpDay m) []
  let largestSingleDayImportCount := (importByDay.map Prod.snd).foldl max 0
  let watchedDatesAll := watchedFilms.flatMap FilmRecord.watchedAtDates
  let diaryDatesAll := watchedFilms.flatMap fun f =>
    f.diaryEntries.filterMap fun e =>
      match e.loggedAt with
      | some l => some l
      | none => e.watchedAt
  let watchedSpanYears : Int :=
    if watchedDatesAll ≠ [] then
      isoYear (watchedDatesAll.getLastD "") - isoYear (watchedDatesAll.headD "") + 1
    else 0
  let diarySorted := jsSortStr diaryDatesAll
  let diarySpanYears : Int :=
    if diaryDatesAll ≠ [] then
      isoYear (diarySorted.getLastD "") - isoYear (diarySorted.headD "") + 1
    else 0
  let percentWithWatchedDates :=
    if watchedFilms.length ≠ 0 then
      JsNum.div (JsNum.ofNat (watchedFilms.filter fun f => f.watchedAtDates.length > 0).length)
        (JsNum.ofNat watchedFilms.length)
    else ⟨0, 1⟩
  let importSpikeDetected :=
    decide (largestSingleDayImportCount ≥ 100) && decide (watchedSpanYears ≥ 2)
  let strictness := clamp
    (if ratedFilms.length ≠ 0 then
      JsNum.sub ⟨1, 1⟩ (JsNum.div ((mean ratingNums).getD ⟨0, 1⟩) ⟨5, 1⟩)
    else ⟨0, 1⟩) ⟨0, 1⟩ ⟨1, 1⟩
  let diversity := clamp (JsNum.div (JsNum.ofNat decadeBuckets.length) ⟨10, 1⟩) ⟨0, 1⟩ ⟨1, 1⟩
  let unratedInclination :=
    if watchedFilms.length ≠ 0 then
      JsNum.div (JsNum.ofInt ((watchedFilms.length : Int) - ratedFilms.length))
        (JsNum.ofNat watchedFilms.length)
    else ⟨0, 1⟩
  let rewatch :=
    if watchedFilms.length ≠ 0 then
      JsNum.div
        (JsNum.ofNat (watchedFilms.filter fun f => f.diaryEntries.any DiaryEntry.rewatch).length)
        (JsNum.ofNat watchedFilms.length)
    else ⟨0, 1⟩
  let concentration := JsNum.sub ⟨1, 1⟩ comfortZoneReturnRate
  let radar : List RadarMetric := [
    { key := "strictness", label := "Rating strictness",
      value := JsNum.jround (JsNum.mul strictness ⟨100, 1⟩) },
    { key := "diversity", label := "Diversity index",
      value := JsNum.jround (JsNum.mul diversity ⟨100, 1⟩) },
    { key := "exploration", label := "Exploration",
      value := JsNum.jround (JsNum.mul explorationIndex ⟨100, 1⟩) },
    { key := "rewatch", label := "Rewatch tendency",
      value := JsNum.jround (JsNum.mul rewatch ⟨100, 1⟩) },
    { key := "unrated", label := "Unrated tendency",
      value := JsNum.jround (JsNum.mul unratedInclination ⟨100, 1⟩) },
    { key := "expression", label := "Review intensity",
      value := JsNum.jround (JsNum.mul expressionIntensity ⟨100, 1⟩) },
    { key := "concentration", label := "Concentration",
      value := JsNum.jround (JsNum.mul concentration ⟨100, 1⟩) }]
  let label := match userLabel with
    | some u => if jsTrim u ≠ "" then jsTrim u else "You"
    | none => "You"
  let meanStr := match mean ratingNums with
    | some m => if m.beq ⟨0, 1⟩ then "n/a" else numToString (round1 m)
    | none => "n/a"
  let shareShort :=
    label ++ ": " ++ formatInt watchedFilms.length ++ " watched, mean " ++ meanStr
  let shareLong :=
    label ++ " watched " ++ formatInt watchedFilms.length ++ " films (" ++
    formatPct percentWithWatchedDates ++ " with real watched dates), rated " ++
    formatInt ratedFilms.length ++ ". Longest streak " ++ intToString streakData.1 ++ " days."
  { generatedAt := generatedAt
    totals := {
      filmsWatched := watchedFilms.length
      filmsRated := ratedFilms.length
      filmsWithReviews := reviewFilms.length
      diaryEntries := (watchedFilms.map fun f => f.diaryEntries.length).sum
      unratedWatched := (watchedFilms.length : Int) - ratedFilms.length
      ratedShare :=
        if watchedFilms.length ≠ 0 then
          JsNum.div (JsNum.ofNat ratedFilms.length) (JsNum.ofNat watchedFilms.length)
        else ⟨0, 1⟩
      rewatchFilms := (watchedFilms.filter fun f => f.diaryEntries.any DiaryEntry.rewatch).length
      likes := (films.filter FilmRecord.like).length }
    ratings := {
      mean := mean ratingNums
      median := median ratingNums
      stddev := stddev ratingNums
      histogram := histogram
      mode := if modePair.2 > 0 then some modePair.1 else none
      indecisiveShare := indecisiveShare }
    activity := {
      byMonth := monthRows.map fun p => ({ month := p.1, count := p.2.watched } : MonthCount)
      longestStreakDays := streakData.1
      topStreaks := streakData.2
      busiestRealDay := busiestRealDay.map fun p => ({ day := p.1, count := p.2 } : DayCount)
      ratingDateCorrelation := ratingDateCorrelation
      usedLoggedFallback := usedLoggedFallback }
    trends := { timeline := timeline, recent12 := recent12, recent24 := recent24 }
    releaseYears := {
      top := topYears
      spanMin := if years.length ≠ 0 then some (jminList years) else none
      spanMax := if years.length ≠ 0 then some (jmaxList years) else none
      decadeBuckets := decadeBuckets
      comfortZoneReturnRate := comfortZoneReturnRate
      explorationIndex := explorationIndex }
    text := {
      topWords := topWords
      avgReviewLength := avgReviewLength
      expressionIntensity := expressionIntensity
      persona := persona }
    anomaly := {
      importSpikeDetected := importSpikeDetected
      largestSingleDayImportCount := largestSingleDayImportCount
      percentWithWatchedDates := percentWithWatchedDates
      watchedDateSpanYears := watchedSpanYears
      diaryEntrySpanYears := diarySpanYears }
    radar := radar
    shareText := { short := shareShort, long := shareLong } }

end Stats

/-!
Embedding of the variant statistics module's standalone streak function
(the revision shipping `computeLongestStreak`), cited alongside
`computeStreaks` by the streak claim.
-/

namespace V7

/-- Inner loop of `computeLongestStreak`: running streak length and best so
far. -/
def streakGo (prev : String) (cur best : Nat) : List String → Nat
  | [] => best
  | x :: xs =>
      let c := if epochDay x = epochDay prev + 1 then cur + 1 else 1
      streakGo x c (max best c) xs

/-- Longest-streak computation `computeLongestStreak` of the variant
statistics module: dedup-sort the days, then a single pass tracking the
current run of consecutive epoch days. -/
def computeLongestStreak (days : List String) : Nat :=
  match dedupSortStr days with
  | [] => 0
  | d :: rest => streakGo d 1 1 rest

end V7

/-- Provenance and review-sample invariant of one film record: rating,
review samples and timeline dates each imply their owning source table is
recorded; the watched flag tracks exactly the watched table; every stored
review sample is non-empty and at most 500 characters. -/
def RecProvenance (r : FilmRecord) : Prop :=
  (r.rating ≠ none → "ratings" ∈ r.sources) ∧
  (r.reviewTextSamples ≠ [] → "reviews" ∈ r.sources) ∧
  (r.watchedDates ≠ [] → "diary" ∈ r.sources) ∧
  (r.watched = true ↔ "watched" ∈ r.sources) ∧
  (∀ s ∈ r.reviewTextSamples, s ≠ "" ∧ s.data.length ≤ 500)

/-- State-level invariant: every record in the map satisfies
`RecProvenance`. -/
def StInv (st : MergeState) : Prop := ∀ r ∈ st.recs, RecProvenance r

/-- Heat row of the watched table (with film URL). -/
def heatWatchedRow : RawRow :=
  [("Name", "Heat"), ("Year", "1995"), ("Letterboxd URI", "https://letterboxd.com/film/heat-1995/")]

/-- Heat row of the ratings table (with film URL). -/
def heatRatingsRow : RawRow :=
  [("Name", "Heat"), ("Year", "1995"), ("Rating", "4.5"),
   ("Letterboxd URI", "https://letterboxd.com/film/heat-1995/")]

/-- Heat row of the diary table (with film URL). -/
def heatDiaryRow : RawRow :=
  [("Name", "Heat"), ("Year", "1995"), ("Watched Date", "2024-03-01"),
   ("Letterboxd URI", "https://letterboxd.com/film/heat-1995/")]

/-- Table set of the end-to-end merge scenario, with the three rows
carrying the same film URL. -/
def tHeat : ExportTables :=
  { watched := some [heatWatchedRow], ratings := some [heatRatingsRow],
    diary := some [heatDiaryRow] }

/-- The single record the merge produces for `tHeat`. -/
def heatFilm : FilmRecord :=
  { key := "slug:heat-1995", name := "Heat", year := some ⟨1995, 1⟩
    letterboxdUri := some "https://letterboxd.com/film/heat-1995/"
    watched := true, watchedDates := ["2024-03-01"], watchedDateEstimatedCount := 0
    rated := true, rating := some ⟨45, 10⟩, rewatchCount := 0, reviewCount := 0
    reviewTextSamples := [], tags := [], sources := ["diary", "ratings", "watched"] }

/-- Table set of the claim C2 scenario as literally written in the spec:
the same three Heat rows with no URL on any row. -/
def tHeatNoUri : ExportTables :=
  { watched := some [[("Name", "Heat"), ("Year", "1995")]]
    ratings := some [[("Name", "Heat"), ("Year", "1995"), ("Rating", "4.5")]]
    diary := some [[("Name", "Heat"), ("Year", "1995"), ("Watched Date", "2024-03-01")]] }

/-- Counterexample table set for C1: one ratings row whose rating value
does not parse. -/
def tRatingUnparseable : ExportTables :=
  { ratings := some [[("Name", "A"), ("Rating", "x")]] }

/-- Witness table set for C10: one reviews row with surrounding
whitespace. -/
def tOneReview : ExportTables :=
  { reviews := some [[("Name", "A"), ("Review", "  hello  ")]] }

/-- The record the merge produces for `tOneReview`. -/
def oneReviewFilm : FilmRecord :=
  { key := "unknown:reviews:0", name := "A", year := none, letterboxdUri := none
    watched := false, watchedDates := [], watchedDateEstimatedCount := 0
    rated := false, rating := none, rewatchCount := 0, reviewCount := 1
    reviewTextSamples := ["hello"], tags := [], sources := ["reviews"] }

/-- Counterexample table set for C7: a diary row whose tags arrive in
non-lexicographic order. -/
def tTagsCx : ExportTables :=
  { diary := some [[("Name", "A"), ("Watched Date", "2024-01-01"), ("Tags", "b,a")]] }

/-- Witness table set for C7 on the variant merge. -/
def tV5w : V5.ExportTables :=
  { ratings := [[("Letterboxd URI", "https://boxd.it/Ab3"), ("Name", "A"), ("Rating", "4"),
      ("Date", "2024-02-02")]]
    diary := [[("Letterboxd URI", "https://boxd.it/Ab3"), ("Name", "A"),
      ("Watched Date", "2024-01-01"), ("Tags", "x,y")]] }

/-- The record the variant merge produces for `tV5w`. -/
def v5wFilm : V5.FilmRecord :=
  { key := "ab3", slug := "ab3", name := "A", year := none
    letterboxdUri := some "https://boxd.it/Ab3"
    watched := false, watchedDates := ["2024-01-01"]
    rated := true, rating := some ⟨4, 1⟩, ratedDates := ["2024-02-02"]
    diaryEntries := [{ watchedAt := "2024-01-01", estimated := false, loggedAt := none
                       rewatch := false, tags := ["x", "y"] }]
    rewatchCount := 0, reviewCount := 0, reviewTextSamples := []
    tags := ["x", "y"], liked := false, sources := ["ratings", "diary"] }

/-- Counterexample table set for C8: one diary row with only a logged
(estimated) date plus one watchlist-only film. -/
def tC8cx : ExportTables :=
  { diary := some [[("Name", "X"), ("Logged Date", "2024-01-01")]]
    watchlist := some [[("Name", "Y")]] }

/-- All keys of a numeric counter map have denominator 2. -/
def NumMapDen2 (m : List (JsNum × Nat)) : Prop := ∀ p ∈ m, p.1.den = 2

/-- Counterexample film list for C9: one rated film whose rating 0.1 snaps
to 0, outside every bucket. -/
def films01 : List Stats.FilmRecord :=
  [{ watched := true, watchedAtDates := ["2024-01-01"], loggedAtDates := []
     importedAtDates := [], rated := true, rating := some ⟨1, 10⟩, reviewText := []
     year := some ⟨1995, 1⟩, diaryEntries := [], like := false }]

/-- Witness film list for C9: one rated film with rating 4.3. -/
def films43 : List Stats.FilmRecord :=
  [{ watched := true, watchedAtDates := ["2024-01-01"], loggedAtDates := []
     importedAtDates := [], rated := true, rating := some ⟨43, 10⟩, reviewText := []
     year := some ⟨1995, 1⟩, diaryEntries := [], like := false }]

/-- The import date a watched row contributes, exactly as the watched pass
reads it. -/
def importedDateOf (row : RawRow) : Option String :=
  toISODateOnly (getField row ["Watched Date", "Date", "Imported Date"])

/-- The import-day counter fold of the watched pass in isolation. -/
def importFold (rows : List RawRow) (m : List (String × Nat)) : List (String × Nat) :=
  rows.foldl (fun acc row =>
    match importedDateOf row with
    | some d => bumpDay acc d
    | none => acc) m

/-- The identity keys of the record map. -/
def keysOf (st : MergeState) : List String := st.recs.map FilmRecord.key

/-- First diary row of the import-spike scenario: a direct watched date in
2020. -/
def c4d1 : RawRow := [("Letterboxd URI", "https://letterboxd.com/film/alpha/"),
  ("Watched Date", "2020-01-01")]

/-- Second diary row of the import-spike scenario: a direct watched date in
2023, so the diary timeline spans three years. -/
def c4d2 : RawRow := [("Letterboxd URI", "https://letterboxd.com/film/beta/"),
  ("Watched Date", "2023-01-01")]

/-- The import-spike scenario export: a watched table of the given rows
plus the two fixed three-year-span diary rows. -/
def c4Tables (rows : List RawRow) : ExportTables :=
  { watched := some rows, diary := some [c4d1, c4d2] }

/-- An ASCII digit character. -/
def digitChar (d : Nat) : Char := Char.ofNat (48 + d)

/-- A watched row of the concentrated import scenario: import date
2020-05-05. -/
def c4rA : RawRow := [("Letterboxd URI", "https://letterboxd.com/film/heat/"),
  ("Date", "2020-05-05")]

/-- A watched row of the concentrated import scenario: import date
2020-06-06. -/
def c4rB : RawRow := [("Letterboxd URI", "https://letterboxd.com/film/heat/"),
  ("Date", "2020-06-06")]

/-- A watched row of the concentrated import scenario: import date
2020-07-07. -/
def c4rC : RawRow := [("Letterboxd URI", "https://letterboxd.com/film/heat/"),
  ("Date", "2020-07-07")]

/-- 500 watched rows, 200 of them imported on 2020-05-05. -/
def c4RowsA : List RawRow :=
  List.replicate 200 c4rA ++ List.replicate 150 c4rB ++ List.replicate 150 c4rC

/-- The i-th of 500 pairwise-distinct ISO days (years 1000-1499). -/
def c4Day (i : Nat) : String :=
  String.mk ('1' :: digitChar (i / 100) :: digitChar (i / 10 % 10) :: digitChar (i % 10)
    :: "-01-01".data)

/-- A watched row imported on the i-th distinct day. -/
def c4RowB (i : Nat) : RawRow :=
  [("Letterboxd URI", "https://letterboxd.com/film/heat/"), ("Date", c4Day i)]

/-- 500 watched rows spread evenly over 500 distinct days. -/
def c4RowsB : List RawRow := (List.range 500).map c4RowB

/-- Modelled from the spec: the length of the run of calendar-consecutive
days present in the epoch-day set `E`, starting at day `a` (fuel-bounded;
a run cannot be longer than the number of distinct days). -/
def runLenFrom (E : List Int) : Int → Nat → Nat
  | _, 0 => 0
  | a, fuel + 1 => if a ∈ E then 1 + runLenFrom E (a + 1) fuel else 0

/-- Modelled from the spec: the longest streak as the spec words it — the
maximal length of a run of calendar-consecutive days each having at least
one watched film, duplicate dates collapsed (run length only consults
membership of the day set). -/
def specLongestStreak (days : List String) : Nat :=
  let E := days.map Stats.ymdToEpochDay
  (E.map (fun a => runLenFrom E a E.length)).foldr max 0

/-- The concrete best-dates list of the streak claim. -/
def c6Days : List String := ["2024-01-01", "2024-01-02", "2024-01-03", "2024-01-10"]

/-!
General lemmas about the string order, the stable sort and the
deduplication helper, shared by the claim proofs.
-/

theorem lexLt_irrefl (l : List Char) : lexLtChars l l = false := by
  induction l with
  | nil => rfl
  | cons c cs ih => simp [lexLtChars, ih]

theorem lexLt_asymm : ∀ {a b : List Char}, lexLtChars a b = true → lexLtChars b a = false
  | [], [], h => by simp [lexLtChars] at h
  | [], _ :: _, _ => by simp [lexLtChars]
  | _ :: _, [], h => by simp [lexLtChars] at h
  | a :: as, b :: bs, h => by
      by_cases hab : a < b
      · simp [lexLtChars, hab, lt_asymm hab, ne_of_gt hab]
      · by_cases hba : b < a
        · simp [lexLtChars, hab, hba] at h
        · simp [lexLtChars, hab, hba] at h ⊢
          exact lexLt_asymm h

theorem lexLt_nil_right (l : List Char) : lexLtChars l [] = false := by
  cases l <;> rfl

theorem lexLt_trans : ∀ {a b c : List Char}, lexLtChars a b = true →
    lexLtChars b c = true → lexLtChars a c = true
  | _, b, [], _, h2 => by rw [lexLt_nil_right b] at h2; exact absurd h2 (by simp)
  | [], _, _ :: _, _, _ => by simp [lexLtChars]
  | _ :: _, [], _, h1, _ => by
      rw [lexLt_nil_right] at h1; exact absurd h1 (by simp)
  | a :: as, b :: bs, c :: cs, h1, h2 => by
      simp only [lexLtChars] at h1 h2 ⊢
      rcases lt_trichotomy a b with hab | hab | hab
      · rcases lt_trichotomy b c with hbc | hbc | hbc
        · simp [lt_trans hab hbc]
        · subst hbc; simp [hab]
        · rw [if_neg (lt_asymm hbc), if_pos hbc] at h2
          exact absurd h2 (by simp)
      · subst hab
        rw [if_neg (lt_irrefl a), if_neg (lt_irrefl a)] at h1
        rcases lt_trichotomy a c with hac | hac | hac
        · simp [hac]
        · subst hac
          rw [if_neg (lt_irrefl a), if_neg (lt_irrefl a)] at h2 ⊢
          exact lexLt_trans h1 h2
        · rw [if_neg (lt_asymm hac), if_pos hac] at h2
          exact absurd h2 (by simp)
      · rw [if_neg (lt_asymm hab), if_pos hab] at h1
        exact absurd h1 (by simp)

theorem lexLt_connex : ∀ {a b : List Char}, lexLtChars a b = false →
    lexLtChars b a = false → a = b
  | [], [], _, _ => rfl
  | [], _ :: _, h1, _ => by simp [lexLtChars] at h1
  | _ :: _, [], _, h2 => by simp [lexLtChars] at h2
  | a :: as, b :: bs, h1, h2 => by
      by_cases hab : a < b
      · simp [lexLtChars, hab] at h1
      · by_cases hba : b < a
        · simp [lexLtChars, hba] at h2
        · have hab2 : a = b := le_antisymm (not_lt.mp hba) (not_lt.mp hab)
          subst hab2
          simp [lexLtChars, hab] at h1 h2
          simp [lexLt_connex h1 h2]

theorem jsStrLe_total (a b : String) : jsStrLe a b = true ∨ jsStrLe b a = true := by
  by_cases h1 : jsStrLe a b = true
  · exact Or.inl h1
  · right
    simp [jsStrLe, jsStrLt] at h1 ⊢
    exact lexLt_asymm h1

theorem jsStrLe_trans {a b c : String} (h1 : jsStrLe a b = true)
    (h2 : jsStrLe b c = true) : jsStrLe a c = true := by
  simp only [jsStrLe, jsStrLt, Bool.not_eq_true'] at h1 h2 ⊢
  by_cases hab : lexLtChars a.data b.data = true
  · by_cases hbc : lexLtChars b.data c.data = true
    · exact lexLt_asymm (lexLt_trans hab hbc)
    · have hbc2 : b.data = c.data :=
        lexLt_connex (Bool.not_eq_true _ ▸ Bool.of_not_eq_true hbc) h2
      rw [← hbc2]; exact h1
  · have hab2 : a.data = b.data :=
      lexLt_connex (Bool.of_not_eq_true hab) h1
    rw [← hab2] at h2; exact h2

theorem jsStrLt_asymm {a b : String} (h : jsStrLt a b = true) : jsStrLt b a = false := by
  simp only [jsStrLt] at h ⊢
  exact lexLt_asymm h

theorem jsStrLe_antisymm {a b : String} (h1 : jsStrLe a b = true)
    (h2 : jsStrLe b a = true) : a = b := by
  simp only [jsStrLe, jsStrLt, Bool.not_eq_true'] at h1 h2
  have h3 : a.data = b.data := lexLt_connex h2 h1
  cases a; cases b
  exact congrArg String.mk h3

theorem jsStrLt_of_le_of_ne {a b : String} (h1 : jsStrLe a b = true) (h2 : a ≠ b) :
    jsStrLt a b = true := by
  simp only [jsStrLe, jsStrLt, Bool.not_eq_true'] at h1 ⊢
  by_cases h3 : lexLtChars a.data b.data = true
  · exact h3
  · refine absurd ?_ h2
    have h4 : a.data = b.data := lexLt_connex (Bool.of_not_eq_true h3) h1
    cases a; cases b
    exact congrArg String.mk h4

theorem insertLe_perm {α : Type} (le : α → α → Bool) (x : α) (l : List α) :
    (insertLe le x l).Perm (x :: l) := by
  induction l with
  | nil => simp [insertLe]
  | cons y ys ih =>
      by_cases h : le y x = true
      · simp only [insertLe, h, if_pos]
        exact ((ih.cons y).trans (List.Perm.swap x y ys))
      · simp [insertLe, h]

theorem jsSortBy_perm {α : Type} (le : α → α → Bool) (l : List α) :
    (jsSortBy le l).Perm l := by
  induction l with
  | nil => simp [jsSortBy]
  | cons x xs ih => exact (insertLe_perm le x (jsSortBy le xs)).trans (ih.cons x)

theorem mem_jsSortBy {α : Type} {le : α → α → Bool} {x : α} {l : List α} :
    x ∈ jsSortBy le l ↔ x ∈ l := (jsSortBy_perm le l).mem_iff

theorem insertLe_pairwise {α : Type} {le : α → α → Bool}
    (htot : ∀ a b, le a b = true ∨ le b a = true)
    (htr : ∀ a b c, le a b = true → le b c = true → le a c = true)
    {x : α} {l : List α} (hl : l.Pairwise (fun a b => le a b = true)) :
    (insertLe le x l).Pairwise (fun a b => le a b = true) := by
  induction l with
  | nil => simp [insertLe]
  | cons y ys ih =>
      rcases List.pairwise_cons.mp hl with ⟨hy, hys⟩
      by_cases h : le y x = true
      · simp only [insertLe, h, if_pos]
        refine List.pairwise_cons.mpr ⟨?_, ih hys⟩
        intro z hz
        rcases List.mem_cons.mp ((insertLe_perm le x ys).mem_iff.mp hz) with rfl | hz2
        · exact h
        · exact hy z hz2
      · simp only [insertLe, h, if_neg]
        have hxy : le x y = true := (htot x y).resolve_right (by simpa using h)
        refine List.pairwise_cons.mpr ⟨?_, hl⟩
        intro z hz
        rcases List.mem_cons.mp hz with rfl | hz2
        · exact hxy
        · exact htr x y z hxy (hy z hz2)

theorem jsSortBy_pairwise {α : Type} {le : α → α → Bool}
    (htot : ∀ a b, le a b = true ∨ le b a = true)
    (htr : ∀ a b c, le a b = true → le b c = true → le a c = true)
    (l : List α) : (jsSortBy le l).Pairwise (fun a b => le a b = true) := by
  induction l with
  | nil => simp [jsSortBy]
  | cons x xs ih => exact insertLe_pairwise htot htr ih

theorem jsSetDedup_go_mem {α : Type} [DecidableEq α] (l : List α) :
    ∀ (acc : List α) (x : α),
      (x ∈ l.foldl (fun acc y => if y ∈ acc then acc else acc ++ [y]) acc ↔ x ∈ acc ∨ x ∈ l) := by
  induction l with
  | nil => simp
  | cons y ys ih =>
      intro acc x
      by_cases h : y ∈ acc
      · simp only [List.foldl_cons, h, if_pos]
        rw [ih]
        constructor
        · rintro (h2 | h2)
          · exact Or.inl h2
          · exact Or.inr (List.mem_cons_of_mem y h2)
        · rintro (h2 | h2)
          · exact Or.inl h2
          · rcases List.mem_cons.mp h2 with rfl | h3
            · exact Or.inl h
            · exact Or.inr h3
      · simp only [List.foldl_cons, h, if_neg, not_false_iff]
        rw [ih]
        simp [List.mem_append, List.mem_cons]
        tauto

theorem mem_jsSetDedup {α : Type} [DecidableEq α] {x : α} {l : List α} :
    x ∈ jsSetDedup l ↔ x ∈ l := by
  unfold jsSetDedup
  rw [jsSetDedup_go_mem]
  simp

theorem jsSetDedup_go_nodup {α : Type} [DecidableEq α] (l : List α) :
    ∀ (acc : List α), acc.Nodup →
      (l.foldl (fun acc y => if y ∈ acc then acc else acc ++ [y]) acc).Nodup := by
  induction l with
  | nil => intro acc h; simpa using h
  | cons y ys ih =>
      intro acc hacc
      by_cases h : y ∈ acc
      · simp only [List.foldl_cons, h, if_pos]
        exact ih acc hacc
      · simp only [List.foldl_cons, h, if_neg, not_false_iff]
        exact ih (acc ++ [y]) (by simp [List.nodup_append, hacc, h])

theorem nodup_jsSetDedup {α : Type} [DecidableEq α] (l : List α) : (jsSetDedup l).Nodup :=
  jsSetDedup_go_nodup l [] List.nodup_nil

theorem nodup_dedupSortStr (l : List String) : (dedupSortStr l).Nodup :=
  ((jsSortBy_perm jsStrLe (jsSetDedup l)).nodup_iff).mpr (nodup_jsSetDedup l)

theorem sorted_dedupSortStr (l : List String) :
    (dedupSortStr l).Pairwise (fun a b => jsStrLe a b = true) :=
  jsSortBy_pairwise jsStrLe_total (fun _ _ _ => jsStrLe_trans) (jsSetDedup l)

theorem mem_dedupSortStr {x : String} {l : List String} :
    x ∈ dedupSortStr l ↔ x ∈ l := by
  unfold dedupSortStr jsSortStr
  rw [mem_jsSortBy, mem_jsSetDedup]

theorem strictSorted_dedupSortStr (l : List String) :
    (dedupSortStr l).Pairwise (fun a b => jsStrLt a b = true) := by
  have h1 := sorted_dedupSortStr l
  have h2 := (nodup_dedupSortStr l)
  exact (h1.and h2).imp (fun h => jsStrLt_of_le_of_ne h.1 h.2)

/-!
Provenance invariant of the merge: carried through every pass of
`mergeTablesToFilms` and through finalisation.
-/

theorem mem_addSourceIfMissing {s src : String} {r : FilmRecord} :
    s ∈ (addSourceIfMissing src r).sources ↔ s ∈ r.sources ∨ s = src := by
  unfold addSourceIfMissing
  split
  · rename_i h
    constructor
    · exact Or.inl
    · rintro (h2 | rfl)
      · exact h2
      · exact h
  · simp [List.mem_append]

theorem addSourceIfMissing_rating {src : String} {r : FilmRecord} :
    (addSourceIfMissing src r).rating = r.rating := by
  unfold addSourceIfMissing; split <;> rfl

theorem addSourceIfMissing_watched {src : String} {r : FilmRecord} :
    (addSourceIfMissing src r).watched = r.watched := by
  unfold addSourceIfMissing; split <;> rfl

theorem addSourceIfMissing_watchedDates {src : String} {r : FilmRecord} :
    (addSourceIfMissing src r).watchedDates = r.watchedDates := by
  unfold addSourceIfMissing; split <;> rfl

theorem addSourceIfMissing_reviewTextSamples {src : String} {r : FilmRecord} :
    (addSourceIfMissing src r).reviewTextSamples = r.reviewTextSamples := by
  unfold addSourceIfMissing; split <;> rfl

theorem upsertRecs_inv {recs : List FilmRecord} {row : RawRow} {source : String}
    {idx : Nat} {upd : FilmRecord → FilmRecord}
    (hrecs : ∀ r ∈ recs, RecProvenance r)
    (hupd : ∀ r, RecProvenance r → RecProvenance (upd (addSourceIfMissing source r)))
    (hfresh : ∀ key name year uri, RecProvenance (upd
      { key := key, name := name, year := year, letterboxdUri := uri
        watched := false, watchedDates := [], watchedDateEstimatedCount := 0
        rated := false, rating := none, rewatchCount := 0, reviewCount := 0
        reviewTextSamples := [], tags := [], sources := [source] })) :
    ∀ r ∈ (upsertRecs recs row source idx upd).1, RecProvenance r := by
  simp only [upsertRecs]
  split
  · intro r hr
    rcases List.mem_map.mp hr with ⟨r0, hr0, rfl⟩
    by_cases hk : r0.key = (makeKeyFromRow row ("unknown:" ++ source ++ ":" ++ Nat.repr idx)).1
    · simp only [hk, if_pos]
      exact hupd r0 (hrecs r0 hr0)
    · simp only [hk, if_neg, not_false_iff]
      exact hrecs r0 hr0
  · intro r hr
    rcases List.mem_append.mp hr with hr0 | hr0
    · exact hrecs r hr0
    · rcases List.mem_singleton.mp hr0 with rfl
      exact hfresh _ _ _ _

theorem watchedStep_inv {st : MergeState} {row : RawRow} {idx : Nat}
    (h : StInv st) : StInv (watchedStep st row idx) := by
  unfold watchedStep
  have hmain : ∀ r ∈ (upsertRecs st.recs row "watched" idx
      (fun r => { r with watched := true })).1, RecProvenance r := by
    refine upsertRecs_inv h ?_ ?_
    · intro r hr
      obtain ⟨h1, h2, h3, _h4, h5⟩ := hr
      refine ⟨?_, ?_, ?_, ?_, ?_⟩
      · intro hne
        rw [addSourceIfMissing_rating] at hne
        exact mem_addSourceIfMissing.mpr (Or.inl (h1 hne))
      · intro hne
        rw [addSourceIfMissing_reviewTextSamples] at hne
        exact mem_addSourceIfMissing.mpr (Or.inl (h2 hne))
      · intro hne
        rw [addSourceIfMissing_watchedDates] at hne
        exact mem_addSourceIfMissing.mpr (Or.inl (h3 hne))
      · constructor
        · intro
          exact mem_addSourceIfMissing.mpr (Or.inr rfl)
        · intro
          rfl
      · intro s hs
        rw [addSourceIfMissing_reviewTextSamples] at hs
        exact h5 s hs
    · intro key name year uri
      refine ⟨by simp, by simp, by simp, by simp, by simp⟩
  split <;> exact hmain

/-- Preservation of an invariant through the indexed fold. -/
theorem foldIdx_inv {α β : Type} {f : β → α → Nat → β} {P : β → Prop}
    (hstep : ∀ b a i, P b → P (f b a i)) :
    ∀ (l : List α) (b : β) (i : Nat), P b → P (foldIdx f b l i) := by
  intro l
  induction l with
  | nil => intro b i h; exact h
  | cons a as ih => intro b i h; exact ih (f b a i) (i + 1) (hstep b a i h)

theorem sample_ok {s : List Char} (h : s ≠ []) :
    String.mk (s.take 500) ≠ "" ∧ (String.mk (s.take 500)).data.length ≤ 500 := by
  constructor
  · intro hcontra
    have h2 : s.take 500 = [] := congrArg String.data hcontra
    rcases s with _ | ⟨c, cs⟩
    · exact h rfl
    · simp [List.take] at h2
  · simp [List.length_take]

theorem ratingsUpd_sources (row : RawRow) (fr : FilmRecord) :
    (ratingsUpd row fr).sources = fr.sources := by
  unfold ratingsUpd; split <;> rfl

theorem ratingsUpd_watched (row : RawRow) (fr : FilmRecord) :
    (ratingsUpd row fr).watched = fr.watched := by
  unfold ratingsUpd; split <;> rfl

theorem ratingsUpd_samples (row : RawRow) (fr : FilmRecord) :
    (ratingsUpd row fr).reviewTextSamples = fr.reviewTextSamples := by
  unfold ratingsUpd; split <;> rfl

theorem ratingsUpd_watchedDates (row : RawRow) (fr : FilmRecord) :
    (ratingsUpd row fr).watchedDates = fr.watchedDates := by
  unfold ratingsUpd; split <;> rfl

theorem reviewsUpd_sources (row : RawRow) (fr : FilmRecord) :
    (reviewsUpd row fr).sources = fr.sources := by
  unfold reviewsUpd; repeat' split
  all_goals rfl

theorem reviewsUpd_watched (row : RawRow) (fr : FilmRecord) :
    (reviewsUpd row fr).watched = fr.watched := by
  unfold reviewsUpd; repeat' split
  all_goals rfl

theorem reviewsUpd_rating (row : RawRow) (fr : FilmRecord) :
    (reviewsUpd row fr).rating = fr.rating := by
  unfold reviewsUpd; repeat' split
  all_goals rfl

theorem reviewsUpd_watchedDates (row : RawRow) (fr : FilmRecord) :
    (reviewsUpd row fr).watchedDates = fr.watchedDates := by
  unfold reviewsUpd; repeat' split
  all_goals rfl

theorem reviewsUpd_samples_mem (row : RawRow) (fr : FilmRecord) {s : String}
    (h : s ∈ (reviewsUpd row fr).reviewTextSamples) :
    s ∈ fr.reviewTextSamples ∨ (s ≠ "" ∧ s.data.length ≤ 500) := by
  simp only [reviewsUpd] at h
  rcases hg : getField row ["Review", "Text", "Content"] with _ | s0
  · simp only [hg] at h
    exact Or.inl h
  · simp only [hg] at h
    by_cases ht : trimChars s0.data ≠ []
    · rw [if_pos ht] at h
      rcases List.mem_append.mp h with h2 | h2
      · exact Or.inl h2
      · rcases List.mem_singleton.mp h2 with rfl
        exact Or.inr (sample_ok (by simpa using ht))
    · rw [if_neg ht] at h
      exact Or.inl h

theorem diaryUpd_sources (row : RawRow) (fr : FilmRecord) :
    (diaryUpd row fr).sources = fr.sources := by
  simp only [diaryUpd]
  repeat' split
  all_goals rfl

theorem diaryUpd_watched (row : RawRow) (fr : FilmRecord) :
    (diaryUpd row fr).watched = fr.watched := by
  simp only [diaryUpd]
  repeat' split
  all_goals rfl

theorem diaryUpd_rating (row : RawRow) (fr : FilmRecord) :
    (diaryUpd row fr).rating = fr.rating := by
  simp only [diaryUpd]
  repeat' split
  all_goals rfl

theorem diaryUpd_samples (row : RawRow) (fr : FilmRecord) :
    (diaryUpd row fr).reviewTextSamples = fr.reviewTextSamples := by
  simp only [diaryUpd]
  repeat' split
  all_goals rfl

theorem stepRecs_inv {recs : List FilmRecord} {row : RawRow} {src : String}
    {idx : Nat} {upd : FilmRecord → FilmRecord}
    (hrecs : ∀ r ∈ recs, RecProvenance r)
    (hA : ∀ r, (upd r).sources = r.sources)
    (hB : ∀ r, (upd r).watched = r.watched)
    (hC : ∀ r s, s ∈ (upd r).reviewTextSamples →
      s ∈ r.reviewTextSamples ∨ (s ≠ "" ∧ s.data.length ≤ 500))
    (hD : ∀ r, (upd r).rating ≠ none → r.rating ≠ none ∨ src = "ratings")
    (hE : ∀ r, (upd r).reviewTextSamples ≠ [] → r.reviewTextSamples ≠ [] ∨ src = "reviews")
    (hF : ∀ r, (upd r).watchedDates ≠ [] → r.watchedDates ≠ [] ∨ src = "diary")
    (hW : src ≠ "watched") :
    ∀ r ∈ (upsertRecs recs row src idx upd).1, RecProvenance r := by
  refine upsertRecs_inv hrecs ?_ ?_
  · intro r hr
    obtain ⟨h1, h2, h3, h4, h5⟩ := hr
    refine ⟨?_, ?_, ?_, ?_, ?_⟩
    · intro hne
      rw [hA, mem_addSourceIfMissing]
      rcases hD _ hne with hcase | hcase
      · rw [addSourceIfMissing_rating] at hcase
        exact Or.inl (h1 hcase)
      · exact Or.inr hcase.symm
    · intro hne
      rw [hA, mem_addSourceIfMissing]
      rcases hE _ hne with hcase | hcase
      · rw [addSourceIfMissing_reviewTextSamples] at hcase
        exact Or.inl (h2 hcase)
      · exact Or.inr hcase.symm
    · intro hne
      rw [hA, mem_addSourceIfMissing]
      rcases hF _ hne with hcase | hcase
      · rw [addSourceIfMissing_watchedDates] at hcase
        exact Or.inl (h3 hcase)
      · exact Or.inr hcase.symm
    · rw [hB, hA, addSourceIfMissing_watched, mem_addSourceIfMissing, h4]
      constructor
      · exact Or.inl
      · rintro (hc | hc)
        · exact hc
        · exact absurd hc.symm hW
    · intro s hs
      rcases hC _ s hs with hcase | hcase
      · rw [addSourceIfMissing_reviewTextSamples] at hcase
        exact h5 s hcase
      · exact hcase
  · intro key name year uri
    refine ⟨?_, ?_, ?_, ?_, ?_⟩
    · intro hne
      rw [hA]
      rcases hD _ hne with hcase | hcase
      · simp at hcase
      · simp [hcase]
    · intro hne
      rw [hA]
      rcases hE _ hne with hcase | hcase
      · simp at hcase
      · simp [hcase]
    · intro hne
      rw [hA]
      rcases hF _ hne with hcase | hcase
      · simp at hcase
      · simp [hcase]
    · rw [hB, hA]
      simp [hW.symm]
    · intro s hs
      rcases hC _ s hs with hcase | hcase
      · simp at hcase
      · exact hcase

theorem ratingsStep_inv {st : MergeState} {row : RawRow} {idx : Nat}
    (h : StInv st) : StInv (ratingsStep st row idx) := by
  unfold ratingsStep
  intro r hr
  refine stepRecs_inv h ?_ ?_ ?_ ?_ ?_ ?_ (by decide) r hr
  · exact ratingsUpd_sources row
  · exact ratingsUpd_watched row
  · intro r0 s hs
    rw [ratingsUpd_samples] at hs
    exact Or.inl hs
  · intro r0 _
    exact Or.inr rfl
  · intro r0 hne
    rw [ratingsUpd_samples] at hne
    exact Or.inl hne
  · intro r0 hne
    rw [ratingsUpd_watchedDates] at hne
    exact Or.inl hne

theorem reviewsStep_inv {st : MergeState} {row : RawRow} {idx : Nat}
    (h : StInv st) : StInv (reviewsStep st row idx) := by
  unfold reviewsStep
  intro r hr
  refine stepRecs_inv h ?_ ?_ ?_ ?_ ?_ ?_ (by decide) r hr
  · exact reviewsUpd_sources row
  · exact reviewsUpd_watched row
  · intro r0 s hs
    exact reviewsUpd_samples_mem row r0 hs
  · intro r0 hne
    rw [reviewsUpd_rating] at hne
    exact Or.inl hne
  · intro r0 _
    exact Or.inr rfl
  · intro r0 hne
    rw [reviewsUpd_watchedDates] at hne
    exact Or.inl hne

theorem diaryStep_inv {st : MergeState} {row : RawRow} {idx : Nat}
    (h : StInv st) : StInv (diaryStep st row idx) := by
  simp only [diaryStep]
  have hmain : ∀ r ∈ (upsertRecs st.recs row "diary" idx (diaryUpd row)).1,
      RecProvenance r := by
    refine stepRecs_inv h ?_ ?_ ?_ ?_ ?_ ?_ (by decide)
    · exact diaryUpd_sources row
    · exact diaryUpd_watched row
    · intro r0 s hs
      rw [diaryUpd_samples] at hs
      exact Or.inl hs
    · intro r0 hne
      rw [diaryUpd_rating] at hne
      exact Or.inl hne
    · intro r0 hne
      rw [diaryUpd_samples] at hne
      exact Or.inl hne
    · intro r0 _
      exact Or.inr rfl
  split <;> exact hmain

theorem watchlistStep_inv {st : MergeState} {row : RawRow} {idx : Nat}
    (h : StInv st) : StInv (watchlistStep st row idx) := by
  unfold watchlistStep
  intro r hr
  refine stepRecs_inv h (fun _ => rfl) (fun _ => rfl) ?_ ?_ ?_ ?_ (by decide) r hr
  · intro r0 s hs
    exact Or.inl hs
  · intro r0 hne
    exact Or.inl hne
  · intro r0 hne
    exact Or.inl hne
  · intro r0 hne
    exact Or.inl hne

theorem profileStep_inv {st : MergeState} {row : RawRow} {idx : Nat}
    (h : StInv st) : StInv (profileStep st row idx) := by
  unfold profileStep
  intro r hr
  refine stepRecs_inv h (fun _ => rfl) (fun _ => rfl) ?_ ?_ ?_ ?_ (by decide) r hr
  · intro r0 s hs
    exact Or.inl hs
  · intro r0 hne
    exact Or.inl hne
  · intro r0 hne
    exact Or.inl hne
  · intro r0 hne
    exact Or.inl hne

theorem commentsStep_inv {st : MergeState} {row : RawRow} {idx : Nat}
    (h : StInv st) : StInv (commentsStep st row idx) := by
  unfold commentsStep
  intro r hr
  refine stepRecs_inv h (fun _ => rfl) (fun _ => rfl) ?_ ?_ ?_ ?_ (by decide) r hr
  · intro r0 s hs
    exact Or.inl hs
  · intro r0 hne
    exact Or.inl hne
  · intro r0 hne
    exact Or.inl hne
  · intro r0 hne
    exact Or.inl hne

theorem mergeState_inv (t : ExportTables) : StInv (mergeState t) := by
  unfold mergeState
  apply foldIdx_inv (fun b a i => commentsStep_inv)
  apply foldIdx_inv (fun b a i => profileStep_inv)
  apply foldIdx_inv (fun b a i => watchlistStep_inv)
  apply foldIdx_inv (fun b a i => diaryStep_inv)
  apply foldIdx_inv (fun b a i => reviewsStep_inv)
  apply foldIdx_inv (fun b a i => ratingsStep_inv)
  apply foldIdx_inv (fun b a i => watchedStep_inv)
  intro r hr
  simp [initState] at hr

theorem dedupSortStr_nil : dedupSortStr [] = [] := rfl

theorem mem_of_mem_jsSetDedup {α : Type} [DecidableEq α] {x : α} {l : List α}
    (h : x ∈ jsSetDedup l) : x ∈ l := mem_jsSetDedup.mp h

theorem finalise_prov {r : FilmRecord} (h : RecProvenance r) :
    RecProvenance (finaliseRecord r) := by
  obtain ⟨h1, h2, h3, h4, h5⟩ := h
  refine ⟨?_, ?_, ?_, ?_, ?_⟩
  · intro hne
    exact mem_jsSortBy.mpr (h1 hne)
  · intro hne
    refine mem_jsSortBy.mpr (h2 ?_)
    intro heq
    apply hne
    show jsSetDedup r.reviewTextSamples = []
    rw [heq]
    rfl
  · intro hne
    refine mem_jsSortBy.mpr (h3 ?_)
    intro heq
    apply hne
    show dedupSortStr r.watchedDates = []
    rw [heq]
    rfl
  · show r.watched = true ↔ "watched" ∈ jsSortStr r.sources
    rw [h4]
    exact mem_jsSortBy.symm
  · intro s hs
    exact h5 s (mem_of_mem_jsSetDedup hs)

theorem mergeFilms_inv (t : ExportTables) :
    ∀ f ∈ (mergeTablesToFilms t).films, RecProvenance f := by
  intro f hf
  have hfilms : (mergeTablesToFilms t).films = (mergeState t).recs.map finaliseRecord := rfl
  rw [hfilms] at hf
  rcases List.mem_map.mp hf with ⟨r, hr, rfl⟩
  exact finalise_prov (mergeState_inv t r hr)

/-!
Claim inputs: the concrete table sets and records the claim theorems,
witnesses and counterexamples evaluate on.
-/

/-- Claim C1, counterexample: on a ratings row whose rating value does not
parse, the merged record carries the `ratings` source but a null rating,
so the biconditional form of the provenance invariants is false as
stated. -/
theorem claim_C1_counterexample :
    ¬ (∀ f ∈ (mergeTablesToFilms tRatingUnparseable).films,
        (f.rating ≠ none ↔ "ratings" ∈ f.sources) ∧
        (f.reviewTextSamples ≠ [] ↔ "reviews" ∈ f.sources) ∧
        (f.watchedDates ≠ [] ↔ "diary" ∈ f.sources)) := by
  decide

/-- Claim C1, amended: the forward provenance implications hold for every
record of every merge — a non-null rating implies the `ratings` source, a
non-empty review-sample list implies the `reviews` source, and a non-empty
timeline implies the `diary` source.  The converses fail (see the
counterexample) because a row whose owning field is missing or unparseable
still tags its source. -/
theorem claim_C1_theorem (t : ExportTables) :
    ∀ f ∈ (mergeTablesToFilms t).films,
      (f.rating ≠ none → "ratings" ∈ f.sources) ∧
      (f.reviewTextSamples ≠ [] → "reviews" ∈ f.sources) ∧
      (f.watchedDates ≠ [] → "diary" ∈ f.sources) := by
  intro f hf
  obtain ⟨h1, h2, h3, _, _⟩ := mergeFilms_inv t f hf
  exact ⟨h1, h2, h3⟩

/-- Claim C1, witness: the amended theorem applied to the concrete Heat
merge and its single record. -/
theorem claim_C1_witness :
    (heatFilm.rating ≠ none → "ratings" ∈ heatFilm.sources) ∧
    (heatFilm.reviewTextSamples ≠ [] → "reviews" ∈ heatFilm.sources) ∧
    (heatFilm.watchedDates ≠ [] → "diary" ∈ heatFilm.sources) :=
  claim_C1_theorem tHeat heatFilm (by decide)

/-- Claim C2, counterexample: with no URL on any of the three Heat rows
the merge produces three records, not one — there is no
`lowercase(name)::year` fallback identity in the code; URL-less rows get
the synthetic `unknown:<source>:<row-index>` key. -/
theorem claim_C2_counterexample :
    (mergeTablesToFilms tHeatNoUri).films.length = 3 ∧
    (mergeTablesToFilms tHeatNoUri).films.length ≠ 1 := by
  decide

/-- Claim C2, amended: a row with no URL resolves to the synthetic
`unknown:<source>:<row-index>` identity (so the three URL-less Heat rows
stay three separate single-source records), and when the three rows share
the film URL the merge yields exactly one record with `watched = true`,
`rating = 4.5`, `watchedDates = ["2024-03-01"]` and
`sources = {watched, ratings, diary}`. -/
theorem claim_C2_theorem :
    (mergeTablesToFilms tHeatNoUri).films.map FilmRecord.key =
      ["unknown:watched:0", "unknown:ratings:0", "unknown:diary:0"] ∧
    (mergeTablesToFilms tHeat).films = [heatFilm] ∧
    heatFilm.watched = true ∧
    heatFilm.rating = some ⟨45, 10⟩ ∧
    heatFilm.watchedDates = ["2024-03-01"] ∧
    heatFilm.sources = ["diary", "ratings", "watched"] := by
  decide

/-- Claim C3: in every merge result a record's watched flag is true
exactly when a watched-table row contributed to it (the `watched` entry of
its provenance set); ratings, reviews or diary rows alone never set it. -/
theorem claim_C3_theorem (t : ExportTables) :
    ∀ f ∈ (mergeTablesToFilms t).films, (f.watched = true ↔ "watched" ∈ f.sources) := by
  intro f hf
  exact (mergeFilms_inv t f hf).2.2.2.1

/-- Claim C3, witness: the theorem applied to the concrete Heat merge and
its single record. -/
theorem claim_C3_witness : heatFilm.watched = true ↔ "watched" ∈ heatFilm.sources :=
  claim_C3_theorem tHeat heatFilm (by decide)

/-- Claim C10: every string the merger stores in `reviewTextSamples` is
non-empty and at most 500 characters (the trimmed review text truncated to
500), for every merge input. -/
theorem claim_C10_theorem (t : ExportTables) :
    ∀ f ∈ (mergeTablesToFilms t).films, ∀ s ∈ f.reviewTextSamples,
      s ≠ "" ∧ s.data.length ≤ 500 := by
  intro f hf
  exact (mergeFilms_inv t f hf).2.2.2.2

/-- Claim C10, witness: the theorem applied to a one-review merge and its
stored (trimmed) sample. -/
theorem claim_C10_witness : ("hello" : String) ≠ "" ∧ ("hello" : String).data.length ≤ 500 :=
  claim_C10_theorem tOneReview oneReviewFilm (by decide) "hello" (by decide)

/-- Claim C7, counterexample: a diary row tagged "b,a" leaves the merged
record's tags as ["b", "a"] — deduplicated but in first-occurrence order,
not sorted ascending as claimed. -/
theorem claim_C7_counterexample :
    (mergeTablesToFilms tTagsCx).films.map FilmRecord.tags = [["b", "a"]] ∧
    ¬ List.Pairwise (fun a b => jsStrLe a b = true) ["b", "a"] := by
  decide

/-- Claim C7, amended: after either merge finishes, `watchedDates` (and,
in the variant carrying it, `ratedDates`) are duplicate-free and sorted
ascending lexicographically, while `tags` are duplicate-free but keep
first-occurrence order (the code never sorts them). -/
theorem claim_C7_theorem :
    (∀ (t : ExportTables), ∀ f ∈ (mergeTablesToFilms t).films,
      f.watchedDates.Nodup ∧
      List.Pairwise (fun a b => jsStrLe a b = true) f.watchedDates ∧
      f.tags.Nodup) ∧
    (∀ (t : V5.ExportTables), ∀ f ∈ (V5.mergeTablesToFilms t).films,
      f.watchedDates.Nodup ∧
      List.Pairwise (fun a b => jsStrLe a b = true) f.watchedDates ∧
      f.ratedDates.Nodup ∧
      List.Pairwise (fun a b => jsStrLe a b = true) f.ratedDates ∧
      f.tags.Nodup) := by
  constructor
  · intro t f hf
    have hfilms : (mergeTablesToFilms t).films = (mergeState t).recs.map finaliseRecord := rfl
    rw [hfilms] at hf
    rcases List.mem_map.mp hf with ⟨r, _, rfl⟩
    exact ⟨nodup_dedupSortStr _, sorted_dedupSortStr _, nodup_jsSetDedup _⟩
  · intro t f hf
    have hfilms : (V5.mergeTablesToFilms t).films =
        (t.reviews.foldl V5.reviewsStep
          (t.diary.foldl V5.diaryStep
            (t.ratings.foldl V5.ratingsStep
              (t.watched.foldl V5.watchedStep ⟨[], 0, [], []⟩)))).recs.map V5.finaliseRecord := rfl
    rw [hfilms] at hf
    rcases List.mem_map.mp hf with ⟨r, _, rfl⟩
    exact ⟨nodup_dedupSortStr _, sorted_dedupSortStr _, nodup_dedupSortStr _,
      sorted_dedupSortStr _, nodup_jsSetDedup _⟩

/-- Claim C7, witness: the amended theorem applied to the Heat merge and
to a concrete variant merge. -/
theorem claim_C7_witness :
    (heatFilm.watchedDates.Nodup ∧
     List.Pairwise (fun a b => jsStrLe a b = true) heatFilm.watchedDates ∧
     heatFilm.tags.Nodup) ∧
    (v5wFilm.watchedDates.Nodup ∧
     List.Pairwise (fun a b => jsStrLe a b = true) v5wFilm.watchedDates ∧
     v5wFilm.ratedDates.Nodup ∧
     List.Pairwise (fun a b => jsStrLe a b = true) v5wFilm.ratedDates ∧
     v5wFilm.tags.Nodup) :=
  ⟨claim_C7_theorem.1 tHeat heatFilm (by decide),
   claim_C7_theorem.2 tV5w v5wFilm (by decide)⟩

/-- Claim C5: merge and statistics are total by construction in this
embedding (every definition above is a terminating function); this theorem
records the graceful-degradation half — a table set with every table
absent merges to no films and an all-zero anomaly block, and the
statistics of an empty record set populate every claim-relevant field with
null, zero or an empty collection rather than failing. -/
theorem claim_C5_theorem :
    (∀ t : ExportTables, t.watched = none → t.ratings = none → t.diary = none →
      t.reviews = none → t.watchlist = none → t.profile = none → t.comments = none →
      (mergeTablesToFilms t).films = [] ∧
      (mergeTablesToFilms t).anomaly =
        { importSpikeDetected := false, largestSingleDayImportCount := 0
          largestSingleDayImportDate := none, percentWithWatchedAt := ⟨0, 1⟩
          watchedDateSpanYears := ⟨0, 1⟩, diaryEntrySpanYears := ⟨0, 1⟩ }) ∧
    (∀ (g : String) (lbl : Option String),
      (Stats.computeStats g [] lbl).ratings.mean = none ∧
      (Stats.computeStats g [] lbl).ratings.median = none ∧
      (Stats.computeStats g [] lbl).ratings.stddev = none ∧
      (Stats.computeStats g [] lbl).ratings.mode = none ∧
      (Stats.computeStats g [] lbl).ratings.histogram.map Stats.HistBucket.count =
        List.replicate 10 0 ∧
      (Stats.computeStats g [] lbl).activity.longestStreakDays = 0 ∧
      (Stats.computeStats g [] lbl).activity.topStreaks = [] ∧
      (Stats.computeStats g [] lbl).activity.busiestRealDay = none ∧
      (Stats.computeStats g [] lbl).activity.ratingDateCorrelation = none ∧
      (Stats.computeStats g [] lbl).trends.timeline = [] ∧
      (Stats.computeStats g [] lbl).releaseYears.spanMin = none ∧
      (Stats.computeStats g [] lbl).releaseYears.spanMax = none ∧
      (Stats.computeStats g [] lbl).releaseYears.decadeBuckets = [] ∧
      (Stats.computeStats g [] lbl).text.topWords = [] ∧
      (Stats.computeStats g [] lbl).text.avgReviewLength = none ∧
      (Stats.computeStats g [] lbl).totals.filmsWatched = 0 ∧
      (Stats.computeStats g [] lbl).anomaly.importSpikeDetected = false) := by
  constructor
  · intro t h1 h2 h3 h4 h5 h6 h7
    rcases t with ⟨files, w, ra, d, re, wl, pr, co, un⟩
    simp only at h1 h2 h3 h4 h5 h6 h7
    subst h1; subst h2; subst h3; subst h4; subst h5; subst h6; subst h7
    exact ⟨rfl, rfl⟩
  · intro g lbl
    refine ⟨rfl, rfl, rfl, rfl, rfl, rfl, rfl, rfl, rfl, rfl, rfl, rfl, rfl,
      rfl, rfl, rfl, rfl⟩

/-- Claim C5, witness: the theorem applied to the all-absent table set and
to a concrete timestamp and label. -/
theorem claim_C5_witness :
    ((mergeTablesToFilms {}).films = [] ∧
     (mergeTablesToFilms {}).anomaly =
       { importSpikeDetected := false, largestSingleDayImportCount := 0
         largestSingleDayImportDate := none, percentWithWatchedAt := ⟨0, 1⟩
         watchedDateSpanYears := ⟨0, 1⟩, diaryEntrySpanYears := ⟨0, 1⟩ }) ∧
    (Stats.computeStats "2026-01-01" [] none).ratings.mean = none ∧
    (Stats.computeStats "2026-01-01" [] none).ratings.median = none ∧
    (Stats.computeStats "2026-01-01" [] none).ratings.stddev = none ∧
    (Stats.computeStats "2026-01-01" [] none).ratings.mode = none ∧
    (Stats.computeStats "2026-01-01" [] none).ratings.histogram.map Stats.HistBucket.count =
      List.replicate 10 0 ∧
    (Stats.computeStats "2026-01-01" [] none).activity.longestStreakDays = 0 ∧
    (Stats.computeStats "2026-01-01" [] none).activity.topStreaks = [] ∧
    (Stats.computeStats "2026-01-01" [] none).activity.busiestRealDay = none ∧
    (Stats.computeStats "2026-01-01" [] none).activity.ratingDateCorrelation = none ∧
    (Stats.computeStats "2026-01-01" [] none).trends.timeline = [] ∧
    (Stats.computeStats "2026-01-01" [] none).releaseYears.spanMin = none ∧
    (Stats.computeStats "2026-01-01" [] none).releaseYears.spanMax = none ∧
    (Stats.computeStats "2026-01-01" [] none).releaseYears.decadeBuckets = [] ∧
    (Stats.computeStats "2026-01-01" [] none).text.topWords = [] ∧
    (Stats.computeStats "2026-01-01" [] none).text.avgReviewLength = none ∧
    (Stats.computeStats "2026-01-01" [] none).totals.filmsWatched = 0 ∧
    (Stats.computeStats "2026-01-01" [] none).anomaly.importSpikeDetected = false :=
  ⟨claim_C5_theorem.1 {} rfl rfl rfl rfl rfl rfl rfl, claim_C5_theorem.2 "2026-01-01" none⟩

/-- Claim C8, counterexample: on `tC8cx` the summary reports
`percentWithWatchedAt = 1/2` although no diary row carries a genuine
watched date (the fraction the claim describes is 0): the code counts
films with any timeline date — estimated logged-date fallbacks included —
over all merged films, watchlist-only films in the denominator. -/
theorem claim_C8_counterexample :
    (mergeTablesToFilms tC8cx).anomaly.percentWithWatchedAt = ⟨1, 2⟩ ∧
    (tC8cx.diary.getD []).countP
      (fun row => (toISODateOnly (getField row ["Watched Date", "Watched", "Date"])).isSome) = 0 ∧
    ((mergeTablesToFilms tC8cx).films.filter (fun f => f.watched)).length = 0 ∧
    JsNum.beq ⟨1, 2⟩ ⟨0, 1⟩ = false := by
  decide

/-- Claim C8, amended: `percentWithWatchedAt` is the fraction of all
merged films (not of diary rows) whose diary-derived timeline is
non-empty, counting estimated logged-date fallbacks as well; every film
counted in the numerator does owe its timeline to the diary table. -/
theorem claim_C8_theorem (t : ExportTables) :
    ((mergeTablesToFilms t).films ≠ [] →
      (mergeTablesToFilms t).anomaly.percentWithWatchedAt =
        JsNum.div
          (JsNum.ofNat ((mergeTablesToFilms t).films.filter
            (fun f => f.watchedDates.length > 0)).length)
          (JsNum.ofNat (mergeTablesToFilms t).films.length)) ∧
    ((mergeTablesToFilms t).films = [] →
      (mergeTablesToFilms t).anomaly.percentWithWatchedAt = ⟨0, 1⟩) ∧
    (∀ f ∈ (mergeTablesToFilms t).films, f.watchedDates ≠ [] → "diary" ∈ f.sources) := by
  refine ⟨?_, ?_, ?_⟩
  · intro hne
    show (if ((mergeState t).recs.map finaliseRecord).length ≠ 0 then _ else _) = _
    rw [if_pos]
    · rfl
    · intro hlen
      exact hne (List.length_eq_zero.mp hlen)
  · intro hnil
    show (if ((mergeState t).recs.map finaliseRecord).length ≠ 0 then _ else _) = _
    rw [if_neg]
    simp only [ne_eq, not_not]
    exact congrArg List.length hnil
  · intro f hf
    exact (mergeFilms_inv t f hf).2.2.1

/-- Claim C8, witness: the amended theorem applied to the concrete
counterexample tables. -/
theorem claim_C8_witness :
    (mergeTablesToFilms tC8cx).anomaly.percentWithWatchedAt =
      JsNum.div
        (JsNum.ofNat ((mergeTablesToFilms tC8cx).films.filter
          (fun f => f.watchedDates.length > 0)).length)
        (JsNum.ofNat (mergeTablesToFilms tC8cx).films.length) :=
  (claim_C8_theorem tC8cx).1 (by decide)

/-!
Histogram counting lemmas for claim C9: the numeric-keyed counter map used
by the rating histogram only ever holds half-integer keys (denominator 2),
on which the JS numeric key equality is exactly equality of numerators.
-/

theorem beq_den2 {a b : JsNum} (ha : a.den = 2) (hb : b.den = 2) :
    (a.beq b = true) ↔ a.num = b.num := by
  unfold JsNum.beq
  rw [ha, hb]
  constructor
  · intro h
    have h2 : a.num * 2 = b.num * 2 := by exact_mod_cast beq_iff_eq.mp h
    omega
  · intro h
    exact beq_iff_eq.mpr (by rw [h])

theorem bumpNumMapDen2 {m : List (JsNum × Nat)} {k : JsNum}
    (hm : NumMapDen2 m) (hk : k.den = 2) : NumMapDen2 (Stats.bumpNumMap m k) := by
  unfold Stats.bumpNumMap
  split
  · intro p hp
    rcases List.mem_map.mp hp with ⟨q, hq, rfl⟩
    split
    · exact hm q hq
    · exact hm q hq
  · intro p hp
    rcases List.mem_append.mp hp with hp2 | hp2
    · exact hm p hp2
    · rcases List.mem_singleton.mp hp2 with rfl
      exact hk

theorem lookupNumCountZero {m : List (JsNum × Nat)} (h : ∀ p ∈ m, p.2 = 0)
    (b : JsNum) : Stats.lookupNumCount m b = 0 := by
  unfold Stats.lookupNumCount
  cases hf : m.find? (fun p => p.1.beq b) with
  | none => rfl
  | some p =>
      have hp : p ∈ m := List.mem_of_find?_eq_some hf
      simp [h p hp]

theorem lookup_cons_pos {p : JsNum × Nat} {m : List (JsNum × Nat)} {b : JsNum}
    (hpb : p.1.beq b = true) : Stats.lookupNumCount (p :: m) b = p.2 := by
  unfold Stats.lookupNumCount
  rw [List.find?_cons_of_pos (p := fun q : JsNum × Nat => q.1.beq b) _ hpb]
  rfl

theorem lookup_cons_neg {p : JsNum × Nat} {m : List (JsNum × Nat)} {b : JsNum}
    (hpb : p.1.beq b = false) :
    Stats.lookupNumCount (p :: m) b = Stats.lookupNumCount m b := by
  unfold Stats.lookupNumCount
  rw [List.find?_cons_of_neg (p := fun q : JsNum × Nat => q.1.beq b) _ (by simp [hpb])]

theorem bump_cons_eq {p : JsNum × Nat} {rest : List (JsNum × Nat)} {k : JsNum}
    (hpk : p.1.beq k = true) :
    Stats.bumpNumMap (p :: rest) k =
      (p.1, p.2 + 1) :: rest.map (fun q => if q.1.beq k then (q.1, q.2 + 1) else q) := by
  unfold Stats.bumpNumMap
  rw [if_pos (by simp [List.any_cons, hpk])]
  simp [List.map_cons, hpk]

theorem bump_cons_ne {p : JsNum × Nat} {rest : List (JsNum × Nat)} {k : JsNum}
    (hpk : p.1.beq k = false) :
    Stats.bumpNumMap (p :: rest) k = p :: Stats.bumpNumMap rest k := by
  unfold Stats.bumpNumMap
  by_cases hany : rest.any (fun q => q.1.beq k) = true
  · rw [if_pos (by simp [List.any_cons, hany]), if_pos hany]
    simp [List.map_cons, hpk]
  · rw [if_neg (by simp [List.any_cons, hpk, hany]), if_neg hany]
    simp [List.cons_append]

theorem find_bump_map_ne : ∀ (rest : List (JsNum × Nat)) (k b : JsNum),
    NumMapDen2 rest → k.den = 2 → b.den = 2 → k.num ≠ b.num →
    (rest.map (fun q => if q.1.beq k then (q.1, q.2 + 1) else q)).find?
        (fun q => q.1.beq b) = rest.find? (fun q => q.1.beq b)
  | [], _, _, _, _, _, _ => rfl
  | q :: qs, k, b, hrest, hk, hb, hkb => by
      have hqden : q.1.den = 2 := hrest q (List.mem_cons_self q qs)
      have hqs : NumMapDen2 qs := fun r hr => hrest r (List.mem_cons_of_mem q hr)
      by_cases hqk : q.1.beq k = true
      · have hqb : q.1.beq b = false := by
          rw [Bool.eq_false_iff]
          intro hc
          have h1 := (beq_den2 hqden hk).mp hqk
          have h2 := (beq_den2 hqden hb).mp hc
          omega
        rw [List.map_cons, if_pos hqk,
          List.find?_cons_of_neg (p := fun q : JsNum × Nat => q.1.beq b) _ (by simp [hqb]),
          List.find?_cons_of_neg (p := fun q : JsNum × Nat => q.1.beq b) _ (by simp [hqb])]
        exact find_bump_map_ne qs k b hqs hk hb hkb
      · rw [List.map_cons, if_neg (by simpa using hqk)]
        cases hqb : q.1.beq b with
        | true =>
            rw [List.find?_cons_of_pos (p := fun q : JsNum × Nat => q.1.beq b) _ hqb,
              List.find?_cons_of_pos (p := fun q : JsNum × Nat => q.1.beq b) _ hqb]
        | false =>
            rw [List.find?_cons_of_neg (p := fun q : JsNum × Nat => q.1.beq b) _ (by simp [hqb]),
              List.find?_cons_of_neg (p := fun q : JsNum × Nat => q.1.beq b) _ (by simp [hqb])]
            exact find_bump_map_ne qs k b hqs hk hb hkb

theorem lookup_bumpNumMap : ∀ (m : List (JsNum × Nat)) (k b : JsNum),
    NumMapDen2 m → k.den = 2 → b.den = 2 →
    Stats.lookupNumCount (Stats.bumpNumMap m k) b =
      Stats.lookupNumCount m b + (if k.num = b.num then 1 else 0)
  | [], k, b, _, hk, hb => by
      by_cases hkb : k.num = b.num
      · have hbeq : k.beq b = true := (beq_den2 hk hb).mpr hkb
        show Stats.lookupNumCount ([] ++ [(k, 1)]) b = _
        rw [List.nil_append, lookup_cons_pos hbeq, if_pos hkb]
        rfl
      · have hbeq : k.beq b = false := by
          rw [Bool.eq_false_iff]
          intro hc
          exact hkb ((beq_den2 hk hb).mp hc)
        show Stats.lookupNumCount ([] ++ [(k, 1)]) b = _
        rw [List.nil_append, lookup_cons_neg hbeq, if_neg hkb]
        rfl
  | p :: rest, k, b, hm, hk, hb => by
      have hpden : p.1.den = 2 := hm p (List.mem_cons_self p rest)
      have hrest : NumMapDen2 rest := fun q hq => hm q (List.mem_cons_of_mem p hq)
      by_cases hpk : p.1.beq k = true
      · rw [bump_cons_eq hpk]
        by_cases hpb : p.1.beq b = true
        · have hknum : k.num = b.num := by
            have h1 := (beq_den2 hpden hk).mp hpk
            have h2 := (beq_den2 hpden hb).mp hpb
            omega
          rw [lookup_cons_pos (p := (p.1, p.2 + 1)) hpb, lookup_cons_pos hpb, if_pos hknum]
        · have hknum : k.num ≠ b.num := by
            intro hc
            have h1 := (beq_den2 hpden hk).mp hpk
            exact (Bool.eq_false_iff.mp (by simpa using hpb))
              ((beq_den2 hpden hb).mpr (by omega))
          have hfind : Stats.lookupNumCount
              (rest.map (fun q => if q.1.beq k then (q.1, q.2 + 1) else q)) b =
              Stats.lookupNumCount rest b := by
            unfold Stats.lookupNumCount
            rw [find_bump_map_ne rest k b hrest hk hb hknum]
          rw [lookup_cons_neg (p := (p.1, p.2 + 1)) (by simpa using hpb),
            lookup_cons_neg (by simpa using hpb), hfind, if_neg hknum]
          rfl
      · have hpk2 : p.1.beq k = false := by simpa using hpk
        rw [bump_cons_ne hpk2]
        by_cases hpb : p.1.beq b = true
        · have hknum : k.num ≠ b.num := by
            intro hc
            have h2 := (beq_den2 hpden hb).mp hpb
            exact (Bool.eq_false_iff.mp hpk2) ((beq_den2 hpden hk).mpr (by omega))
          rw [lookup_cons_pos hpb, lookup_cons_pos hpb, if_neg hknum]
          rfl
        · rw [lookup_cons_neg (by simpa using hpb), lookup_cons_neg (by simpa using hpb)]
          exact lookup_bumpNumMap rest k b hrest hk hb

theorem histFold_lookup : ∀ (nums : List JsNum) (m0 : List (JsNum × Nat)) (b : JsNum),
    NumMapDen2 m0 → b.den = 2 →
    Stats.lookupNumCount
      (nums.foldl (fun m r => Stats.bumpNumMap m ⟨JsNum.jround (JsNum.mul r ⟨2, 1⟩), 2⟩) m0) b =
    Stats.lookupNumCount m0 b +
      nums.countP (fun r => JsNum.jround (JsNum.mul r ⟨2, 1⟩) = b.num)
  | [], m0, b, _, _ => by simp
  | r :: rs, m0, b, hm0, hb => by
      rw [List.foldl_cons,
        histFold_lookup rs _ b (bumpNumMapDen2 hm0 rfl) hb,
        lookup_bumpNumMap m0 _ b hm0 rfl hb, List.countP_cons]
      by_cases h : JsNum.jround (JsNum.mul r ⟨2, 1⟩) = b.num <;> simp [h] <;> omega

theorem bucketsDen2 : ∀ b ∈ Stats.ratingBucketsHalfStars, b.den = 2 := by
  intro b hb
  rcases List.mem_map.mp hb with ⟨i, _, rfl⟩
  rfl

theorem seedDen2 : NumMapDen2 (Stats.ratingBucketsHalfStars.map fun r => (r, 0)) := by
  intro p hp
  rcases List.mem_map.mp hp with ⟨r, hr, rfl⟩
  exact bucketsDen2 r hr

theorem histogramOf_lookup (nums : List JsNum) (z : Int) :
    Stats.lookupNumCount (Stats.histMapOf nums) ⟨z, 2⟩ =
      nums.countP (fun r => JsNum.jround (JsNum.mul r ⟨2, 1⟩) = z) := by
  unfold Stats.histMapOf
  rw [histFold_lookup nums _ ⟨z, 2⟩ seedDen2 rfl, lookupNumCountZero]
  · simp
  · intro p hp
    rcases List.mem_map.mp hp with ⟨r, _, rfl⟩
    rfl

theorem histogramOf_get (nums : List JsNum) (k : Nat) (hk : k < 10) :
    (Stats.histogramOf nums).get? k =
      some { rating := ⟨(k : Int) + 1, 2⟩
             count := nums.countP
               (fun r => JsNum.jround (JsNum.mul r ⟨2, 1⟩) = (k : Int) + 1) } := by
  have hlook := histogramOf_lookup nums ((k : Int) + 1)
  interval_cases k <;> (rw [← hlook]; rfl)

theorem histogramOf_ratings (nums : List JsNum) :
    (Stats.histogramOf nums).map Stats.HistBucket.rating = Stats.ratingBucketsHalfStars := by
  unfold Stats.histogramOf
  rw [List.map_map]
  exact List.map_id' Stats.ratingBucketsHalfStars

/-- Claim C9, counterexample: a non-null rating of 0.1 increments no
bucket at all — the total histogram count stays 0 although one rated film
exists, and in particular the bucket nearest to 0.1 (the 0.5 bucket) stays
at count 0, refuting "each non-null rating increments the bucket nearest
to r". -/
theorem claim_C9_counterexample :
    (((Stats.computeStats "" films01 none).ratings.histogram.map
      Stats.HistBucket.count).sum = 0) ∧
    films01.countP (fun f => f.rating.isSome) = 1 ∧
    ((Stats.computeStats "" films01 none).ratings.histogram.filter
      (fun b => b.rating.beq ⟨1, 2⟩)).map Stats.HistBucket.count = [0] := by
  decide

/-- Claim C9, amended: the histogram has exactly the buckets 0.5, 1.0, …,
5.0, and bucket (k+1)/2 counts exactly the non-null ratings r whose
snapped value round(r*2)/2 equals that bucket; ratings snapping outside
the bucket range (below 0.5 or above 5.0) are dropped rather than counted
in the nearest bucket.  In particular 4.3 snaps to 4.5, not 4.0. -/
theorem claim_C9_theorem (g : String) (films : List Stats.FilmRecord) (lbl : Option String) :
    ((Stats.computeStats g films lbl).ratings.histogram.map Stats.HistBucket.rating =
      Stats.ratingBucketsHalfStars) ∧
    (∀ k : Nat, k < 10 →
      (Stats.computeStats g films lbl).ratings.histogram.get? k =
        some { rating := ⟨(k : Int) + 1, 2⟩
               count := ((films.filter (fun f => f.rated ∧ f.rating ≠ none)).filterMap
                 Stats.FilmRecord.rating).countP
                 (fun r => JsNum.jround (JsNum.mul r ⟨2, 1⟩) = (k : Int) + 1) }) := by
  have hhist : (Stats.computeStats g films lbl).ratings.histogram =
      Stats.histogramOf ((films.filter (fun f => f.rated ∧ f.rating ≠ none)).filterMap
        Stats.FilmRecord.rating) := rfl
  constructor
  · rw [hhist]
    exact histogramOf_ratings _
  · intro k hk
    rw [hhist]
    exact histogramOf_get _ k hk

/-- Claim C9, witness: on a single film rated 4.3 the amended theorem
gives the bucket shape, and the concrete evaluation shows the 4.5 bucket
at count 1 and the 4.0 bucket at count 0. -/
theorem claim_C9_witness :
    ((Stats.computeStats "" films43 none).ratings.histogram.map Stats.HistBucket.rating =
      Stats.ratingBucketsHalfStars) ∧
    (Stats.computeStats "" films43 none).ratings.histogram.get? 8 =
      some { rating := ⟨9, 2⟩
             count := ((films43.filter (fun f => f.rated ∧ f.rating ≠ none)).filterMap
               Stats.FilmRecord.rating).countP
               (fun r => JsNum.jround (JsNum.mul r ⟨2, 1⟩) = 9) } ∧
    ((Stats.computeStats "" films43 none).ratings.histogram.map
      Stats.HistBucket.count) = [0, 0, 0, 0, 0, 0, 0, 0, 1, 0] :=
  ⟨( claim_C9_theorem "" films43 none).1,
   ( claim_C9_theorem "" films43 none).2 8 (by decide),
   by decide⟩

/-!
Import-spike lemmas for claim C4: the import-day counter of the watched
pass evolves independently of the record map, each day's final count is
the number of watched rows parsing to that import date, and the
largest-entry scan is bounded by the entry values.
-/

theorem watchedStep_importDayMap (st : MergeState) (row : RawRow) (idx : Nat) :
    (watchedStep st row idx).importDayMap =
      (match importedDateOf row with
       | some d => bumpDay st.importDayMap d
       | none => st.importDayMap) := by
  simp only [watchedStep, importedDateOf]
  cases toISODateOnly (getField row ["Watched Date", "Date", "Imported Date"]) <;> rfl

theorem watchedStep_timeline (st : MergeState) (row : RawRow) (idx : Nat) :
    (watchedStep st row idx).diaryTimelineDates = st.diaryTimelineDates := by
  simp only [watchedStep]
  cases toISODateOnly (getField row ["Watched Date", "Date", "Imported Date"]) <;> rfl

theorem watchedStep_direct (st : MergeState) (row : RawRow) (idx : Nat) :
    (watchedStep st row idx).diaryDirectDates = st.diaryDirectDates := by
  simp only [watchedStep]
  cases toISODateOnly (getField row ["Watched Date", "Date", "Imported Date"]) <;> rfl

theorem watchedFold_importDayMap : ∀ (rows : List RawRow) (st : MergeState) (i : Nat),
    (foldIdx watchedStep st rows i).importDayMap = importFold rows st.importDayMap
  | [], _, _ => rfl
  | row :: rest, st, i => by
      show (foldIdx watchedStep (watchedStep st row i) rest (i + 1)).importDayMap = _
      rw [watchedFold_importDayMap rest _ (i + 1)]
      unfold importFold
      rw [List.foldl_cons, watchedStep_importDayMap]

theorem watchedFold_timeline : ∀ (rows : List RawRow) (st : MergeState) (i : Nat),
    (foldIdx watchedStep st rows i).diaryTimelineDates = st.diaryTimelineDates
  | [], _, _ => rfl
  | row :: rest, st, i => by
      show (foldIdx watchedStep (watchedStep st row i) rest (i + 1)).diaryTimelineDates = _
      rw [watchedFold_timeline rest _ (i + 1), watchedStep_timeline]

theorem watchedFold_direct : ∀ (rows : List RawRow) (st : MergeState) (i : Nat),
    (foldIdx watchedStep st rows i).diaryDirectDates = st.diaryDirectDates
  | [], _, _ => rfl
  | row :: rest, st, i => by
      show (foldIdx watchedStep (watchedStep st row i) rest (i + 1)).diaryDirectDates = _
      rw [watchedFold_direct rest _ (i + 1), watchedStep_direct]

theorem lookupCount_cons_pos {p : String × Nat} {m : List (String × Nat)} {k : String}
    (h : p.1 = k) : Stats.lookupCount (p :: m) k = p.2 := by
  unfold Stats.lookupCount
  rw [List.find?_cons_of_pos (p := fun q : String × Nat => q.1 = k) _ (by simp [h])]
  rfl

theorem lookupCount_cons_neg {p : String × Nat} {m : List (String × Nat)} {k : String}
    (h : p.1 ≠ k) : Stats.lookupCount (p :: m) k = Stats.lookupCount m k := by
  unfold Stats.lookupCount
  rw [List.find?_cons_of_neg (p := fun q : String × Nat => q.1 = k) _ (by simp [h])]

theorem bumpDay_cons_eq {p : String × Nat} {rest : List (String × Nat)} {d : String}
    (h : p.1 = d) :
    bumpDay (p :: rest) d =
      (p.1, p.2 + 1) :: rest.map (fun q => if q.1 = d then (q.1, q.2 + 1) else q) := by
  unfold bumpDay
  rw [if_pos (by simp [List.any_cons, h])]
  simp [List.map_cons, h]

theorem bumpDay_cons_ne {p : String × Nat} {rest : List (String × Nat)} {d : String}
    (h : p.1 ≠ d) : bumpDay (p :: rest) d = p :: bumpDay rest d := by
  unfold bumpDay
  by_cases hany : rest.any (fun q => q.1 = d) = true
  · rw [if_pos (by simp [List.any_cons, hany]), if_pos hany]
    simp [List.map_cons, h]
  · rw [if_neg (by simp [List.any_cons, h, hany]), if_neg hany]
    simp [List.cons_append]

theorem find_bumpDayMap_ne : ∀ (rest : List (String × Nat)) (d x : String), d ≠ x →
    (rest.map (fun q => if q.1 = d then (q.1, q.2 + 1) else q)).find?
      (fun q => q.1 = x) = rest.find? (fun q => q.1 = x)
  | [], _, _, _ => rfl
  | q :: qs, d, x, hdx => by
      by_cases hqd : q.1 = d
      · have hqx : (q.1 = x) = False := by simp [hqd, hdx]
        rw [List.map_cons, if_pos hqd,
          List.find?_cons_of_neg (p := fun r : String × Nat => r.1 = x) _ (by simp [hqx]),
          List.find?_cons_of_neg (p := fun r : String × Nat => r.1 = x) _ (by simp [hqx])]
        exact find_bumpDayMap_ne qs d x hdx
      · rw [List.map_cons, if_neg hqd]
        by_cases hqx : q.1 = x
        · rw [List.find?_cons_of_pos (p := fun r : String × Nat => r.1 = x) _ (by simp [hqx]),
            List.find?_cons_of_pos (p := fun r : String × Nat => r.1 = x) _ (by simp [hqx])]
        · rw [List.find?_cons_of_neg (p := fun r : String × Nat => r.1 = x) _ (by simp [hqx]),
            List.find?_cons_of_neg (p := fun r : String × Nat => r.1 = x) _ (by simp [hqx])]
          exact find_bumpDayMap_ne qs d x hdx

theorem lookup_bumpDay : ∀ (m : List (String × Nat)) (d x : String),
    Stats.lookupCount (bumpDay m d) x =
      Stats.lookupCount m x + (if d = x then 1 else 0)
  | [], d, x => by
      by_cases hdx : d = x
      · show Stats.lookupCount ([] ++ [(d, 1)]) x = _
        rw [List.nil_append, lookupCount_cons_pos hdx, if_pos hdx]
        rfl
      · show Stats.lookupCount ([] ++ [(d, 1)]) x = _
        rw [List.nil_append, lookupCount_cons_neg hdx, if_neg hdx]
        rfl
  | p :: rest, d, x => by
      by_cases hpd : p.1 = d
      · rw [bumpDay_cons_eq hpd]
        by_cases hpx : p.1 = x
        · have hdx : d = x := by rw [← hpd, hpx]
          rw [lookupCount_cons_pos (p := (p.1, p.2 + 1)) hpx, lookupCount_cons_pos hpx,
            if_pos hdx]
        · have hdx : d ≠ x := by rw [← hpd]; exact hpx
          have hfind : Stats.lookupCount
              (rest.map (fun q => if q.1 = d then (q.1, q.2 + 1) else q)) x =
              Stats.lookupCount rest x := by
            unfold Stats.lookupCount
            rw [find_bumpDayMap_ne rest d x hdx]
          rw [lookupCount_cons_neg (p := (p.1, p.2 + 1)) hpx, lookupCount_cons_neg hpx,
            hfind, if_neg hdx]
          rfl
      · rw [bumpDay_cons_ne hpd]
        by_cases hpx : p.1 = x
        · have hdx : d ≠ x := by rw [← hpx]; intro hc; exact hpd hc.symm
          rw [lookupCount_cons_pos hpx, lookupCount_cons_pos hpx, if_neg hdx]
          rfl
        · rw [lookupCount_cons_neg hpx, lookupCount_cons_neg hpx]
          exact lookup_bumpDay rest d x

theorem lookup_importFold : ∀ (rows : List RawRow) (m : List (String × Nat)) (d : String),
    Stats.lookupCount (importFold rows m) d =
      Stats.lookupCount m d + rows.countP (fun row => importedDateOf row = some d)
  | [], _, _ => by simp [importFold]
  | row :: rest, m, d => by
      unfold importFold
      rw [List.foldl_cons, List.countP_cons]
      cases hrow : importedDateOf row with
      | some d0 =>
          have := lookup_importFold rest (bumpDay m d0) d
          unfold importFold at this
          rw [this, lookup_bumpDay m d0 d]
          by_cases h : d0 = d
          · rw [if_pos h, if_pos (show decide (some d0 = some d) = true by simp [h])]
            omega
          · rw [if_neg h, if_neg (show ¬ decide (some d0 = some d) = true by simp [h])]
            omega
      | none =>
          have := lookup_importFold rest m d
          unfold importFold at this
          rw [this]
          simp [hrow]

theorem largestFold_min : ∀ (m : List (String × Nat)) (acc : Option String × Nat),
    acc.2 ≤ (m.foldl (fun acc p => if p.2 > acc.2 then (some p.1, p.2) else acc) acc).2
  | [], _ => le_refl _
  | p :: rest, acc => by
      rw [List.foldl_cons]
      refine le_trans ?_ (largestFold_min rest _)
      by_cases h : p.2 > acc.2
      · rw [if_pos h]
        exact le_of_lt h
      · rw [if_neg h]

theorem largestFold_ge : ∀ (m : List (String × Nat)) (acc : Option String × Nat)
    (p : String × Nat), p ∈ m →
    p.2 ≤ (m.foldl (fun acc q => if q.2 > acc.2 then (some q.1, q.2) else acc) acc).2
  | [], _, p, h => absurd h (List.not_mem_nil p)
  | q :: rest, acc, p, h => by
      rw [List.foldl_cons]
      rcases List.mem_cons.mp h with he | ht
      · subst he
        refine le_trans ?_ (largestFold_min rest _)
        by_cases hq : p.2 > acc.2
        · rw [if_pos hq]
        · rw [if_neg hq]
          omega
      · exact largestFold_ge rest _ p ht

theorem largestEntry_ge (m : List (String × Nat)) (p : String × Nat) (h : p ∈ m) :
    p.2 ≤ (largestEntry m).2 :=
  largestFold_ge m (none, 0) p h

theorem largestFold_le : ∀ (m : List (String × Nat)) (acc : Option String × Nat) (B : Nat),
    acc.2 ≤ B → (∀ p ∈ m, p.2 ≤ B) →
    (m.foldl (fun acc p => if p.2 > acc.2 then (some p.1, p.2) else acc) acc).2 ≤ B
  | [], _, _, hacc, _ => hacc
  | p :: rest, acc, B, hacc, hall => by
      rw [List.foldl_cons]
      refine largestFold_le rest _ B ?_ (fun q hq => hall q (List.mem_cons_of_mem p hq))
      by_cases h : p.2 > acc.2
      · rw [if_pos h]
        exact hall p (List.mem_cons_self p rest)
      · rw [if_neg h]
        exact hacc

theorem largestEntry_le (m : List (String × Nat)) (B : Nat) (h : ∀ p ∈ m, p.2 ≤ B) :
    (largestEntry m).2 ≤ B :=
  largestFold_le m (none, 0) B (Nat.zero_le B) h

theorem lookupCount_mem (m : List (String × Nat)) (d : String)
    (h : 0 < Stats.lookupCount m d) : (d, Stats.lookupCount m d) ∈ m := by
  unfold Stats.lookupCount at h ⊢
  cases hf : m.find? (fun p => p.1 = d) with
  | none =>
      rw [hf] at h
      simp at h
  | some p =>
      have hmem := List.mem_of_find?_eq_some hf
      have hpd : p.1 = d := by
        have := List.find?_some hf
        simpa using this
      simp only [Option.map_some', Option.getD_some]
      rw [← hpd]
      exact hmem

theorem addSourceIfMissing_key (source : String) (r : FilmRecord) :
    (addSourceIfMissing source r).key = r.key := by
  unfold addSourceIfMissing
  split <;> rfl

theorem diaryUpd_key (row : RawRow) (fr : FilmRecord) : (diaryUpd row fr).key = fr.key := by
  simp only [diaryUpd]
  cases toISODateOnly (getField row ["Watched Date", "Watched", "Date"]) <;>
    cases toISODateOnly (getField row ["Logged Date", "Logged", "Diary Date"]) <;>
    (split <;> split <;> rfl)

theorem upsertRecs_keys (recs : List FilmRecord) (row : RawRow) (source : String) (idx : Nat)
    (upd : FilmRecord → FilmRecord) (hupd : ∀ r, (upd r).key = r.key) :
    (upsertRecs recs row source idx upd).1.map FilmRecord.key =
      (if (makeKeyFromRow row ("unknown:" ++ source ++ ":" ++ Nat.repr idx)).1
          ∈ recs.map FilmRecord.key
       then recs.map FilmRecord.key
       else recs.map FilmRecord.key ++
         [(makeKeyFromRow row ("unknown:" ++ source ++ ":" ++ Nat.repr idx)).1]) := by
  simp only [upsertRecs]
  by_cases hany : recs.any
      (fun r => r.key = (makeKeyFromRow row ("unknown:" ++ source ++ ":" ++ Nat.repr idx)).1)
      = true
  · rw [if_pos hany]
    have hmem : (makeKeyFromRow row ("unknown:" ++ source ++ ":" ++ Nat.repr idx)).1
        ∈ recs.map FilmRecord.key := by
      rcases List.any_eq_true.mp hany with ⟨r, hr, hrk⟩
      exact List.mem_map.mpr ⟨r, hr, of_decide_eq_true hrk⟩
    rw [if_pos hmem, List.map_map]
    refine List.map_congr_left ?_
    intro r _
    simp only [Function.comp]
    by_cases hrk : r.key = (makeKeyFromRow row ("unknown:" ++ source ++ ":" ++ Nat.repr idx)).1
    · rw [if_pos hrk, hupd, addSourceIfMissing_key, hrk]
    · rw [if_neg hrk]
  · rw [if_neg hany]
    have hmem : (makeKeyFromRow row ("unknown:" ++ source ++ ":" ++ Nat.repr idx)).1
        ∉ recs.map FilmRecord.key := by
      intro hc
      rcases List.mem_map.mp hc with ⟨r, hr, hrk⟩
      exact hany (List.any_eq_true.mpr ⟨r, hr, decide_eq_true hrk⟩)
    rw [if_neg hmem, List.map_append, List.map_cons, List.map_nil, hupd]

theorem watchedStep_recs (st : MergeState) (row : RawRow) (idx : Nat) :
    (watchedStep st row idx).recs =
      (upsertRecs st.recs row "watched" idx (fun r => { r with watched := true })).1 := by
  simp only [watchedStep]
  cases toISODateOnly (getField row ["Watched Date", "Date", "Imported Date"]) <;> rfl

theorem diaryStep_recs (st : MergeState) (row : RawRow) (idx : Nat) :
    (diaryStep st row idx).recs =
      (upsertRecs st.recs row "diary" idx (diaryUpd row)).1 := by
  simp only [diaryStep]
  cases toISODateOnly (getField row ["Watched Date", "Watched", "Date"]) <;>
    cases toISODateOnly (getField row ["Logged Date", "Logged", "Diary Date"]) <;> rfl

theorem diaryStep_importDayMap (st : MergeState) (row : RawRow) (idx : Nat) :
    (diaryStep st row idx).importDayMap = st.importDayMap := by
  simp only [diaryStep]
  cases toISODateOnly (getField row ["Watched Date", "Watched", "Date"]) <;>
    cases toISODateOnly (getField row ["Logged Date", "Logged", "Diary Date"]) <;> rfl

theorem diaryStep_timeline (st : MergeState) (row : RawRow) (idx : Nat) :
    (diaryStep st row idx).diaryTimelineDates =
      st.diaryTimelineDates ++
        (match toISODateOnly (getField row ["Watched Date", "Watched", "Date"]),
            toISODateOnly (getField row ["Logged Date", "Logged", "Diary Date"]) with
         | some w, _ => [w]
         | none, some l => [l]
         | none, none => []) := by
  simp only [diaryStep]
  cases toISODateOnly (getField row ["Watched Date", "Watched", "Date"]) <;>
    cases toISODateOnly (getField row ["Logged Date", "Logged", "Diary Date"]) <;> simp

theorem watchedStep_keys (st : MergeState) (row : RawRow) (idx : Nat) :
    keysOf (watchedStep st row idx) =
      (if (makeKeyFromRow row ("unknown:" ++ "watched" ++ ":" ++ Nat.repr idx)).1 ∈ keysOf st
       then keysOf st
       else keysOf st ++
         [(makeKeyFromRow row ("unknown:" ++ "watched" ++ ":" ++ Nat.repr idx)).1]) := by
  unfold keysOf
  rw [watchedStep_recs,
    upsertRecs_keys st.recs row "watched" idx (fun r => { r with watched := true })
      (fun r => rfl)]

theorem diaryStep_keys (st : MergeState) (row : RawRow) (idx : Nat) :
    keysOf (diaryStep st row idx) =
      (if (makeKeyFromRow row ("unknown:" ++ "diary" ++ ":" ++ Nat.repr idx)).1 ∈ keysOf st
       then keysOf st
       else keysOf st ++
         [(makeKeyFromRow row ("unknown:" ++ "diary" ++ ":" ++ Nat.repr idx)).1]) := by
  unfold keysOf
  rw [diaryStep_recs, upsertRecs_keys _ _ _ _ _ (diaryUpd_key row)]

theorem watchedStep_keys_len (st : MergeState) (row : RawRow) (idx : Nat) :
    1 ≤ (keysOf (watchedStep st row idx)).length ∧
    (keysOf st).length ≤ (keysOf (watchedStep st row idx)).length ∧
    (keysOf (watchedStep st row idx)).length ≤ (keysOf st).length + 1 := by
  rw [watchedStep_keys]
  split
  · rename_i hmem
    have hne : keysOf st ≠ [] := by
      intro h
      rw [h] at hmem
      exact absurd hmem (List.not_mem_nil _)
    have hpos : 0 < (keysOf st).length := List.length_pos.mpr hne
    omega
  · rw [List.length_append, List.length_cons, List.length_nil]
    omega

theorem diaryStep_keys_len (st : MergeState) (row : RawRow) (idx : Nat) :
    (keysOf st).length ≤ (keysOf (diaryStep st row idx)).length ∧
    (keysOf (diaryStep st row idx)).length ≤ (keysOf st).length + 1 := by
  rw [diaryStep_keys]
  split
  · omega
  · rw [List.length_append, List.length_cons, List.length_nil]
    omega

theorem watchedFold_keys_len : ∀ (rows : List RawRow) (st : MergeState) (i : Nat),
    (keysOf st).length ≤ (keysOf (foldIdx watchedStep st rows i)).length ∧
    (keysOf (foldIdx watchedStep st rows i)).length ≤ (keysOf st).length + rows.length ∧
    (rows ≠ [] → 1 ≤ (keysOf (foldIdx watchedStep st rows i)).length)
  | [], st, i => by
      refine ⟨?_, ?_, fun hne => absurd rfl hne⟩
      · show (keysOf st).length ≤ (keysOf st).length
        exact le_refl _
      · show (keysOf st).length ≤ (keysOf st).length + List.length []
        simp
  | row :: rest, st, i => by
      have hstep := watchedStep_keys_len st row i
      have hrec := watchedFold_keys_len rest (watchedStep st row i) (i + 1)
      have hunf : foldIdx watchedStep st (row :: rest) i
          = foldIdx watchedStep (watchedStep st row i) rest (i + 1) := rfl
      rw [hunf, List.length_cons]
      rcases hstep with ⟨h1, h2, h3⟩
      rcases hrec with ⟨h4, h5, _⟩
      exact ⟨by omega, by omega, fun _ => by omega⟩

theorem bumpDay_fst (m : List (String × Nat)) (d : String) :
    (bumpDay m d).map Prod.fst =
      (if m.any (fun q => q.1 = d) = true then m.map Prod.fst
       else m.map Prod.fst ++ [d]) := by
  unfold bumpDay
  split
  · rw [List.map_map]
    refine List.map_congr_left ?_
    intro q _
    simp only [Function.comp]
    by_cases hq : q.1 = d
    · rw [if_pos hq]
    · rw [if_neg hq]
  · rw [List.map_append]
    rfl

theorem bumpDay_fst_nodup (m : List (String × Nat)) (d : String)
    (h : (m.map Prod.fst).Nodup) : ((bumpDay m d).map Prod.fst).Nodup := by
  rw [bumpDay_fst]
  split
  · exact h
  · have hd : d ∉ m.map Prod.fst := by
      intro hc
      rcases List.mem_map.mp hc with ⟨q, hq, hqd⟩
      rename_i hany
      exact hany (List.any_eq_true.mpr ⟨q, hq, decide_eq_true hqd⟩)
    simp [List.nodup_append, h, hd]

theorem importFold_fst_nodup : ∀ (rows : List RawRow) (m : List (String × Nat)),
    (m.map Prod.fst).Nodup → ((importFold rows m).map Prod.fst).Nodup
  | [], _, h => h
  | row :: rest, m, h => by
      unfold importFold
      rw [List.foldl_cons]
      cases hrow : importedDateOf row with
      | some d =>
          exact importFold_fst_nodup rest (bumpDay m d) (bumpDay_fst_nodup m d h)
      | none =>
          exact importFold_fst_nodup rest m h

theorem entry_lookup : ∀ (m : List (String × Nat)), (m.map Prod.fst).Nodup →
    ∀ p ∈ m, Stats.lookupCount m p.1 = p.2
  | [], _, p, hp => absurd hp (List.not_mem_nil p)
  | q :: rest, hnd, p, hp => by
      rcases List.mem_cons.mp hp with he | ht
      · subst he
        exact lookupCount_cons_pos rfl
      · rw [List.map_cons] at hnd
        have hnd' := List.nodup_cons.mp hnd
        have hq : q.1 ≠ p.1 := by
          intro hc
          exact hnd'.1 (hc ▸ List.mem_map_of_mem Prod.fst ht)
        rw [lookupCount_cons_neg hq]
        exact entry_lookup rest hnd'.2 p ht

theorem countP_eq_count_filterMap : ∀ (rows : List RawRow) (d : String),
    rows.countP (fun row => importedDateOf row = some d) =
      (rows.filterMap importedDateOf).count d
  | [], _ => rfl
  | row :: rest, d => by
      rw [List.countP_cons, List.filterMap_cons]
      cases hrow : importedDateOf row with
      | none => simp [countP_eq_count_filterMap rest d]
      | some b =>
          by_cases hbd : b = d
          · simp [hbd, List.count_cons, countP_eq_count_filterMap rest d]
          · simp [hbd, List.count_cons, countP_eq_count_filterMap rest d]

theorem c4_mergeState (rows : List RawRow) :
    mergeState (c4Tables rows) =
      diaryStep (diaryStep (foldIdx watchedStep initState rows 0) c4d1 0) c4d2 1 := rfl

theorem c4_importDayMap (rows : List RawRow) :
    (mergeState (c4Tables rows)).importDayMap = importFold rows [] := by
  rw [c4_mergeState, diaryStep_importDayMap, diaryStep_importDayMap,
    watchedFold_importDayMap]
  rfl

theorem c4_timeline (rows : List RawRow) :
    (mergeState (c4Tables rows)).diaryTimelineDates = ["2020-01-01", "2023-01-01"] := by
  rw [c4_mergeState, diaryStep_timeline, diaryStep_timeline, watchedFold_timeline]
  rfl

theorem c4_films_len (rows : List RawRow) (hne : rows ≠ []) :
    1 ≤ (keysOf (mergeState (c4Tables rows))).length ∧
    (keysOf (mergeState (c4Tables rows))).length ≤ rows.length + 2 := by
  have hfold := watchedFold_keys_len rows initState 0
  rcases hfold with ⟨_, hf2, hf3⟩
  have hd1 := diaryStep_keys_len (foldIdx watchedStep initState rows 0) c4d1 0
  have hd2 := diaryStep_keys_len
    (diaryStep (foldIdx watchedStep initState rows 0) c4d1 0) c4d2 1
  have hinit : (keysOf initState).length = 0 := rfl
  rw [c4_mergeState]
  have hp := hf3 hne
  omega

theorem c4_spike_eq (rows : List RawRow) :
    (mergeTablesToFilms (c4Tables rows)).anomaly.importSpikeDetected =
      (decide ((largestEntry (mergeState (c4Tables rows)).importDayMap).2 ≥ 20) &&
        JsNum.jle ⟨25, 100⟩
          (if ((mergeState (c4Tables rows)).recs.map finaliseRecord).length ≠ 0 then
            JsNum.div
              (JsNum.ofNat (largestEntry (mergeState (c4Tables rows)).importDayMap).2)
              (JsNum.ofNat ((mergeState (c4Tables rows)).recs.map finaliseRecord).length)
          else ⟨0, 1⟩) &&
        JsNum.jlt ⟨1, 1⟩
          (collectSpanYears (mergeState (c4Tables rows)).diaryTimelineDates)) := rfl

theorem c4_spike_true (rows : List RawRow)
    (hlen : rows.length = 500)
    (hcount : rows.countP (fun row => importedDateOf row = some "2020-05-05") = 200) :
    (mergeTablesToFilms (c4Tables rows)).anomaly.importSpikeDetected = true := by
  have hne : rows ≠ [] := by
    intro h
    rw [h] at hlen
    simp at hlen
  have hlook : Stats.lookupCount ((mergeState (c4Tables rows)).importDayMap) "2020-05-05"
      = 200 := by
    have h := lookup_importFold rows [] "2020-05-05"
    rw [hcount] at h
    rw [c4_importDayMap, h]
    rfl
  have hmem : ("2020-05-05", (200 : Nat)) ∈ (mergeState (c4Tables rows)).importDayMap := by
    have h0 : 0 < Stats.lookupCount ((mergeState (c4Tables rows)).importDayMap) "2020-05-05"
        := by
      rw [hlook]
      omega
    have h := lookupCount_mem _ _ h0
    rwa [hlook] at h
  have hL : 200 ≤ (largestEntry (mergeState (c4Tables rows)).importDayMap).2 :=
    largestEntry_ge _ _ hmem
  have hkb := c4_films_len rows hne
  have hflen : 1 ≤ ((mergeState (c4Tables rows)).recs.map finaliseRecord).length ∧
      ((mergeState (c4Tables rows)).recs.map finaliseRecord).length ≤ 502 := by
    have hkeq : (keysOf (mergeState (c4Tables rows))).length
        = (mergeState (c4Tables rows)).recs.length := by
      unfold keysOf
      rw [List.length_map]
    rw [List.length_map]
    omega
  have hc1 : decide ((largestEntry (mergeState (c4Tables rows)).importDayMap).2 ≥ 20)
      = true := decide_eq_true (by omega)
  have hc2 : JsNum.jle ⟨25, 100⟩
      (JsNum.div (JsNum.ofNat (largestEntry (mergeState (c4Tables rows)).importDayMap).2)
        (JsNum.ofNat ((mergeState (c4Tables rows)).recs.map finaliseRecord).length))
      = true := by
    unfold JsNum.jle JsNum.div JsNum.ofNat
    rw [if_pos (Int.natCast_nonneg _)]
    apply decide_eq_true
    rcases hflen with ⟨hf1, hf2⟩
    push_cast
    omega
  have hc3 : JsNum.jlt ⟨1, 1⟩ (collectSpanYears ["2020-01-01", "2023-01-01"]) = true := by
    decide
  have hfne : ((mergeState (c4Tables rows)).recs.map finaliseRecord).length ≠ 0 := by
    omega
  rw [c4_spike_eq, c4_timeline, if_pos hfne, hc1, hc2, hc3]
  rfl

theorem c4_spike_false (rows : List RawRow)
    (hnd : (rows.filterMap importedDateOf).Nodup) :
    (mergeTablesToFilms (c4Tables rows)).anomaly.importSpikeDetected = false := by
  have hball : ∀ p ∈ (mergeState (c4Tables rows)).importDayMap, p.2 ≤ 1 := by
    rw [c4_importDayMap]
    intro p hp
    have hk := importFold_fst_nodup rows [] (by simp)
    have hlp := entry_lookup _ hk p hp
    have hcnt := lookup_importFold rows [] p.1
    have h0 : Stats.lookupCount [] p.1 = 0 := rfl
    have hval : p.2 = rows.countP (fun row => importedDateOf row = some p.1) := by
      rw [← hlp, hcnt, h0]
      omega
    rw [hval, countP_eq_count_filterMap]
    exact List.nodup_iff_count_le_one.mp hnd p.1
  have hL : (largestEntry (mergeState (c4Tables rows)).importDayMap).2 ≤ 1 :=
    largestEntry_le _ 1 hball
  have hc1 : decide ((largestEntry (mergeState (c4Tables rows)).importDayMap).2 ≥ 20)
      = false := decide_eq_false (by omega)
  rw [c4_spike_eq, hc1]
  rfl

theorem countP_replicate {α : Type} (p : α → Bool) (n : Nat) (a : α) :
    (List.replicate n a).countP p = if p a then n else 0 := by
  induction n with
  | zero => simp
  | succ n ih =>
      rw [List.replicate_succ, List.countP_cons, ih]
      by_cases h : p a
      · rw [if_pos h, if_pos h, if_pos h]
      · rw [if_neg h, if_neg h, if_neg h]

theorem digitChar_isWs (d : Nat) (h : d < 10) : isWsChar (digitChar d) = false := by
  interval_cases d <;> decide

theorem digitChar_isDigit (d : Nat) (h : d < 10) : (digitChar d).isDigit = true := by
  interval_cases d <;> decide

theorem digitChar_toNat (d : Nat) (h : d < 10) : (digitChar d).toNat = 48 + d := by
  interval_cases d <;> decide

theorem trimChars_sandwich (c d : Char) (mid : List Char)
    (hc : isWsChar c = false) (hd : isWsChar d = false) :
    trimChars (c :: (mid ++ [d])) = c :: (mid ++ [d])  := by
  unfold trimChars
  rw [List.dropWhile_cons]
  rw [if_neg (by simp [hc])]
  have hrev : (c :: (mid ++ [d])).reverse = d :: (mid.reverse ++ [c]) := by
    simp
  rw [hrev, List.dropWhile_cons, if_neg (by simp [hd])]
  have hback : (d :: (mid.reverse ++ [c])).reverse = c :: (mid ++ [d]) := by
    simp
  rw [hback]

theorem toISO_c4 (a b c : Char) (ha : a.isDigit = true) (hb : b.isDigit = true)
    (hc : c.isDigit = true)
    (hw : trimChars ('1' :: a :: b :: c :: '-' :: '0' :: '1' :: '-' :: '0' :: '1' :: [])
      = '1' :: a :: b :: c :: '-' :: '0' :: '1' :: '-' :: '0' :: '1' :: []) :
    toISODateOnly
        (some (String.mk ('1' :: a :: b :: c :: '-' :: '0' :: '1' :: '-' :: '0' :: '1' :: [])))
      = some (String.mk ('1' :: a :: b :: c :: '-' :: '0' :: '1' :: '-' :: '0' :: '1' :: []))
      := by
  have hcs : (trimChars (String.mk
      ('1' :: a :: b :: c :: '-' :: '0' :: '1' :: '-' :: '0' :: '1' :: [])).data).take 10
      = '1' :: a :: b :: c :: '-' :: '0' :: '1' :: '-' :: '0' :: '1' :: [] := by
    rw [show (String.mk
      ('1' :: a :: b :: c :: '-' :: '0' :: '1' :: '-' :: '0' :: '1' :: [])).data
      = '1' :: a :: b :: c :: '-' :: '0' :: '1' :: '-' :: '0' :: '1' :: [] from rfl, hw]
    rfl
  simp only [toISODateOnly, Option.bind, hcs]
  rw [if_pos ?_]
  have hm : digitsToNat ['0', '1'] = 1 := rfl
  have hdm : daysInMonth (digitsToNat ['1', a, b, c]) 1 = 31 := rfl
  simp [ha, hb, hc, hm, hdm]

theorem c4Day_trim (i : Nat) : trimChars (c4Day i).data = (c4Day i).data := by
  rw [show (c4Day i).data = '1' :: ([digitChar (i / 100), digitChar (i / 10 % 10),
    digitChar (i % 10), '-', '0', '1', '-', '0'] ++ ['1']) from rfl]
  exact trimChars_sandwich _ _ _ (by decide) (by decide)

theorem getField_c4RowB (i : Nat) :
    getField (c4RowB i) ["Watched Date", "Date", "Imported Date"] = some (c4Day i) := by
  show (if trimChars (c4Day i).data ≠ [] then some (c4Day i)
        else getField (c4RowB i) ["Imported Date"]) = some (c4Day i)
  rw [c4Day_trim i,
    if_pos (show (c4Day i).data ≠ [] by
      rw [show (c4Day i).data = '1' :: ([digitChar (i / 100), digitChar (i / 10 % 10),
        digitChar (i % 10), '-', '0', '1', '-', '0'] ++ ['1']) from rfl]
      simp)]

theorem importedDateOf_c4RowB (i : Nat) (h : i < 1000) :
    importedDateOf (c4RowB i) = some (c4Day i) := by
  have h100 : i / 100 < 10 := by omega
  have h10 : i / 10 % 10 < 10 := by omega
  have h1 : i % 10 < 10 := by omega
  unfold importedDateOf
  rw [getField_c4RowB i]
  exact toISO_c4 (digitChar (i / 100)) (digitChar (i / 10 % 10)) (digitChar (i % 10))
    (digitChar_isDigit _ h100) (digitChar_isDigit _ h10) (digitChar_isDigit _ h1)
    (by
      have := c4Day_trim i
      rw [show (c4Day i).data = '1' :: digitChar (i / 100) :: digitChar (i / 10 % 10)
        :: digitChar (i % 10) :: '-' :: '0' :: '1' :: '-' :: '0' :: '1' :: [] from rfl]
        at this
      exact this)

theorem c4Day_inj (i j : Nat) (hi : i < 1000) (hj : j < 1000) (h : c4Day i = c4Day j) :
    i = j := by
  have hi1 : i / 100 < 10 := by omega
  have hi2 : i / 10 % 10 < 10 := by omega
  have hi3 : i % 10 < 10 := by omega
  have hj1 : j / 100 < 10 := by omega
  have hj2 : j / 10 % 10 < 10 := by omega
  have hj3 : j % 10 < 10 := by omega
  have e1 : digitChar (i / 100) = digitChar (j / 100) := by
    have := congrArg (fun s : String => s.data.get? 1) h
    simpa [c4Day] using this
  have e2 : digitChar (i / 10 % 10) = digitChar (j / 10 % 10) := by
    have := congrArg (fun s : String => s.data.get? 2) h
    simpa [c4Day] using this
  have e3 : digitChar (i % 10) = digitChar (j % 10) := by
    have := congrArg (fun s : String => s.data.get? 3) h
    simpa [c4Day] using this
  have n1 := congrArg Char.toNat e1
  have n2 := congrArg Char.toNat e2
  have n3 := congrArg Char.toNat e3
  rw [digitChar_toNat _ hi1, digitChar_toNat _ hj1] at n1
  rw [digitChar_toNat _ hi2, digitChar_toNat _ hj2] at n2
  rw [digitChar_toNat _ hi3, digitChar_toNat _ hj3] at n3
  omega

theorem c4RowsB_dates : c4RowsB.filterMap importedDateOf = (List.range 500).map c4Day := by
  have haux : ∀ l : List Nat, (∀ i ∈ l, i < 1000) →
      (l.map c4RowB).filterMap importedDateOf = l.map c4Day := by
    intro l
    induction l with
    | nil => intro _; rfl
    | cons i rest ih =>
        intro hlt
        rw [List.map_cons, List.map_cons, List.filterMap_cons,
          importedDateOf_c4RowB i (hlt i (List.mem_cons_self i rest))]
        rw [ih (fun k hk => hlt k (List.mem_cons_of_mem i hk))]
  refine haux (List.range 500) ?_
  intro i hi
  have := List.mem_range.mp hi
  omega

theorem c4RowsB_nodup : (c4RowsB.filterMap importedDateOf).Nodup := by
  rw [c4RowsB_dates]
  refine List.Nodup.map_on ?_ (List.nodup_range 500)
  intro i hi j hj hij
  exact c4Day_inj i j (by have := List.mem_range.mp hi; omega)
    (by have := List.mem_range.mp hj; omega) hij

theorem c4RowsA_len : c4RowsA.length = 500 := by
  unfold c4RowsA
  rw [List.length_append, List.length_append, List.length_replicate,
    List.length_replicate, List.length_replicate]

theorem c4RowsA_countP :
    c4RowsA.countP (fun row => importedDateOf row = some "2020-05-05") = 200 := by
  unfold c4RowsA
  rw [List.countP_append, List.countP_append,
    countP_replicate, countP_replicate, countP_replicate]
  decide

theorem c4RowsB_len : c4RowsB.length = 500 := by
  unfold c4RowsB
  rw [List.length_map, List.length_range]

/-- **C4.**  Import-spike detection.  First conjunct (concentrated
import): for any 500-row watched table whose import dates place 200 of the
rows on the calendar day 2020-05-05, merged together with a diary whose
dates span 2020-2023 (more than one year), the result has
`importSpikeDetected = true` (the merged film count is at most 502, so the
largest-day ratio threshold of 0.25 is met automatically).
Second conjunct (even spread): for any 500-row watched table whose
parseable import dates are pairwise distinct, the same merge has
`importSpikeDetected = false` — the largest single-day import count is at
most 1, below the threshold of 20. -/
theorem claim_C4_theorem :
    (∀ rows : List RawRow, rows.length = 500 →
      rows.countP (fun row => importedDateOf row = some "2020-05-05") = 200 →
      (mergeTablesToFilms (c4Tables rows)).anomaly.importSpikeDetected = true) ∧
    (∀ rows : List RawRow, rows.length = 500 →
      (rows.filterMap importedDateOf).Nodup →
      (mergeTablesToFilms (c4Tables rows)).anomaly.importSpikeDetected = false) :=
  ⟨fun rows h1 h2 => c4_spike_true rows h1 h2,
   fun rows _ h2 => c4_spike_false rows h2⟩

/-- Witness for C4: the two scenario conclusions at the concrete row
lists, every hypothesis discharged there. -/
theorem claim_C4_witness :
    (mergeTablesToFilms (c4Tables c4RowsA)).anomaly.importSpikeDetected = true ∧
    (mergeTablesToFilms (c4Tables c4RowsB)).anomaly.importSpikeDetected = false :=
  ⟨claim_C4_theorem.1 c4RowsA c4RowsA_len c4RowsA_countP,
   claim_C4_theorem.2 c4RowsB c4RowsB_len c4RowsB_nodup⟩

theorem foldrMax_ge : ∀ (l : List Nat) (a : Nat), a ∈ l → a ≤ l.foldr max 0
  | [], a, h => absurd h (List.not_mem_nil a)
  | b :: bs, a, h => by
      rw [List.foldr_cons]
      rcases List.mem_cons.mp h with rfl | h2
      · exact le_max_left _ _
      · exact le_trans (foldrMax_ge bs a h2) (le_max_right _ _)

theorem foldrMax_le : ∀ (l : List Nat) (B : Nat), (∀ a ∈ l, a ≤ B) → l.foldr max 0 ≤ B
  | [], _, _ => Nat.zero_le _
  | b :: bs, B, h => by
      rw [List.foldr_cons]
      exact max_le (h b (List.mem_cons_self b bs))
        (foldrMax_le bs B (fun a ha => h a (List.mem_cons_of_mem b ha)))

theorem runLenFrom_ge (E : List Int) : ∀ (fuel : Nat) (a : Int) (n : Nat), n ≤ fuel →
    (∀ k : Nat, k < n → a + k ∈ E) → n ≤ runLenFrom E a fuel
  | _, _, 0, _, _ => Nat.zero_le _
  | 0, _, n + 1, hle, _ => absurd hle (by omega)
  | fuel + 1, a, n + 1, hle, hcov => by
      have ha : a ∈ E := by
        have := hcov 0 (by omega)
        simpa using this
      show n + 1 ≤ if a ∈ E then 1 + runLenFrom E (a + 1) fuel else 0
      rw [if_pos ha]
      have hrec : n ≤ runLenFrom E (a + 1) fuel := by
        refine runLenFrom_ge E fuel (a + 1) n (by omega) ?_
        intro k hk
        have := hcov (k + 1) (by omega)
        have hcast : a + 1 + (k : Int) = a + ((k : Nat) + 1 : Nat) := by
          push_cast
          ring
        rw [hcast]
        exact this
      omega

theorem runLenFrom_covers (E : List Int) : ∀ (fuel : Nat) (a : Int) (k : Nat),
    k < runLenFrom E a fuel → a + k ∈ E
  | 0, a, k, h => absurd h (by simp [runLenFrom])
  | fuel + 1, a, k, h => by
      by_cases ha : a ∈ E
      · have hrun : runLenFrom E a (fuel + 1) = 1 + runLenFrom E (a + 1) fuel := by
          show (if a ∈ E then 1 + runLenFrom E (a + 1) fuel else 0) = _
          rw [if_pos ha]
        rw [hrun] at h
        cases k with
        | zero => simpa using ha
        | succ k2 =>
            have := runLenFrom_covers E fuel (a + 1) k2 (by omega)
            have hcast : a + 1 + (k2 : Int) = a + ((k2 : Nat) + 1 : Nat) := by
              push_cast
              ring
            rw [hcast] at this
            exact this
      · have hrun : runLenFrom E a (fuel + 1) = 0 := by
          show (if a ∈ E then 1 + runLenFrom E (a + 1) fuel else 0) = _
          rw [if_neg ha]
        rw [hrun] at h
        omega

theorem streakSegs_props (E : List Int) :
    ∀ (rest : List String) (s p : String),
    List.Pairwise (fun a b => Stats.ymdToEpochDay a < Stats.ymdToEpochDay b) (p :: rest) →
    Stats.ymdToEpochDay s ≤ Stats.ymdToEpochDay p →
    (∀ z : Int, Stats.ymdToEpochDay s ≤ z → z ≤ Stats.ymdToEpochDay p → z ∈ E) →
    (∀ x ∈ rest, Stats.ymdToEpochDay x ∈ E) →
    (∀ z ∈ E, z ≤ Stats.ymdToEpochDay p ∨ ∃ x ∈ rest, z = Stats.ymdToEpochDay x) →
    ((∀ seg ∈ Stats.streakSegs s p rest,
        Stats.ymdToEpochDay seg.startDay ≤ Stats.ymdToEpochDay seg.endDay ∧
        seg.days = Stats.ymdToEpochDay seg.endDay - Stats.ymdToEpochDay seg.startDay + 1 ∧
        (∀ z : Int, Stats.ymdToEpochDay seg.startDay ≤ z →
          z ≤ Stats.ymdToEpochDay seg.endDay → z ∈ E) ∧
        Stats.ymdToEpochDay seg.endDay + 1 ∉ E) ∧
      (∀ z : Int, Stats.ymdToEpochDay s ≤ z → z ≤ Stats.ymdToEpochDay p →
        ∃ seg ∈ Stats.streakSegs s p rest,
          Stats.ymdToEpochDay seg.startDay ≤ z ∧ z ≤ Stats.ymdToEpochDay seg.endDay) ∧
      (∀ x ∈ rest, ∃ seg ∈ Stats.streakSegs s p rest,
        Stats.ymdToEpochDay seg.startDay ≤ Stats.ymdToEpochDay x ∧
        Stats.ymdToEpochDay x ≤ Stats.ymdToEpochDay seg.endDay))
  | [], s, p, _, hs, hint, _, hcomplete => by
      refine ⟨?_, ?_, ?_⟩
      · intro seg hseg
        have hseg1 : seg = ⟨s, p, Stats.ymdToEpochDay p - Stats.ymdToEpochDay s + 1⟩ := by
          simpa [Stats.streakSegs] using hseg
        subst hseg1
        refine ⟨hs, rfl, hint, ?_⟩
        intro hin
        have hin2 : Stats.ymdToEpochDay p + 1 ∈ E := hin
        rcases hcomplete _ hin2 with h | ⟨x, hx, _⟩
        · omega
        · exact absurd hx (List.not_mem_nil x)
      · intro z hz1 hz2
        exact ⟨⟨s, p, Stats.ymdToEpochDay p - Stats.ymdToEpochDay s + 1⟩,
          by simp [Stats.streakSegs], hz1, hz2⟩
      · intro x hx
        exact absurd hx (List.not_mem_nil x)
  | cur :: rest2, s, p, hchain, hs, hint, hmem, hcomplete => by
      rcases List.pairwise_cons.mp hchain with ⟨hplt, hchain2⟩
      by_cases hconsec : Stats.ymdToEpochDay cur = Stats.ymdToEpochDay p + 1
      · have hred : Stats.streakSegs s p (cur :: rest2) = Stats.streakSegs s cur rest2 := by
          show (if Stats.ymdToEpochDay cur = Stats.ymdToEpochDay p + 1
            then Stats.streakSegs s cur rest2
            else ⟨s, p, Stats.ymdToEpochDay p - Stats.ymdToEpochDay s + 1⟩
              :: Stats.streakSegs cur cur rest2) = _
          rw [if_pos hconsec]
        have hcurE : Stats.ymdToEpochDay cur ∈ E :=
          hmem cur (List.mem_cons_self cur rest2)
        have ih := streakSegs_props E rest2 s cur hchain2
          (by omega)
          (by
            intro z hz1 hz2
            by_cases hzp : z ≤ Stats.ymdToEpochDay p
            · exact hint z hz1 hzp
            · have : z = Stats.ymdToEpochDay cur := by omega
              rw [this]
              exact hcurE)
          (fun x hx => hmem x (List.mem_cons_of_mem cur hx))
          (by
            intro z hz
            rcases hcomplete z hz with h | ⟨x, hx, rfl⟩
            · left
              omega
            · rcases List.mem_cons.mp hx with rfl | hx2
              · left
                omega
              · right
                exact ⟨x, hx2, rfl⟩)
        rcases ih with ⟨ih1, ih2, ih3⟩
        rw [hred]
        refine ⟨ih1, ?_, ?_⟩
        · intro z hz1 hz2
          exact ih2 z hz1 (by omega)
        · intro x hx
          rcases List.mem_cons.mp hx with rfl | hx2
          · exact ih2 (Stats.ymdToEpochDay x) (by omega) (by omega)
          · exact ih3 x hx2
      · have hcurgt : Stats.ymdToEpochDay p < Stats.ymdToEpochDay cur :=
          hplt cur (List.mem_cons_self cur rest2)
        have hred : Stats.streakSegs s p (cur :: rest2) =
            ⟨s, p, Stats.ymdToEpochDay p - Stats.ymdToEpochDay s + 1⟩
              :: Stats.streakSegs cur cur rest2 := by
          show (if Stats.ymdToEpochDay cur = Stats.ymdToEpochDay p + 1
            then Stats.streakSegs s cur rest2
            else ⟨s, p, Stats.ymdToEpochDay p - Stats.ymdToEpochDay s + 1⟩
              :: Stats.streakSegs cur cur rest2) = _
          rw [if_neg hconsec]
        have hcurE : Stats.ymdToEpochDay cur ∈ E :=
          hmem cur (List.mem_cons_self cur rest2)
        have hrest2lt : ∀ x ∈ rest2, Stats.ymdToEpochDay cur < Stats.ymdToEpochDay x :=
          (List.pairwise_cons.mp hchain2).1
        have ih := streakSegs_props E rest2 cur cur hchain2
          (le_refl _)
          (by
            intro z hz1 hz2
            have : z = Stats.ymdToEpochDay cur := by omega
            rw [this]
            exact hcurE)
          (fun x hx => hmem x (List.mem_cons_of_mem cur hx))
          (by
            intro z hz
            rcases hcomplete z hz with h | ⟨x, hx, rfl⟩
            · left
              omega
            · rcases List.mem_cons.mp hx with rfl | hx2
              · left
                omega
              · right
                exact ⟨x, hx2, rfl⟩)
        rcases ih with ⟨ih1, ih2, ih3⟩
        rw [hred]
        have hgap : Stats.ymdToEpochDay p + 1 ∉ E := by
          intro hin
          rcases hcomplete _ hin with h | ⟨x, hx, hxe⟩
          · omega
          · rcases List.mem_cons.mp hx with rfl | hx2
            · omega
            · have := hrest2lt x hx2
              omega
        refine ⟨?_, ?_, ?_⟩
        · intro seg hseg
          rcases List.mem_cons.mp hseg with rfl | hseg2
          · exact ⟨hs, rfl, hint, hgap⟩
          · exact ih1 seg hseg2
        · intro z hz1 hz2
          exact ⟨⟨s, p, Stats.ymdToEpochDay p - Stats.ymdToEpochDay s + 1⟩,
            List.mem_cons_self _ _, hz1, hz2⟩
        · intro x hx
          rcases List.mem_cons.mp hx with rfl | hx2
          · rcases ih2 (Stats.ymdToEpochDay x) (le_refl _) (le_refl _) with ⟨seg, hsm, hb⟩
            exact ⟨seg, List.mem_cons_of_mem _ hsm, hb⟩
          · rcases ih3 x hx2 with ⟨seg, hsm, hb⟩
            exact ⟨seg, List.mem_cons_of_mem _ hsm, hb⟩

theorem computeStreaks_spec (days : List String)
    (H : ∀ a ∈ days, ∀ b ∈ days, jsStrLt a b = true →
      Stats.ymdToEpochDay a < Stats.ymdToEpochDay b) :
    (Stats.computeStreaks days).1 = (specLongestStreak days : Int) := by
  cases hu : dedupSortStr days with
  | nil =>
      have hdays : days = [] := by
        cases hd : days with
        | nil => rfl
        | cons d ds =>
            exfalso
            have hmem : d ∈ dedupSortStr days :=
              mem_dedupSortStr.mpr (by rw [hd]; exact List.mem_cons_self d ds)
            rw [hu] at hmem
            exact absurd hmem (List.not_mem_nil d)
      subst hdays
      rfl
  | cons u0 urest =>
      have hsortedStr := strictSorted_dedupSortStr days
      rw [hu] at hsortedStr
      have hmemu : ∀ x ∈ u0 :: urest, x ∈ days := by
        intro x hx
        have hx2 : x ∈ dedupSortStr days := by
          rw [hu]
          exact hx
        exact mem_dedupSortStr.mp hx2
      have hchainE : List.Pairwise
          (fun a b => Stats.ymdToEpochDay a < Stats.ymdToEpochDay b) (u0 :: urest) := by
        refine List.Pairwise.imp_of_mem ?_ hsortedStr
        intro a b ha hb hab
        exact H a (hmemu a ha) b (hmemu b hb) hab
      have hu0E : Stats.ymdToEpochDay u0 ∈ days.map Stats.ymdToEpochDay :=
        List.mem_map_of_mem _ (hmemu u0 (List.mem_cons_self u0 urest))
      have hprops := streakSegs_props (days.map Stats.ymdToEpochDay) urest u0 u0
        hchainE (le_refl _)
        (by
          intro z hz1 hz2
          have hz : z = Stats.ymdToEpochDay u0 := le_antisymm hz2 hz1
          rw [hz]
          exact hu0E)
        (fun x hx => List.mem_map_of_mem _ (hmemu x (List.mem_cons_of_mem u0 hx)))
        (by
          intro z hz
          rcases List.mem_map.mp hz with ⟨d, hd, rfl⟩
          have hdu : d ∈ u0 :: urest := by
            have hd2 : d ∈ dedupSortStr days := mem_dedupSortStr.mpr hd
            rw [hu] at hd2
            exact hd2
          rcases List.mem_cons.mp hdu with rfl | hd2
          · left
            exact le_refl _
          · right
            exact ⟨d, hd2, rfl⟩)
      rcases hprops with ⟨hG1, hG2, hG3⟩
      have hcode : (Stats.computeStreaks days).1 =
          (((jsSortBy (fun a b => decide (b.days ≤ a.days))
            (Stats.streakSegs u0 u0 urest)).head?.map Stats.StreakSeg.days).getD 0) := by
        unfold Stats.computeStreaks
        rw [hu]
      have htot : ∀ a b : Stats.StreakSeg,
          (decide (b.days ≤ a.days) = true) ∨ (decide (a.days ≤ b.days) = true) := by
        intro a b
        rcases le_total b.days a.days with h | h
        · left
          exact decide_eq_true h
        · right
          exact decide_eq_true h
      have htr : ∀ a b c : Stats.StreakSeg, decide (b.days ≤ a.days) = true →
          decide (c.days ≤ b.days) = true → decide (c.days ≤ a.days) = true := by
        intro a b c h1 h2
        exact decide_eq_true (le_trans (of_decide_eq_true h2) (of_decide_eq_true h1))
      have hpair := jsSortBy_pairwise htot htr (Stats.streakSegs u0 u0 urest)
      cases hsorted : jsSortBy (fun a b => decide (b.days ≤ a.days))
          (Stats.streakSegs u0 u0 urest) with
      | nil =>
          exfalso
          have hperm := jsSortBy_perm (fun a b => decide (b.days ≤ a.days))
            (Stats.streakSegs u0 u0 urest)
          rw [hsorted] at hperm
          have hsegnil : Stats.streakSegs u0 u0 urest = [] := hperm.symm.eq_nil
          rcases hG2 (Stats.ymdToEpochDay u0) (le_refl _) (le_refl _) with ⟨seg, hsm, _⟩
          rw [hsegnil] at hsm
          exact absurd hsm (List.not_mem_nil seg)
      | cons m rest_s =>
          have hm_mem : m ∈ Stats.streakSegs u0 u0 urest := by
            have hm1 : m ∈ jsSortBy (fun a b => decide (b.days ≤ a.days))
                (Stats.streakSegs u0 u0 urest) := by
              rw [hsorted]
              exact List.mem_cons_self m rest_s
            exact mem_jsSortBy.mp hm1
          have hm_max : ∀ seg ∈ Stats.streakSegs u0 u0 urest, seg.days ≤ m.days := by
            intro seg hseg
            have hseg2 : seg ∈ m :: rest_s := by
              rw [← hsorted]
              exact mem_jsSortBy.mpr hseg
            rcases List.mem_cons.mp hseg2 with rfl | hseg3
            · exact le_refl _
            · rw [hsorted] at hpair
              exact of_decide_eq_true ((List.pairwise_cons.mp hpair).1 seg hseg3)
          have hcode2 : (Stats.computeStreaks days).1 = m.days := by
            rw [hcode, hsorted]
            rfl
          rcases hG1 m hm_mem with ⟨hmse, hmdays, hmint, hmgap⟩
          have hspecdef : specLongestStreak days =
              ((days.map Stats.ymdToEpochDay).map
                (fun a => runLenFrom (days.map Stats.ymdToEpochDay) a
                  (days.map Stats.ymdToEpochDay).length)).foldr max 0 := rfl
          have hdir1 : m.days ≤ (specLongestStreak days : Int) := by
            have hS : Stats.ymdToEpochDay m.startDay ∈ days.map Stats.ymdToEpochDay :=
              hmint _ (le_refl _) hmse
            have hn_le : (Stats.ymdToEpochDay m.endDay - Stats.ymdToEpochDay m.startDay
                + 1).toNat ≤ (days.map Stats.ymdToEpochDay).length := by
              have hsub : Finset.Icc (Stats.ymdToEpochDay m.startDay)
                  (Stats.ymdToEpochDay m.endDay)
                  ⊆ (days.map Stats.ymdToEpochDay).toFinset := by
                intro z hz
                rcases Finset.mem_Icc.mp hz with ⟨h1, h2⟩
                exact List.mem_toFinset.mpr (hmint z h1 h2)
              have hcard := Finset.card_le_card hsub
              rw [Int.card_Icc] at hcard
              have hcard2 := le_trans hcard (List.toFinset_card_le _)
              omega
            have hrun : (Stats.ymdToEpochDay m.endDay - Stats.ymdToEpochDay m.startDay
                + 1).toNat ≤ runLenFrom (days.map Stats.ymdToEpochDay)
                  (Stats.ymdToEpochDay m.startDay)
                  (days.map Stats.ymdToEpochDay).length := by
              refine runLenFrom_ge _ _ _ _ hn_le ?_
              intro k hk
              refine hmint _ (by omega) (by omega)
            have hfmem : runLenFrom (days.map Stats.ymdToEpochDay)
                (Stats.ymdToEpochDay m.startDay) (days.map Stats.ymdToEpochDay).length
                ≤ specLongestStreak days := by
              rw [hspecdef]
              exact foldrMax_ge _ _ (List.mem_map_of_mem _ hS)
            rw [hmdays]
            omega
          have hdir2 : (specLongestStreak days : Int) ≤ m.days := by
            have hmd_pos : (1 : Int) ≤ m.days := by
              rw [hmdays]
              omega
            have hboundNat : specLongestStreak days ≤ m.days.toNat := by
              rw [hspecdef]
              refine foldrMax_le _ _ ?_
              intro v hv
              rcases List.mem_map.mp hv with ⟨a, haE, rfl⟩
              rcases List.mem_map.mp haE with ⟨d, hd, rfl⟩
              have hdu : d ∈ u0 :: urest := by
                have hd2 : d ∈ dedupSortStr days := mem_dedupSortStr.mpr hd
                rw [hu] at hd2
                exact hd2
              have hcover : ∃ seg ∈ Stats.streakSegs u0 u0 urest,
                  Stats.ymdToEpochDay seg.startDay ≤ Stats.ymdToEpochDay d ∧
                  Stats.ymdToEpochDay d ≤ Stats.ymdToEpochDay seg.endDay := by
                rcases List.mem_cons.mp hdu with rfl | hd3
                · exact hG2 _ (le_refl _) (le_refl _)
                · exact hG3 d hd3
              rcases hcover with ⟨seg, hsegm, hSa, haP⟩
              rcases hG1 seg hsegm with ⟨hse', hdays', hint', hgap'⟩
              have hseg_le := hm_max seg hsegm
              have hr : (runLenFrom (days.map Stats.ymdToEpochDay)
                  (Stats.ymdToEpochDay d) (days.map Stats.ymdToEpochDay).length : Int)
                  ≤ Stats.ymdToEpochDay seg.endDay - Stats.ymdToEpochDay d + 1 := by
                by_contra hlt
                push_neg at hlt
                have hk : ((Stats.ymdToEpochDay seg.endDay + 1
                    - Stats.ymdToEpochDay d).toNat) <
                    runLenFrom (days.map Stats.ymdToEpochDay) (Stats.ymdToEpochDay d)
                      (days.map Stats.ymdToEpochDay).length := by omega
                have hinE := runLenFrom_covers _ _ _ _ hk
                have heq : Stats.ymdToEpochDay d + ((Stats.ymdToEpochDay seg.endDay + 1
                    - Stats.ymdToEpochDay d).toNat : Int)
                    = Stats.ymdToEpochDay seg.endDay + 1 := by omega
                rw [heq] at hinE
                exact hgap' hinE
              have hrm : (runLenFrom (days.map Stats.ymdToEpochDay)
                  (Stats.ymdToEpochDay d) (days.map Stats.ymdToEpochDay).length : Int)
                  ≤ m.days := by omega
              omega
            omega
          rw [hcode2]
          omega

/-- **C6.**  Streak detection.  First conjunct: whenever the lexicographic
string order used by the dedup-sort agrees with the calendar (epoch-day)
order on the given best-dates — as it does on ISO `YYYY-MM-DD` dates — the
first component of `computeStreaks` equals the spec's longest streak: the
maximal length of a run of calendar-consecutive days each present in the
day set, duplicates collapsed.  Second conjunct: on the concrete
best-dates list the longest streak is `3`. -/
theorem claim_C6_theorem :
    (∀ days : List String,
      (∀ a ∈ days, ∀ b ∈ days, jsStrLt a b = true →
        Stats.ymdToEpochDay a < Stats.ymdToEpochDay b) →
      (Stats.computeStreaks days).1 = (specLongestStreak days : Int)) ∧
    (Stats.computeStreaks c6Days).1 = 3 :=
  ⟨computeStreaks_spec, by decide⟩

/-- Witness for C6: the streak equivalence applied to the concrete
best-dates list, the order-agreement hypothesis discharged by
evaluation. -/
theorem claim_C6_witness :
    (Stats.computeStreaks c6Days).1 = (specLongestStreak c6Days : Int) :=
  claim_C6_theorem.1 c6Days (by decide)
